import Mathlib

/-!
# Orchestrator streaming gateway: a shallow embedding

Source: `services-new/orchestrator/internal/http/server.go`.

Go strings are modelled as lists of Unicode code points (`List Char`), i.e. the
texts handled are valid UTF-8.  Environment behaviour (the client connection,
the upstream body, the random source, the clocks) is given by explicit inputs,
and the mutable state of one request is passed explicitly.
-/

namespace Orchestrator

/-- Go `string`, as the sequence of its code points. -/
abbrev GoString := List Char

/-! ## `strings` and `unicode` -/

/-- Go `unicode.IsSpace`: the Latin-1 spaces `\t \n \v \f \r`, space, U+0085, U+00A0,
and beyond Latin-1 the code points with the Unicode property White_Space. -/
def isSpace (c : Char) : Bool :=
  let n := c.toNat
  (9 ≤ n && n ≤ 13) || n == 32 || n == 0x85 || n == 0xA0 || n == 0x1680 ||
  (0x2000 ≤ n && n ≤ 0x200A) || n == 0x2028 || n == 0x2029 || n == 0x202F ||
  n == 0x205F || n == 0x3000

/-- Go `strings.TrimSpace`: all leading and trailing white space removed. -/
def trimSpace (s : GoString) : GoString :=
  (s.dropWhile isSpace).rdropWhile isSpace

/-- Go `strings.HasPrefix`. -/
def hasPrefix (s p : GoString) : Bool :=
  p.isPrefixOf s

/-- Go `strings.TrimPrefix`: `s` without the leading `p`, or `s` itself when `s`
does not start with `p`. -/
def trimPrefix (s p : GoString) : GoString :=
  if hasPrefix s p then s.drop p.length else s

/-- Go `strings.TrimRight(s, "/")`-style trimming of a set of trailing characters. -/
def trimRight (s : GoString) (cutset : GoString) : GoString :=
  s.rdropWhile (fun c => cutset.contains c)

/-- Go `unicode.ToLower` on one code point.  Exact on ASCII and on every code point
whose lower case is an ASCII letter (`A`–`Z`, U+0130 and the Kelvin sign U+212A).
Any other code point is returned unchanged; Go maps it to a code point outside
ASCII, so comparisons of the result with ASCII literals are the same. -/
def toLowerRune (c : Char) : Char :=
  if 'A'.toNat ≤ c.toNat ∧ c.toNat ≤ 'Z'.toNat then Char.ofNat (c.toNat + 32)
  else if c.toNat = 0x130 then 'i'
  else if c.toNat = 0x212A then 'k'
  else c

/-- Go `strings.ToLower`. -/
def toLower (s : GoString) : GoString :=
  s.map toLowerRune

/-! ## Errors -/

/-- Go `error` values, as far as the handler distinguishes them: the two sentinel
errors it tests for with `errors.Is`, any other error by its message, and the
wrapping done by `fmt.Errorf("...%w", err)`. -/
inductive GoError where
  | eof
  | canceled
  | other (msg : GoString)
  | wrapped (msg : GoString) (inner : GoError)
  deriving DecidableEq, Repr

/-- Text of `io.EOF`. -/
def eofText : GoString := "EOF".toList

/-- Text of `context.Canceled`. -/
def canceledText : GoString := "context canceled".toList

/-- Go `err.Error()`.  For `fmt.Errorf(msg + "%w", err)` the text is the format's
literal part followed by the text of the wrapped error. -/
def GoError.text : GoError → GoString
  | .eof => eofText
  | .canceled => canceledText
  | .other msg => msg
  | .wrapped msg inner => msg ++ inner.text

/-- Go `errors.Is(err, io.EOF)`: some error of the unwrap chain is `io.EOF`. -/
def GoError.isEOF : GoError → Bool
  | .eof => true
  | .canceled => false
  | .other _ => false
  | .wrapped _ inner => inner.isEOF

/-- Go `errors.Is(err, context.Canceled)`. -/
def GoError.isCanceled : GoError → Bool
  | .eof => false
  | .canceled => true
  | .other _ => false
  | .wrapped _ inner => inner.isCanceled

/-! ## The environment of one request -/

/-- A reading of `time.Now()`: the wall clock (as Unix nanoseconds) and the
monotonic clock (nanoseconds). -/
structure Time where
  wall : Int
  mono : Int
  deriving DecidableEq, Repr

/-- The JSON objects used as request and response messages inside events
(`map[string]any` in the source); a key that a map does not carry is `none`. -/
structure MessageMap where
  messageId : GoString
  conversationId : Option GoString
  parentMessageId : GoString
  sender : Option GoString
  text : Option GoString
  isCreatedByUser : Option Bool
  error : Option Bool
  deriving DecidableEq, Repr

/-- The `conversation` object of a terminal event. -/
structure ConversationMap where
  conversationId : GoString
  endpoint : Option GoString
  model : Option GoString
  promptPrefix : Option GoString
  deriving DecidableEq, Repr

/-- The payloads handed to `writeSSEEvent`, one constructor per shape built in the
source: the created event, the per-chunk message event, the final event of
`buildFinalEvent` and the error event of `sendErrorEvent`. -/
inductive Event where
  | created (created : Bool) (message : MessageMap)
  | delta (messageId conversationId parentMessageId text : GoString) (message : MessageMap)
  | final (final : Bool) (conversation : ConversationMap)
      (requestMessage responseMessage : MessageMap) (messages : List MessageMap)
  | error (final : Bool) (error : GoString) (conversationId messageId parentMessageId : GoString)
      (conversation : ConversationMap) (requestMessage responseMessage : MessageMap)
  deriving DecidableEq, Repr

/-- What one call of `w.Write` carries: literal text, or the JSON encoding of an
event (`json.Marshal`, kept symbolic). -/
inductive WriteData where
  | raw (s : GoString)
  | json (e : Event)
  deriving DecidableEq, Repr

/-- The upstream response body as an `io.Reader`: the bytes it delivers, then the
error that ends it (`io.EOF` on a clean end). -/
structure Body where
  content : GoString
  err : GoError
  deriving DecidableEq, Repr

/-- The upstream `*http.Response`. -/
structure Response where
  statusCode : Nat
  status : GoString
  body : Body
  deriving DecidableEq, Repr

/-- One message of the upstream request (`upstreamChatMessage`). -/
structure upstreamChatMessage where
  role : GoString
  content : GoString
  deriving DecidableEq, Repr

/-- The outbound request handed to `http.DefaultClient.Do`. -/
structure OutboundRequest where
  method : GoString
  url : GoString
  header : List (GoString × GoString)
  messages : List upstreamChatMessage
  deriving DecidableEq, Repr

/-- Behaviour of everything outside the handler.  The `k`-th call (from 0) of an
operation gets the `k`-th answer. -/
structure Env where
  /-- Error returned by the `k`-th `w.Write`, `none` for success. -/
  writeResult : Nat → Option GoError
  /-- Bytes delivered by the `k`-th `rand.Read`, `none` when it fails. -/
  randRead : Nat → Option (List Nat)
  /-- Reading of the `k`-th `time.Now()`. -/
  clock : Nat → Time
  /-- Whether `http.NewRequestWithContext` fails. -/
  newRequestFails : Bool
  /-- Result of `http.DefaultClient.Do`. -/
  doResult : Except GoError Response

/-- State of one request as the handler changes it. -/
structure State where
  /-- Every `w.Write` call so far, in order, with whether it succeeded. -/
  writes : List (WriteData × Bool)
  /-- Every `writeSSEEvent` call so far, in order, with whether it returned nil. -/
  events : List (Event × Bool)
  /-- Response headers set so far. -/
  header : List (GoString × GoString)
  /-- Status code of the response once the header is written. -/
  statusCode : Option Nat
  /-- Number of `rand.Read` calls so far. -/
  randCalls : Nat
  /-- Number of `time.Now()` calls so far. -/
  clockCalls : Nat
  /-- Requests sent upstream so far. -/
  outbound : List OutboundRequest

/-- State at the start of a request. -/
def State.init : State :=
  { writes := [], events := [], header := [], statusCode := none,
    randCalls := 0, clockCalls := 0, outbound := [] }

/-- Go `time.Now()`. -/
def timeNow (env : Env) (st : State) : Time × State :=
  (env.clock st.clockCalls, { st with clockCalls := st.clockCalls + 1 })

/-- Go `time.Since(t)`: the monotonic time elapsed since `t`. -/
def timeSince (env : Env) (st : State) (t : Time) : Int × State :=
  let r := timeNow env st
  (r.1.mono - t.mono, r.2)

/-- Go `w.Header().Set(key, value)`. -/
def setHeader (st : State) (key value : GoString) : State :=
  { st with header := (st.header.filter (fun kv => kv.1 != key)) ++ [(key, value)] }

/-- Go `w.WriteHeader(code)`: the first status written is the one that counts. -/
def writeHeader (st : State) (code : Nat) : State :=
  match st.statusCode with
  | none => { st with statusCode := some code }
  | some _ => st

/-- Go `w.Write(data)`: writes the header with status 200 if none was written yet,
then the data; the result is the error of this call. -/
def write (env : Env) (st : State) (data : WriteData) : Option GoError × State :=
  let st := writeHeader st 200
  let r := env.writeResult st.writes.length
  (r, { st with writes := st.writes ++ [(data, r.isNone)] })

/-- Go `http.Error(w, msg, code)`. -/
def httpError (env : Env) (st : State) (msg : GoString) (code : Nat) : State :=
  let st := setHeader st "Content-Type".toList "text/plain; charset=utf-8".toList
  let st := setHeader st "X-Content-Type-Options".toList "nosniff".toList
  let st := writeHeader st code
  (write env st (.raw (msg ++ ['\n']))).2

/-! ## Identifiers -/

/-- Go `binary.BigEndian.Uint16`. -/
def uint16BE (b : List Nat) : Nat :=
  (b.getD 1 0 ||| b.getD 0 0 <<< 8) % 2 ^ 16

/-- Go `binary.BigEndian.Uint32`. -/
def uint32BE (b : List Nat) : Nat :=
  (b.getD 3 0 ||| b.getD 2 0 <<< 8 ||| b.getD 1 0 <<< 16 ||| b.getD 0 0 <<< 24) % 2 ^ 32

/-- Go slice expression `b[lo:hi]`. -/
def slice (b : List Nat) (lo hi : Nat) : List Nat :=
  (b.take hi).drop lo

/-- Go `fmt` verb `%0<width>x` on an unsigned integer: lower-case hexadecimal,
padded on the left with zeros to at least `width` digits. -/
def fmtHex (width n : Nat) : GoString :=
  let ds := Nat.toDigits 16 n
  List.replicate (width - ds.length) '0' ++ ds

/-- Go `fmt` verb `%d` on a signed integer. -/
def fmtDecimal (n : Int) : GoString :=
  if n < 0 then '-' :: Nat.toDigits 10 n.natAbs else Nat.toDigits 10 n.natAbs

/-- Source `generateID`: sixteen random bytes with the version and variant bits
set, printed in the 8-4-4-4-12 layout; `id-<unix nanoseconds>` when the random
source fails. -/
def generateID (env : Env) (st : State) : GoString × State :=
  let st1 := { st with randCalls := st.randCalls + 1 }
  match env.randRead st.randCalls with
  | none =>
      let r := timeNow env st1
      ("id-".toList ++ fmtDecimal r.1.wall, r.2)
  | some buf =>
      let buf := buf.set 6 ((buf.getD 6 0 &&& 0x0f) ||| 0x40)
      let buf := buf.set 8 ((buf.getD 8 0 &&& 0x3f) ||| 0x80)
      (fmtHex 8 (uint32BE (slice buf 0 4)) ++ ['-'] ++
       fmtHex 4 (uint16BE (slice buf 4 6)) ++ ['-'] ++
       fmtHex 4 (uint16BE (slice buf 6 8)) ++ ['-'] ++
       fmtHex 4 (uint16BE (slice buf 8 10)) ++ ['-'] ++
       fmtHex 4 (uint16BE (slice buf 10 12)) ++
       fmtHex 8 (uint32BE (slice buf 12 16)), st1)

/-- Source `normalizeConversationID`. -/
def normalizeConversationID (env : Env) (st : State) (input : GoString) : GoString × State :=
  let trimmed := trimSpace input
  if trimmed = [] ∨ trimmed = "new".toList ∨ trimmed = "null".toList then
    generateID env st
  else (trimmed, st)

/-- Source `ensureID`. -/
def ensureID (env : Env) (st : State) (id : GoString) : GoString × State :=
  let trimmed := trimSpace id
  if trimmed = [] then generateID env st else (trimmed, st)

/-! ## The request payload and its normalisation -/

/-- Source `agentContentValue`. -/
structure agentContentValue where
  value : GoString
  deriving DecidableEq, Repr

/-- Source `agentMessageContent`; `text` is a pointer in the source, `none` is nil.
The untyped `data` and `raw` maps are never read and are left out. -/
structure agentMessageContent where
  type : GoString
  text : Option agentContentValue
  deriving DecidableEq, Repr

/-- Source `agentMessage`. -/
structure agentMessage where
  messageId : GoString
  conversationId : GoString
  parentMessageId : GoString
  sender : GoString
  role : GoString
  text : GoString
  isCreatedByUser : Bool
  content : List agentMessageContent
  deriving DecidableEq, Repr

/-- Source `agentChatPayload`; the untyped `additionalContext` map is never read and
is left out. -/
structure agentChatPayload where
  endpoint : GoString
  endpointType : GoString
  conversationId : GoString
  messageId : GoString
  parentMessageId : GoString
  text : GoString
  promptPrefix : GoString
  model : GoString
  messages : List agentMessage
  deriving DecidableEq, Repr

/-- Source constant `noParentMessageID`. -/
def noParentMessageID : GoString := "00000000-0000-0000-0000-000000000000".toList

/-- Source `resolveRole`. -/
def resolveRole (msg : agentMessage) : GoString :=
  let viaSender : GoString :=
    if msg.sender ≠ [] ∧
        (toLower msg.sender = "assistant".toList ∨ toLower msg.sender = "bot".toList ∨
          toLower msg.sender = "system".toList) then "assistant".toList
    else if msg.sender ≠ [] ∧ toLower msg.sender = "user".toList then "user".toList
    else if msg.isCreatedByUser then "user".toList
    else "assistant".toList
  if msg.role ≠ [] ∧
      (toLower msg.role = "assistant".toList ∨ toLower msg.role = "tool".toList ∨
        toLower msg.role = "system".toList ∨ toLower msg.role = "user".toList) then
    toLower msg.role
  else viaSender

/-- Source `joinContent`. -/
def joinContent : List agentMessageContent → GoString
  | [] => []
  | part :: parts =>
      match part.text with
      | some t => if part.type = "text".toList then t.value ++ joinContent parts
                  else joinContent parts
      | none => joinContent parts

/-- Source `extractLatestUserText`, on the messages in reverse order (the loop runs
from the last index down to 0). -/
def extractLatestUserTextRev : List agentMessage → GoString
  | [] => []
  | m :: older =>
      if resolveRole m = "user".toList then
        if trimSpace m.text ≠ [] then trimSpace m.text
        else if trimSpace (joinContent m.content) ≠ [] then trimSpace (joinContent m.content)
        else extractLatestUserTextRev older
      else extractLatestUserTextRev older

/-- Source `extractLatestUserText`. -/
def extractLatestUserText (messages : List agentMessage) : GoString :=
  extractLatestUserTextRev messages.reverse

/-- Loop body of source `buildUpstreamMessages`: the entries contributed by the
history. -/
def historyMessages : List agentMessage → List upstreamChatMessage
  | [] => []
  | msg :: rest =>
      let role := resolveRole msg
      if role = [] then historyMessages rest
      else
        let text := if trimSpace msg.text = [] then trimSpace (joinContent msg.content)
                    else trimSpace msg.text
        if text = [] then historyMessages rest
        else { role := role, content := text } :: historyMessages rest

/-- Source `buildUpstreamMessages`. -/
def buildUpstreamMessages (history : List agentMessage) (latestUser : GoString) :
    List upstreamChatMessage :=
  historyMessages history ++ [{ role := "user".toList, content := latestUser }]

/-! ## Event emission -/

/-- Source `writeSSEEvent`: the three writes `data: `, the JSON payload and the
blank line, stopping at the first one that fails, then a flush.  `json.Marshal`
cannot fail on the maps built here.  The call and its outcome are also recorded
in `State.events`. -/
def writeSSEEvent (env : Env) (st : State) (payload : Event) : Option GoError × State :=
  let w1 := write env st (.raw "data: ".toList)
  let w2 := write env w1.2 (.json payload)
  let w3 := write env w2.2 (.raw "\n\n".toList)
  let r : Option GoError × State :=
    match w1.1 with
    | some e => (some e, w1.2)
    | none =>
        match w2.1 with
        | some e => (some e, w2.2)
        | none =>
            match w3.1 with
            | some e => (some e, w3.2)
            | none => (none, w3.2)
  (r.1, { r.2 with events := r.2.events ++ [(payload, r.1.isNone)] })

/-- Source `sendErrorEvent`. -/
def sendErrorEvent (env : Env) (st : State)
    (conversationID requestMessageID parentMessageID userText : GoString) (err : GoError) :
    State :=
  let g := generateID env st
  let responseMessageID := g.1
  let requestMessage : MessageMap :=
    { messageId := requestMessageID, conversationId := some conversationID,
      parentMessageId := parentMessageID, sender := some "User".toList,
      text := some userText, isCreatedByUser := some true, error := none }
  let responseMessage : MessageMap :=
    { messageId := responseMessageID, conversationId := some conversationID,
      parentMessageId := requestMessageID, sender := some "Assistant".toList,
      text := some err.text, isCreatedByUser := none, error := some true }
  let finalEvent :=
    Event.error true err.text conversationID responseMessageID requestMessageID
      { conversationId := conversationID, endpoint := none, model := none,
        promptPrefix := none }
      requestMessage responseMessage
  (writeSSEEvent env g.2 finalEvent).2

/-- Source `buildFinalEvent`. -/
def buildFinalEvent (payload : agentChatPayload)
    (conversationID requestMessageID parentMessageID responseMessageID userText
      assistantText : GoString) : Event :=
  let requestMessage : MessageMap :=
    { messageId := requestMessageID, conversationId := some conversationID,
      parentMessageId := parentMessageID, sender := some "User".toList,
      text := some userText, isCreatedByUser := some true, error := none }
  let responseMessage : MessageMap :=
    { messageId := responseMessageID, conversationId := some conversationID,
      parentMessageId := requestMessageID, sender := some "Assistant".toList,
      text := some assistantText, isCreatedByUser := some false, error := none }
  let conversation : ConversationMap :=
    { conversationId := conversationID, endpoint := some payload.endpoint,
      model := if payload.model ≠ [] then some payload.model else none,
      promptPrefix := if payload.promptPrefix ≠ [] then some payload.promptPrefix else none }
  Event.final true conversation requestMessage responseMessage [requestMessage, responseMessage]

/-! ## The stream translator -/

/-- Go `bufio.Reader.ReadString('\n')` over a whole body: the complete lines, each
with its final newline, and the rest after the last newline.  The reader returns
the complete lines one per call with a nil error, then the rest together with the
error that ends the body. -/
def splitLines : GoString → List GoString × GoString
  | [] => ([], [])
  | c :: cs =>
      let r := splitLines cs
      if c = '\n' then ([c] :: r.1, r.2)
      else
        match r.1 with
        | [] => ([], c :: r.2)
        | l :: ls => ((c :: l) :: ls, r.2)

/-- The event prefix of the upstream protocol. -/
def dataPrefix : GoString := "data:".toList

/-- The terminal sentinel of the upstream protocol. -/
def doneSentinel : GoString := "[DONE]".toList

/-- How the read loop of `pipeUpstreamStream` ends: by `break`, with the
accumulator and the last `deadline`, or by `return` with a text and an error. -/
inductive LoopExit where
  | broke (builder : GoString) (deadline : Time) (st : State)
  | returned (text : GoString) (err : GoError) (st : State)

/-- The `for` loop of source `pipeUpstreamStream`, over the lines still to be read;
`rerr` is the error that ends the body. -/
def pipeLoop (env : Env) (rerr : GoError)
    (conversationID requestMessageID responseMessageID : GoString) :
    List GoString → GoString → Time → State → LoopExit
  | [], builder, deadline, st =>
      if rerr.isEOF then .broke builder deadline st
      else .returned builder (.wrapped "llm stream error: ".toList rerr) st
  | raw :: rest, builder, deadline, st =>
      let line := trimSpace raw
      if line = [] then
        pipeLoop env rerr conversationID requestMessageID responseMessageID rest builder deadline st
      else if !hasPrefix line dataPrefix then
        pipeLoop env rerr conversationID requestMessageID responseMessageID rest builder deadline st
      else
        let chunk := trimSpace (trimPrefix line dataPrefix)
        if chunk = [] then
          pipeLoop env rerr conversationID requestMessageID responseMessageID rest builder deadline st
        else if chunk = doneSentinel then .broke builder deadline st
        else
          let builder := builder ++ chunk
          let messageEvent :=
            Event.delta responseMessageID conversationID requestMessageID chunk
              { messageId := responseMessageID, conversationId := some conversationID,
                parentMessageId := requestMessageID, sender := some "Assistant".toList,
                text := some builder, isCreatedByUser := none, error := none }
          let w := writeSSEEvent env st messageEvent
          match w.1 with
          | some err => .returned builder (.wrapped "failed to forward chunk: ".toList err) w.2
          | none =>
              let now := timeNow env w.2
              pipeLoop env rerr conversationID requestMessageID responseMessageID rest builder
                now.1 now.2

/-- Source `pipeUpstreamStream`: the returned text, the returned error and the
state afterwards. -/
def pipeUpstreamStream (env : Env) (st : State) (body : Body)
    (conversationID requestMessageID responseMessageID : GoString) :
    GoString × Option GoError × State :=
  let reader := splitLines body.content
  let start := timeNow env st
  match pipeLoop env body.err conversationID requestMessageID responseMessageID
      reader.1 [] start.1 start.2 with
  | .returned text err st => (text, some err, st)
  | .broke builder deadline st =>
      if builder.length = 0 then
        let since := timeSince env st deadline
        if since.1 > 0 then ([], some (.other "upstream produced no content".toList), since.2)
        else (builder, none, since.2)
      else (builder, none, st)

/-! ## The agent-chat handler -/

/-- The configuration read by the handler. -/
structure Config where
  llmProxyURL : GoString
  llmProxyToken : GoString
  deriving DecidableEq, Repr

/-- The inbound request as the handler sees it. -/
structure Request where
  /-- Whether the response writer is an `http.Flusher`. -/
  canFlush : Bool
  /-- Result of decoding the JSON body. -/
  decoded : Except GoError agentChatPayload
  /-- The `endpoint` segment of the path. -/
  urlEndpoint : GoString

/-- Source `handleAgentChat` from the point where the upstream answered with
status 200: created event, stream translation, then the final or the error event. -/
def streamAgentChat (env : Env) (st : State) (payload : agentChatPayload) (body : Body)
    (conversationID requestMessageID parentMessageID userText : GoString) : State :=
  let g := generateID env st
  let responseMessageID := g.1
  let createdEvent :=
    Event.created true
      { messageId := responseMessageID, conversationId := some conversationID,
        parentMessageId := requestMessageID, sender := none, text := none,
        isCreatedByUser := none, error := none }
  let c := writeSSEEvent env g.2 createdEvent
  match c.1 with
  | some _ => c.2
  | none =>
      let p := pipeUpstreamStream env c.2 body conversationID requestMessageID responseMessageID
      match p.2.1 with
      | some err =>
          if err.isCanceled then p.2.2
          else sendErrorEvent env p.2.2 conversationID requestMessageID parentMessageID userText err
      | none =>
          let finalEvent :=
            buildFinalEvent payload conversationID requestMessageID parentMessageID
              responseMessageID userText p.1
          (writeSSEEvent env p.2.2 finalEvent).2

/-- Source `handleAgentChat`. -/
def handleAgentChat (cfg : Config) (env : Env) (req : Request) (st : State) : State :=
  if !req.canFlush then httpError env st "streaming unsupported".toList 500
  else
    let st := setHeader st "Content-Type".toList "text/event-stream".toList
    let st := setHeader st "Cache-Control".toList "no-cache".toList
    let st := setHeader st "Connection".toList "keep-alive".toList
    if cfg.llmProxyURL = [] then httpError env st "LLM proxy not configured".toList 503
    else
      match req.decoded with
      | .error err => httpError env st ("invalid request body: ".toList ++ err.text) 400
      | .ok decoded =>
          let payload :=
            if decoded.endpoint = [] then { decoded with endpoint := req.urlEndpoint }
            else decoded
          let c := normalizeConversationID env st payload.conversationId
          let conversationID := c.1
          let r := ensureID env c.2 payload.messageId
          let requestMessageID := r.1
          let st := r.2
          let parentMessageID :=
            if payload.parentMessageId = [] then noParentMessageID else payload.parentMessageId
          let userText :=
            if trimSpace payload.text = [] then extractLatestUserText payload.messages
            else trimSpace payload.text
          if userText = [] then httpError env st "missing message text".toList 400
          else
            let upstreamMessages := buildUpstreamMessages payload.messages userText
            if upstreamMessages.length = 0 then
              httpError env st "no messages available for LLM request".toList 400
            else if env.newRequestFails then
              httpError env st "failed to build upstream request".toList 500
            else
              let outbound : OutboundRequest :=
                { method := "POST".toList,
                  url := trimRight cfg.llmProxyURL "/".toList ++ "/v1/chat/stream".toList,
                  header :=
                    [("Content-Type".toList, "application/json".toList)] ++
                      (if cfg.llmProxyToken ≠ [] then
                        [("Authorization".toList, "Bearer ".toList ++ cfg.llmProxyToken)]
                      else []),
                  messages := upstreamMessages }
              let st := { st with outbound := st.outbound ++ [outbound] }
              match env.doResult with
              | .error err =>
                  sendErrorEvent env st conversationID requestMessageID parentMessageID userText
                    (.wrapped "upstream unavailable: ".toList err)
              | .ok resp =>
                  if resp.statusCode ≠ 200 then
                    sendErrorEvent env st conversationID requestMessageID parentMessageID userText
                      (.other ("llm proxy error: ".toList ++ resp.status ++ " ".toList ++
                        trimSpace resp.body.content))
                  else
                    streamAgentChat env st payload resp.body conversationID requestMessageID
                      parentMessageID userText

/-! ## Observations on the event log -/

/-- Chunk and cumulative text (`text` and `message.text`) of the Delta events of a
sequence of events, in order. -/
def deltaTexts : List Event → List (GoString × GoString)
  | [] => []
  | Event.delta _ _ _ text message :: rest => (text, message.text.getD []) :: deltaTexts rest
  | Event.created _ _ :: rest => deltaTexts rest
  | Event.final _ _ _ _ _ :: rest => deltaTexts rest
  | Event.error _ _ _ _ _ _ _ _ :: rest => deltaTexts rest

/-- The events handed to `writeSSEEvent` after the first `n` ones. -/
def eventsAfter (n : Nat) (st : State) : List Event :=
  (st.events.drop n).map Prod.fst

/-- State in which a loop exit leaves the request. -/
def LoopExit.state : LoopExit → State
  | .broke _ _ st => st
  | .returned _ _ st => st

/-- Text held by the accumulator when the loop is left. -/
def LoopExit.text : LoopExit → GoString
  | .broke builder _ _ => builder
  | .returned text _ _ => text

/-- The Delta events for the chunks `cs` when the accumulator starts as `b`. -/
def deltaEvents (conversationID requestMessageID responseMessageID : GoString) :
    GoString → List GoString → List Event
  | _, [] => []
  | b, c :: cs =>
      Event.delta responseMessageID conversationID requestMessageID c
        { messageId := responseMessageID, conversationId := some conversationID,
          parentMessageId := requestMessageID, sender := some "Assistant".toList,
          text := some (b ++ c), isCreatedByUser := none, error := none } ::
      deltaEvents conversationID requestMessageID responseMessageID (b ++ c) cs

/-- Chunks paired with the running concatenation, starting from `b`. -/
def runningTexts : GoString → List GoString → List (GoString × GoString)
  | _, [] => []
  | b, c :: cs => (c, b ++ c) :: runningTexts (b ++ c) cs

/-- Payload of an upstream line as the specification words it: a line that begins
with `data:` carries the rest of the line with surrounding white space removed; any
other line carries nothing. -/
def payloadAsWritten (line : GoString) : Option GoString :=
  if hasPrefix line dataPrefix then some (trimSpace (line.drop dataPrefix.length)) else none

/-- The chunks the specification's words ask for: the non-empty payloads of the
lines, up to but excluding the first sentinel. -/
def chunksAsWritten (lines : List GoString) : List GoString :=
  ((lines.filterMap payloadAsWritten).filter (fun p => p ≠ [])).takeWhile
    (fun p => p ≠ doneSentinel)

/-- The same reading with the prefix looked for once the white space around the
line is removed. -/
def chunksOfTrimmed (lines : List GoString) : List GoString :=
  chunksAsWritten (lines.map trimSpace)

/-- An environment in which every write succeeds, the random source delivers
sixteen bytes `0xff` and the k-th clock reading is `k`. -/
def quietEnv : Env :=
  { writeResult := fun _ => none,
    randRead := fun _ => some (List.replicate 16 255),
    clock := fun k => { wall := k, mono := k },
    newRequestFails := false,
    doResult := .error .eof }

/-- Whether some line carries the sentinel as its payload. -/
def reachesSentinel : List GoString → Bool
  | [] => false
  | raw :: rest =>
      if payloadAsWritten (trimSpace raw) = some doneSentinel then true
      else reachesSentinel rest

/-- What an event is and the texts it carries: the chunk and cumulative text of a
Delta event, `responseMessage.text` of a Final event, the `final` flag and the
`error` string of an Error event. -/
inductive Outline where
  | created
  | delta (chunk cumulative : GoString)
  | final (text : GoString)
  | error (final : Bool) (error : GoString)
  deriving DecidableEq, Repr

/-- Outline of an event. -/
def Event.outline : Event → Outline
  | .created _ _ => .created
  | .delta _ _ _ text message => .delta text (message.text.getD [])
  | .final _ _ _ responseMessage _ => .final (responseMessage.text.getD [])
  | .error fin msg _ _ _ _ _ _ => .error fin msg

/-- Whether an outline is that of a Delta event. -/
def Outline.isDelta : Outline → Bool
  | .delta _ _ => true
  | _ => false

/-- Whether an outline is that of a Final event. -/
def Outline.isFinal : Outline → Bool
  | .final _ => true
  | _ => false

/-- Whether an outline is that of an Error event. -/
def Outline.isError : Outline → Bool
  | .error _ _ => true
  | _ => false

/-- Outlines of the events of a request, in the order of the `writeSSEEvent` calls. -/
def State.outlines (st : State) : List Outline :=
  st.events.map (fun e => e.1.outline)

/-- A request that gets as far as the upstream call: the writer can flush, the
upstream is configured, the body decodes to `decoded`, a user text is found and the
upstream request can be built. -/
def validRequest (cfg : Config) (env : Env) (req : Request) (decoded : agentChatPayload) :
    Prop :=
  req.canFlush = true ∧ cfg.llmProxyURL ≠ [] ∧ req.decoded = .ok decoded ∧
    (trimSpace decoded.text ≠ [] ∨ extractLatestUserText decoded.messages ≠ []) ∧
    env.newRequestFails = false

/-- The Created event of a request. -/
def createdEvent (conversationID requestMessageID responseMessageID : GoString) : Event :=
  Event.created true
    { messageId := responseMessageID, conversationId := some conversationID,
      parentMessageId := requestMessageID, sender := none, text := none,
      isCreatedByUser := none, error := none }

/-- A configuration with an upstream URL and no upstream credential. -/
def sampleConfig : Config :=
  { llmProxyURL := "http://llm-proxy:8080/".toList, llmProxyToken := [] }

/-- A payload with a conversation id, a message id and a text. -/
def samplePayload : agentChatPayload :=
  { endpoint := [], endpointType := [], conversationId := "c1".toList,
    messageId := "m1".toList, parentMessageId := [], text := "hi".toList,
    promptPrefix := [], model := [], messages := [] }

/-- A request carrying `samplePayload`. -/
def sampleRequest : Request :=
  { canFlush := true, decoded := .ok samplePayload, urlEndpoint := "chat".toList }

/-- The upstream answer with the given status code, status text, body text and
body end. -/
def upstreamAnswer (code : Nat) (status body : String) (err : GoError) : Response :=
  { statusCode := code, status := status.toList,
    body := { content := body.toList, err := err } }

/-- The environment `quietEnv` with the given upstream answer. -/
def quietEnvWith (resp : Response) : Env :=
  { quietEnv with doResult := .ok resp }

/-- The upstream body of the hello-world scenario. -/
def helloWorldBody : GoString := "data: Hello\ndata:  world\ndata: [DONE]\n".toList

/-- The environment `quietEnvWith resp` with a clock whose readings are all equal:
no time elapses between two readings. -/
def frozenClockEnv (resp : Response) : Env :=
  { quietEnvWith resp with clock := fun _ => { wall := 0, mono := 0 } }

/-- The environment `quietEnvWith resp` in which the `k`-th write to the client
fails with `broken pipe`. -/
def brokenPipeEnv (k : Nat) (resp : Response) : Env :=
  { quietEnvWith resp with
    writeResult := fun i => if i = k then some (.other "broken pipe".toList) else none }

/-- The two lower-case hexadecimal digits of a byte. -/
def hexByte (b : Nat) : GoString :=
  [Nat.digitChar (b / 16), Nat.digitChar (b % 16)]

/-- Whether a character is a lower-case hexadecimal digit. -/
def isLowerHex (c : Char) : Bool :=
  ('0' ≤ c && c ≤ '9') || ('a' ≤ c && c ≤ 'f')

/-! ## Role and history normalisation as the specification words it -/

/-- Case-insensitive comparison of a field with a lower-case literal: the field,
lower-cased, is the literal. -/
def equalsIgnoringCase (field literal : GoString) : Bool :=
  toLower field == literal

/-- Rule 1 of role resolution: the lower-cased role field when it is,
case-insensitively, one of `assistant`, `tool`, `system`, `user`. -/
def roleRule (msg : agentMessage) : Option GoString :=
  if ["assistant".toList, "tool".toList, "system".toList, "user".toList].any
      (equalsIgnoringCase msg.role) then some (toLower msg.role)
  else none

/-- Rule 2 of role resolution: `assistant` when the sender field is,
case-insensitively, `assistant`, `bot` or `system`; `user` when it is `user`. -/
def senderRule (msg : agentMessage) : Option GoString :=
  if ["assistant".toList, "bot".toList, "system".toList].any
      (equalsIgnoringCase msg.sender) then some "assistant".toList
  else if equalsIgnoringCase msg.sender "user".toList then some "user".toList
  else none

/-- Rule 3 of role resolution: `user` when `isCreatedByUser` is true. -/
def createdByUserRule (msg : agentMessage) : Option GoString :=
  if msg.isCreatedByUser then some "user".toList else none

/-- Role resolution as the specification words it: the first rule that matches,
`assistant` when none does. -/
def resolveRoleAsWritten (msg : agentMessage) : GoString :=
  (([roleRule msg, senderRule msg, createdByUserRule msg].filterMap id).head?).getD
    "assistant".toList

/-- A message with every field empty. -/
def emptyMessage : agentMessage :=
  { messageId := [], conversationId := [], parentMessageId := [], sender := [], role := [],
    text := [], isCreatedByUser := false, content := [] }

/-- Concatenation of the text-type content parts of a message, as the
specification words it. -/
def textParts (parts : List agentMessageContent) : GoString :=
  ((parts.filter (fun p => p.type = "text".toList)).map
    (fun p => (p.text.map (fun t => t.value)).getD [])).flatten

/-- Effective text of a message: the trimmed text field if non-empty, else the
trimmed concatenation of its text-type content parts. -/
def effectiveText (msg : agentMessage) : GoString :=
  if trimSpace msg.text ≠ [] then trimSpace msg.text else trimSpace (textParts msg.content)

/-- The upstream messages as the specification words them. -/
def upstreamMessagesAsWritten (history : List agentMessage) (latestUserText : GoString) :
    List upstreamChatMessage :=
  (history.filter (fun m => effectiveText m ≠ [])).map
      (fun m => { role := resolveRole m, content := effectiveText m }) ++
    [{ role := "user".toList, content := latestUserText }]

/-! ## Admission control

Source: `services-new/auth/internal/middleware/auth_middleware.go`.  A `time.Time`
is an instant with nanosecond precision; its range is far wider than that of an
`int64` count of nanoseconds, and it is modelled by the instant in nanoseconds, an
integer.  A `time.Duration` is an `int64` count of nanoseconds, and its arithmetic
wraps: `-rl.window` is `negDuration`.  `allow` takes the reading of its `time.Now()`
call as an argument.  The mutex makes calls atomic, so calls are modelled as
happening one after the other. -/

/-- Go `int64` arithmetic: the value an integer result wraps to, between
`math.MinInt64` and `math.MaxInt64`. -/
def wrapInt64 (x : Int) : Int :=
  (x + 2 ^ 63) % 2 ^ 64 - 2 ^ 63

/-- Go `-d` on a `time.Duration`: the negation in `int64`, which wraps, so that
`-math.MinInt64` is `math.MinInt64`. -/
def negDuration (d : Int) : Int :=
  wrapInt64 (-d)

/-- Go `t.Add(d)`: the instant `d` nanoseconds after `t`. -/
def timeAdd (t d : Int) : Int :=
  t + d

/-- Go `t.After(u)`: whether the instant `t` is after the instant `u`. -/
def timeAfter (t u : Int) : Bool :=
  decide (u < t)

/-- Source `rateLimiter`: the `requests` map (`none` for a key that is absent), the
limit and the window. -/
structure rateLimiter where
  requests : GoString → Option (List Int)
  limit : Int
  window : Int

/-- Source `newRateLimiter`. -/
def newRateLimiter (limit : Int) (window : Int) : rateLimiter :=
  { requests := fun _ => none, limit := limit, window := window }

/-- Go map assignment `m[key] = value`. -/
def setRequests (m : GoString → Option (List Int)) (key : GoString) (value : List Int) :
    GoString → Option (List Int) :=
  fun k => if k = key then some value else m k

/-- Go map read `m[key]` of a slice-valued map: the nil slice for an absent key. -/
def rateLimiter.stored (rl : rateLimiter) (key : GoString) : List Int :=
  (rl.requests key).getD []

/-- Source `rateLimiter.allow`, with `now` the reading of `time.Now()`: the result
and the limiter afterwards. -/
def rateLimiter.allow (rl : rateLimiter) (ip : GoString) (now : Int) : Bool × rateLimiter :=
  let windowStart := timeAdd now (negDuration rl.window)
  let rl1 : rateLimiter :=
    match rl.requests ip with
    | some requests =>
        { rl with
          requests :=
            setRequests rl.requests ip
              (requests.filter (fun reqTime => timeAfter reqTime windowStart)) }
    | none => rl
  if rl1.limit ≤ ((rl1.stored ip).length : Int) then (false, rl1)
  else (true, { rl1 with requests := setRequests rl1.requests ip (rl1.stored ip ++ [now]) })

/-- Successive `allow` calls for one key at the given times: the results in order
and the limiter afterwards. -/
def allowSeq (rl : rateLimiter) (key : GoString) : List Int → List Bool × rateLimiter
  | [] => ([], rl)
  | t :: ts =>
      let r := rl.allow key t
      let rest := allowSeq r.2 key ts
      (r.1 :: rest.1, rest.2)

/-- Successive `allow` calls for any keys, each with its time: the key and result of
each call in order, and the limiter afterwards. -/
def allowCalls (rl : rateLimiter) : List (GoString × Int) → List (GoString × Bool) × rateLimiter
  | [] => ([], rl)
  | c :: cs =>
      let r := rl.allow c.1 c.2
      let rest := allowCalls r.2 cs
      ((c.1, r.1) :: rest.1, rest.2)

/-- Pruning as the specification words it: the timestamps older than
`now - window` are removed, every other one is kept. -/
def pruneAsWritten (timestamps : List Int) (now window : Int) : List Int :=
  timestamps.filter (fun t => ¬ t < now - window)

/-- Pruning as the code does it: the timestamps after `now.Add(-window)` are kept. -/
def pruneAfter (timestamps : List Int) (now window : Int) : List Int :=
  timestamps.filter (fun t => timeAfter t (timeAdd now (negDuration window)))

/-- Two limiters agree on a key: same limit, same window, same stored timestamps
for that key. -/
def agreeOn (key : GoString) (a b : rateLimiter) : Prop :=
  a.limit = b.limit ∧ a.window = b.window ∧ a.stored key = b.stored key

/-! ## Auth delegate

Source: `microservices/orchestrator/internal/auth/validator.go` and `requireAuth` of
`services-new/orchestrator/internal/http/server.go`. -/

/-- Source `Claims`. -/
structure Claims where
  subject : GoString
  username : GoString
  email : GoString
  deriving DecidableEq, Repr

/-- Source `Validator`; a nil `*Validator` is `none` of `Option Validator`. The
client's timeout is not modelled. -/
structure Validator where
  profileURL : GoString
  deriving DecidableEq, Repr

/-- The `data` object of the profile response once decoded; a missing field is the
empty string. -/
structure ProfileData where
  id : GoString
  username : GoString
  email : GoString
  deriving DecidableEq, Repr

/-- The profile response: its status and the result of decoding its body. -/
structure ProfileResponse where
  statusCode : Nat
  status : GoString
  decoded : Except GoError ProfileData

/-- The request `Verify` sends: the URL and the `Authorization` header. -/
structure ProfileRequest where
  url : GoString
  authorization : GoString
  deriving DecidableEq, Repr

/-- Behaviour of the network as `Verify` sees it. -/
structure AuthEnv where
  /-- Error of `http.NewRequest` for a URL, `none` when the request is built. -/
  newRequest : GoString → Option GoError
  /-- Result of `client.Do`. -/
  doRequest : ProfileRequest → Except GoError ProfileResponse

/-- What `Verify` returns, and the requests it sent on the way. -/
structure VerifyResult where
  claims : Option Claims
  err : Option GoError
  calls : List ProfileRequest

/-- Source `Validator.Verify`. -/
def Verify (v : Option Validator) (net : AuthEnv) (token : GoString) : VerifyResult :=
  match v with
  | none => ⟨none, some (.other "validator not configured".toList), []⟩
  | some v =>
      let token := trimSpace token
      if token = [] then ⟨none, some (.other "empty token".toList), []⟩
      else
        match net.newRequest v.profileURL with
        | some err => ⟨none, some (.wrapped "build profile request: ".toList err), []⟩
        | none =>
            let req : ProfileRequest :=
              { url := v.profileURL, authorization := "Bearer ".toList ++ token }
            match net.doRequest req with
            | .error err => ⟨none, some (.wrapped "call auth service: ".toList err), [req]⟩
            | .ok resp =>
                if resp.statusCode ≠ 200 then
                  ⟨none, some (.other ("auth service rejected token: ".toList ++ resp.status)),
                    [req]⟩
                else
                  match resp.decoded with
                  | .error err =>
                      ⟨none, some (.wrapped "decode auth response: ".toList err), [req]⟩
                  | .ok data =>
                      if data.id = [] then
                        ⟨none, some (.other "auth service returned empty user id".toList), [req]⟩
                      else
                        ⟨some { subject := data.id, username := data.username,
                                email := data.email }, none, [req]⟩

/-- Go `strings.Fields`, with `cur` the field being read: the maximal runs of
characters that are not white space. -/
def fieldsFrom : GoString → GoString → List GoString
  | [], cur => if cur = [] then [] else [cur]
  | c :: cs, cur =>
      if isSpace c then
        if cur = [] then fieldsFrom cs [] else cur :: fieldsFrom cs []
      else fieldsFrom cs (cur ++ [c])

/-- Go `strings.Fields`. -/
def fields (s : GoString) : List GoString :=
  fieldsFrom s []

/-- Representative of the case-folding class of a code point, for the classes that
contain an ASCII character: the lower-case letter for `A`–`Z`, `k` for the Kelvin
sign U+212A and `s` for the long s U+017F. -/
def foldRune (c : Char) : Char :=
  if 'A'.toNat ≤ c.toNat ∧ c.toNat ≤ 'Z'.toNat then Char.ofNat (c.toNat + 32)
  else if c.toNat = 0x212A then 'k'
  else if c.toNat = 0x17F then 's'
  else c

/-- Go `strings.EqualFold`. Exact whenever one of the two strings is ASCII. -/
def equalFold (s t : GoString) : Bool :=
  s.map foldRune == t.map foldRune

/-- How `requireAuth` ends: with the response `401 unauthorized`, or by calling the
next handler with the claims in the request context. -/
inductive AuthOutcome where
  | unauthorized (st : State)
  | next (claims : Option Claims) (st : State)

/-- Source `requireAuth`, for a request whose `Authorization` header is `authHeader`
(the empty string when the header is missing). -/
def requireAuth (v : Option Validator) (net : AuthEnv) (env : Env) (st : State)
    (authHeader : GoString) : AuthOutcome :=
  let parts := fields authHeader
  if parts.length ≠ 2 ∨ !equalFold (parts.getD 0 []) "Bearer".toList then
    .unauthorized (httpError env st "unauthorized".toList 401)
  else
    let r := Verify v net (parts.getD 1 [])
    match r.err with
    | some _ => .unauthorized (httpError env st "unauthorized".toList 401)
    | none => .next r.claims st

/-- Whether `requireAuth` called the next handler. -/
def AuthOutcome.nextInvoked : AuthOutcome → Bool
  | .unauthorized _ => false
  | .next _ _ => true

/-- State of the response after `requireAuth`. -/
def AuthOutcome.state : AuthOutcome → State
  | .unauthorized st => st
  | .next _ st => st

/-- The five failure conditions of `Verify` as the specification lists them: no
validator, empty trimmed token, a response whose status is not 200, a response whose
body does not decode, a response without a user id. -/
def verifyFailureAsWritten (v : Option Validator) (net : AuthEnv) (token : GoString) : Prop :=
  v = none ∨ trimSpace token = [] ∨
    ∃ (vv : Validator) (resp : ProfileResponse),
      v = some vv ∧
      net.doRequest { url := vv.profileURL,
                      authorization := "Bearer ".toList ++ trimSpace token } = .ok resp ∧
      (resp.statusCode ≠ 200 ∨ (∃ e, resp.decoded = .error e) ∨
        ∃ d, resp.decoded = .ok d ∧ d.id = [])

/-- A network on which every call fails with `connection refused`. -/
def unreachableNet : AuthEnv :=
  { newRequest := fun _ => none,
    doRequest := fun _ => .error (.other "connection refused".toList) }

/-- A network whose profile endpoint answers 200 with the identity `u1`, `alice`,
`alice@example.com`. -/
def aliceNet : AuthEnv :=
  { newRequest := fun _ => none,
    doRequest := fun _ =>
      .ok { statusCode := 200, status := "200 OK".toList,
            decoded := .ok { id := "u1".toList, username := "alice".toList,
                             email := "alice@example.com".toList } } }

/-- A validator with a profile URL. -/
def sampleValidator : Validator :=
  { profileURL := "http://auth:8080/profile".toList }

/-! ## Parent links -/

/-- Parent link of a message object: its id and its parent id. -/
def MessageMap.link (m : MessageMap) : GoString × GoString :=
  (m.messageId, m.parentMessageId)

/-- The parent links (message id, parent id) named in an event: those of its
top-level `messageId` and `parentMessageId` keys and of every message object. -/
def Event.links : Event → List (GoString × GoString)
  | .created _ message => [message.link]
  | .delta messageId _ parentMessageId _ message => [(messageId, parentMessageId), message.link]
  | .final _ _ requestMessage responseMessage messages =>
      requestMessage.link :: responseMessage.link :: messages.map MessageMap.link
  | .error _ _ _ messageId parentMessageId _ requestMessage responseMessage =>
      [(messageId, parentMessageId), requestMessage.link, responseMessage.link]

/-- The parent links named in the events of a request. -/
def State.links (st : State) : List (GoString × GoString) :=
  (st.events.map Prod.fst).flatMap Event.links

/-- Whether `ancestor` is reached from `x` by following one or more parent links. -/
def isAncestor (links : List (GoString × GoString)) (x ancestor : GoString) : Prop :=
  Relation.TransGen (fun child parent => (child, parent) ∈ links) x ancestor

/-- Every link of the event is the link from the request message `rid` to its
parent `pid`, or a link to the request message. -/
def linksWithin (rid pid : GoString) (e : Event) : Prop :=
  ∀ l ∈ e.links, l = (rid, pid) ∨ l.2 = rid

/-- A payload whose message id is also its parent message id. -/
def selfParentPayload : agentChatPayload :=
  { samplePayload with messageId := "m1".toList, parentMessageId := "m1".toList }

/-- A request carrying `selfParentPayload`. -/
def selfParentRequest : Request :=
  { canFlush := true, decoded := .ok selfParentPayload, urlEndpoint := "chat".toList }

/-! ## Identifiers read back -/

/-- The buffer of `generateID` after the version and variant bits are set. -/
def maskBuffer (buf : List Nat) : List Nat :=
  let buf := buf.set 6 ((buf.getD 6 0 &&& 0x0f) ||| 0x40)
  buf.set 8 ((buf.getD 8 0 &&& 0x3f) ||| 0x80)

/-- Bit `j` of byte `i` is one of the bits `generateID` keeps: every bit other than the
high nibble of byte 6 and the top two bits of byte 8. -/
def keptBit (i j : Nat) : Bool :=
  !(i == 6 && decide (4 ≤ j)) && !(i == 8 && decide (6 ≤ j))

/-- The positions of the kept bits of a sixteen-byte buffer. -/
def keptBits : List (Nat × Nat) :=
  (List.range 16).flatMap fun i => ((List.range 8).filter (keptBit i)).map fun j => (i, j)

/-- Two buffers agree on every bit other than the high nibble of byte 6 and the top
two bits of byte 8. -/
def agreeOutsideFixedBits (a b : List Nat) : Prop :=
  ∀ i < 16, ∀ j < 8, keptBit i j = true →
    (a.getD i 0).testBit j = (b.getD i 0).testBit j

/-- An environment like `quietEnv` whose random source delivers sixteen bytes `0xff`
except for byte 6, which is `0x0f`, and byte 8, which is `0x3f`: the kept bits are those
of `quietEnv`, the six overwritten bits differ. -/
def lowBitsEnv : Env :=
  { quietEnv with
    randRead := fun _ =>
      some [255, 255, 255, 255, 255, 255, 15, 255, 63, 255, 255, 255, 255, 255, 255, 255] }

/-- Value of a lower-case hexadecimal digit. -/
def hexValue (c : Char) : Nat :=
  if '0'.toNat ≤ c.toNat ∧ c.toNat ≤ '9'.toNat then c.toNat - '0'.toNat
  else if 'a'.toNat ≤ c.toNat ∧ c.toNat ≤ 'f'.toNat then c.toNat - 'a'.toNat + 10
  else 0

/-- The bytes written as pairs of hexadecimal digits. -/
def decodeHexPairs : GoString → List Nat
  | hi :: lo :: rest => (hexValue hi * 16 + hexValue lo) :: decodeHexPairs rest
  | _ => []

/-- The sixteen bytes read back from an identifier in the 8-4-4-4-12 layout. -/
def decodeID (id : GoString) : List Nat :=
  decodeHexPairs (id.take 8) ++ decodeHexPairs ((id.drop 9).take 4) ++
    decodeHexPairs ((id.drop 14).take 4) ++ decodeHexPairs ((id.drop 19).take 4) ++
    decodeHexPairs ((id.drop 24).take 12)

/-! ## Identifier of the Error event -/

/-- The Error event of a request: the payload `sendErrorEvent` builds for the response
message id `responseMessageID`. -/
def errorEvent (conversationID requestMessageID parentMessageID userText : GoString)
    (err : GoError) (responseMessageID : GoString) : Event :=
  Event.error true err.text conversationID responseMessageID requestMessageID
    { conversationId := conversationID, endpoint := none, model := none,
      promptPrefix := none }
    { messageId := requestMessageID, conversationId := some conversationID,
      parentMessageId := parentMessageID, sender := some "User".toList,
      text := some userText, isCreatedByUser := some true, error := none }
    { messageId := responseMessageID, conversationId := some conversationID,
      parentMessageId := requestMessageID, sender := some "Assistant".toList,
      text := some err.text, isCreatedByUser := none, error := some true }

/-- The top-level `messageId` of an event: present on Delta and Error events. -/
def Event.messageID : Event → Option GoString
  | .created _ _ => none
  | .delta messageId _ _ _ _ => some messageId
  | .final _ _ _ _ _ => none
  | .error _ _ _ messageId _ _ _ _ => some messageId

/-- The `messageId` of the response message an event carries: `message.messageId` of
a Created or Delta event, `responseMessage.messageId` of a Final or Error event. -/
def Event.responseID : Event → GoString
  | .created _ message => message.messageId
  | .delta _ _ _ _ message => message.messageId
  | .final _ _ _ responseMessage _ => responseMessage.messageId
  | .error _ _ _ _ _ _ _ responseMessage => responseMessage.messageId

/-- An environment like `quietEnv` whose random source delivers sixteen bytes `0xff`
at the first call and sixteen bytes `0x00` at every later call. -/
def twoDrawsEnv : Env :=
  { quietEnv with
    randRead := fun k =>
      if k = 0 then some (List.replicate 16 255) else some (List.replicate 16 0) }

/-! ## The latest user text in the upstream messages -/

/-- A payload with a blank text field and a history of two messages: a user message
`hi` and an assistant message `hello`. -/
def historyPayload : agentChatPayload :=
  { endpoint := [], endpointType := [], conversationId := "c1".toList,
    messageId := "m1".toList, parentMessageId := [], text := "  ".toList,
    promptPrefix := [], model := [],
    messages :=
      [{ emptyMessage with role := "user".toList, text := "hi".toList },
       { emptyMessage with role := "assistant".toList, text := "hello".toList }] }

/-- A request carrying `historyPayload`. -/
def historyRequest : Request :=
  { canFlush := true, decoded := .ok historyPayload, urlEndpoint := "chat".toList }

/-! ## The SSE writer of the LLM proxy

Source: `microservices/llm-proxy/internal/http/server.go`.  A byte slice, and a Go
string holding its bytes, is the list of its bytes.  The response writer behind the
`sseWriter` is given by the error of its `k`-th `Write` call. -/

/-- The bytes of an ASCII literal. -/
def asciiBytes (s : String) : List Nat :=
  s.toList.map Char.toNat

/-- Go `strings.Split(message, "\n")`: the segments of `message` between newline
bytes; one segment more than there are newlines. -/
def splitNewline : List Nat → List (List Nat)
  | [] => [[]]
  | b :: rest =>
      if b = 10 then [] :: splitNewline rest
      else
        match splitNewline rest with
        | seg :: segs => (b :: seg) :: segs
        | [] => [[b]]

/-- Source `sseWriter`, as what it has done to its response writer: every `Write` call
so far with whether it succeeded, and the number of `Flush` calls. -/
structure sseWriter where
  writes : List (List Nat × Bool)
  flushes : Nat
  deriving DecidableEq, Repr

/-- The bytes `fmt.Fprintf(sw.w, "data: %s\n\n", line)` hands to the response writer,
in one `Write` call. -/
def sseFrame (line : List Nat) : List Nat :=
  asciiBytes "data: " ++ line ++ asciiBytes "\n\n"

/-- The `for` loop of source `sseWriter.send`, over the lines still to be sent. -/
def sendLoop (writeResult : Nat → Option GoError) :
    List (List Nat) → sseWriter → Option GoError × sseWriter
  | [], sw => (none, sw)
  | line :: rest, sw =>
      let trimmed := line
      if trimmed = [] then sendLoop writeResult rest sw
      else
        let r := writeResult sw.writes.length
        let sw := { sw with writes := sw.writes ++ [(sseFrame trimmed, r.isNone)] }
        match r with
        | some err => (some err, sw)
        | none => sendLoop writeResult rest sw

/-- Source `sseWriter.send`. -/
def sseWriter.send (writeResult : Nat → Option GoError) (sw : sseWriter)
    (message : List Nat) : Option GoError × sseWriter :=
  let lines := splitNewline message
  let r := sendLoop writeResult lines sw
  match r.1 with
  | some err => (some err, r.2)
  | none => (none, { r.2 with flushes := r.2.flushes + 1 })

/-- Source `sseWriter.Write`: the count and the error returned, and the writer
afterwards. -/
def sseWriter.Write (writeResult : Nat → Option GoError) (sw : sseWriter) (p : List Nat) :
    Nat × Option GoError × sseWriter :=
  let chunk := p
  if chunk = [] then (p.length, none, sw)
  else
    let r := sseWriter.send writeResult sw chunk
    match r.1 with
    | some err => (0, some err, r.2)
    | none => (p.length, none, r.2)

/-- The response body: the bytes of the `Write` calls that succeeded, in order. -/
def sseWriter.body (sw : sseWriter) : List Nat :=
  ((sw.writes.filter (fun w => w.2)).map (fun w => w.1)).flatten

/-- The `Write` calls the specification asks for: one frame `data: <segment>` and a
blank line for each non-empty segment between newlines, in order. -/
def framesAsWritten (p : List Nat) : List (List Nat × Bool) :=
  ((splitNewline p).filter (fun seg => seg ≠ [])).map (fun seg => (sseFrame seg, true))

/-! ## Usernames

Source: `microservices/auth/internal/models/auth.go`.  The tables behind
`unicode.IsLetter` and `unicode.IsDigit` belong to the Go library and are taken as
parameters. -/

/-- The tables of Go package `unicode` read by the username functions. -/
structure UnicodeTables where
  /-- Go `unicode.IsLetter`. -/
  isLetter : Char → Bool
  /-- Go `unicode.IsDigit`. -/
  isDigit : Char → Bool

/-- Go `len(s)`: the number of bytes of the UTF-8 encoding of `s`. -/
def byteLen (s : GoString) : Nat :=
  (s.map Char.utf8Size).sum

/-- The `for i, char := range username` loop of source `isValidUsername`: `len` is
`len(username)`, `i` the byte index of the next code point. -/
def isValidUsernameLoop (T : UnicodeTables) (len : Nat) : GoString → Nat → Bool → Bool
  | [], _, _ => true
  | char :: rest, i, prevDot =>
      let isAllowed :=
        T.isLetter char || T.isDigit char || char == '_' || char == '.' || char == '-'
      if !isAllowed then false
      else if char = '.' ∧ (i = 0 ∨ i = len - 1) then false
      else if char = '.' ∧ prevDot = true then false
      else if char = '-' ∧ (i = 0 ∨ i = len - 1) then false
      else isValidUsernameLoop T len rest (i + char.utf8Size) (char == '.')

/-- Source `isValidUsername`. -/
def isValidUsername (T : UnicodeTables) (username : GoString) : Bool :=
  if byteLen username = 0 then false
  else isValidUsernameLoop T (byteLen username) username 0 false

/-- The `for _, r := range s` loop of source `NormalizeUsername`: what is written to
the builder. -/
def normalizeUsernameLoop (T : UnicodeTables) : GoString → Bool → GoString
  | [], _ => []
  | r :: rest, lastWasDot =>
      if T.isLetter r || T.isDigit r || r == '_' || r == '-' then
        r :: normalizeUsernameLoop T rest false
      else if r = '.' then
        if !lastWasDot then '.' :: normalizeUsernameLoop T rest true
        else normalizeUsernameLoop T rest lastWasDot
      else normalizeUsernameLoop T rest lastWasDot

/-- Go `strings.Trim(s, cutset)`: leading and trailing code points of `cutset`
removed. -/
def trimCutset (s cutset : GoString) : GoString :=
  (s.dropWhile (fun c => cutset.contains c)).rdropWhile (fun c => cutset.contains c)

/-- Source `NormalizeUsername`. -/
def NormalizeUsername (T : UnicodeTables) (input : GoString) : GoString :=
  let s := trimSpace input
  let out := normalizeUsernameLoop T s false
  trimCutset out "-. ".toList

/-- The tables restricted to ASCII: the letters `A`-`Z` and `a`-`z`, the digits
`0`-`9`. -/
def asciiTables : UnicodeTables :=
  { isLetter := fun c => c.isAlpha, isDigit := fun c => c.isDigit }

/-- The validation policy as the specification words it: the name is non-empty, holds
only letters, digits, underscore, dot and hyphen, has no leading or trailing dot or
hyphen, and has no two consecutive dots. -/
def usernamePolicy (T : UnicodeTables) (username : GoString) : Prop :=
  username ≠ [] ∧
    (∀ c ∈ username, T.isLetter c = true ∨ T.isDigit c = true ∨ c = '_' ∨ c = '.' ∨ c = '-') ∧
    (∀ c ∈ username.head?, c ≠ '.' ∧ c ≠ '-') ∧
    (∀ c ∈ username.getLast?, c ≠ '.' ∧ c ≠ '-') ∧
    List.Chain' (fun x y : Char => ¬ (x = '.' ∧ y = '.')) username

/-! # Properties -/

/-! ## Event log bookkeeping -/

theorem write_events (env : Env) (st : State) (d : WriteData) :
    (write env st d).2.events = st.events := by
  unfold write writeHeader
  cases st.statusCode <;> rfl

theorem writeSSEEvent_events (env : Env) (st : State) (e : Event) :
    (writeSSEEvent env st e).2.events =
      st.events ++ [(e, (writeSSEEvent env st e).1.isNone)] := by
  unfold writeSSEEvent
  simp only
  split
  · simp [write_events]
  · split
    · simp [write_events]
    · split <;> simp [write_events]

theorem pipeLoop_events (env : Env) (rerr : GoError) (cid rid respId : GoString) :
    ∀ (lines : List GoString) (b : GoString) (dl : Time) (st : State),
      ∃ cs : List GoString,
        ((pipeLoop env rerr cid rid respId lines b dl st).state.events).map Prod.fst =
            st.events.map Prod.fst ++ deltaEvents cid rid respId b cs ∧
          (pipeLoop env rerr cid rid respId lines b dl st).text = b ++ cs.flatten := by
  intro lines
  induction lines with
  | nil =>
      intro b dl st
      refine ⟨[], ?_⟩
      unfold pipeLoop
      split <;> simp [LoopExit.state, LoopExit.text, deltaEvents]
  | cons raw rest ih =>
      intro b dl st
      unfold pipeLoop
      simp only
      split
      · exact ih b dl st
      · split
        · exact ih b dl st
        · split
          · exact ih b dl st
          · split
            · exact ⟨[], by simp [LoopExit.state, LoopExit.text, deltaEvents]⟩
            · split
              · refine ⟨[trimSpace (trimPrefix (trimSpace raw) dataPrefix)], ?_⟩
                simp [LoopExit.state, LoopExit.text, deltaEvents, writeSSEEvent_events]
              · obtain ⟨cs, h1, h2⟩ := ih (b ++ trimSpace (trimPrefix (trimSpace raw) dataPrefix))
                  (timeNow env (writeSSEEvent env st _).2).1
                  (timeNow env (writeSSEEvent env st _).2).2
                refine ⟨trimSpace (trimPrefix (trimSpace raw) dataPrefix) :: cs, ?_⟩
                rw [h1, h2]
                simp [deltaEvents, timeNow, writeSSEEvent_events]

theorem pipeUpstreamStream_events (env : Env) (st : State) (body : Body)
    (cid rid respId : GoString) :
    ∃ cs : List GoString,
      eventsAfter st.events.length (pipeUpstreamStream env st body cid rid respId).2.2 =
          deltaEvents cid rid respId [] cs ∧
        ((pipeUpstreamStream env st body cid rid respId).2.1 = none →
          (pipeUpstreamStream env st body cid rid respId).1 = cs.flatten) := by
  obtain ⟨cs, h1, h2⟩ := pipeLoop_events env body.err cid rid respId
    (splitLines body.content).1 [] (timeNow env st).1 (timeNow env st).2
  refine ⟨cs, ?_⟩
  have key : ∀ s : State, s.events.map Prod.fst =
      st.events.map Prod.fst ++ deltaEvents cid rid respId [] cs →
      eventsAfter st.events.length s = deltaEvents cid rid respId [] cs := by
    intro s hs
    unfold eventsAfter
    rw [List.map_drop, hs]
    simp
  unfold pipeUpstreamStream
  simp only
  revert h1 h2
  cases pipeLoop env body.err cid rid respId (splitLines body.content).1 []
      (timeNow env st).1 (timeNow env st).2 with
  | returned text err s =>
      intro h1 h2
      simp only [LoopExit.state, timeNow] at h1
      exact ⟨key s h1, by simp⟩
  | broke builder deadline s =>
      intro h1 h2
      simp only [LoopExit.state, LoopExit.text, timeNow, List.nil_append] at h1 h2
      simp only
      split
      · split
        · exact ⟨key _ (by simpa [timeSince, timeNow] using h1), by simp⟩
        · exact ⟨key _ (by simpa [timeSince, timeNow] using h1), fun _ => h2⟩
      · exact ⟨key s h1, fun _ => h2⟩

theorem deltaTexts_deltaEvents (cid rid respId : GoString) :
    ∀ (cs : List GoString) (b : GoString),
      deltaTexts (deltaEvents cid rid respId b cs) = runningTexts b cs := by
  intro cs
  induction cs with
  | nil => intro b; rfl
  | cons c cs ih => intro b; simp [deltaEvents, deltaTexts, runningTexts, ih]

theorem runningTexts_chunks : ∀ (cs : List GoString) (b : GoString),
    (runningTexts b cs).map Prod.fst = cs := by
  intro cs
  induction cs with
  | nil => intro b; rfl
  | cons c cs ih => intro b; simp [runningTexts, ih]

theorem runningTexts_length (cs : List GoString) (b : GoString) :
    (runningTexts b cs).length = cs.length := by
  rw [← List.length_map, runningTexts_chunks]

theorem runningTexts_get : ∀ (cs : List GoString) (b : GoString) (k : Nat)
    (h : k < (runningTexts b cs).length),
    ((runningTexts b cs).get ⟨k, h⟩).2 = b ++ (cs.take (k + 1)).flatten := by
  intro cs
  induction cs with
  | nil => intro b k h; simp [runningTexts] at h
  | cons c cs ih =>
      intro b k h
      cases k with
      | zero => simp [runningTexts]
      | succ k =>
          simp only [runningTexts, List.get_eq_getElem, List.getElem_cons_succ]
          have := ih (b ++ c) k (by simpa [runningTexts] using h)
          simp only [List.get_eq_getElem] at this
          rw [this]
          simp

theorem runningTexts_getLast : ∀ (cs : List GoString) (b d : GoString),
    ((runningTexts b cs).getLast?.map Prod.snd).getD d =
      if cs = [] then d else b ++ cs.flatten := by
  intro cs
  induction cs with
  | nil => intro b d; simp [runningTexts]
  | cons c cs ih =>
      intro b d
      cases cs with
      | nil => simp [runningTexts]
      | cons e es =>
          have h := ih (b ++ c) d
          simp only [runningTexts, List.getLast?_cons_cons] at h ⊢
          rw [h]
          simp

theorem flatten_take_length_le : ∀ (cs : List GoString) (k : Nat),
    (cs.take k).flatten.length ≤ (cs.take (k + 1)).flatten.length := by
  intro cs
  induction cs with
  | nil => intro k; simp
  | cons c cs ih =>
      intro k
      cases k with
      | zero => simp
      | succ k =>
          have := ih k
          simp only [List.take_succ_cons, List.flatten_cons, List.length_append]
          omega

/-- Claim C1. For every upstream body and every behaviour of the client connection,
the k-th Delta event emitted by `pipeUpstreamStream` carries as `message.text` the
concatenation of the `text` chunks of the Delta events 1..k, so the length of the
cumulative text never decreases from one Delta event to the next; and when the
function returns without error, the returned string is the concatenation of all
chunks, which is the cumulative text of the last Delta event (the empty string when
there was none). -/
theorem pipeUpstreamStream_cumulative (env : Env) (st : State) (body : Body)
    (conversationID requestMessageID responseMessageID : GoString) :
    (∀ (k : Nat) (h : k < (deltaTexts (eventsAfter st.events.length
          (pipeUpstreamStream env st body conversationID requestMessageID
            responseMessageID).2.2)).length),
        ((deltaTexts (eventsAfter st.events.length
          (pipeUpstreamStream env st body conversationID requestMessageID
            responseMessageID).2.2)).get ⟨k, h⟩).2 =
          (((deltaTexts (eventsAfter st.events.length
            (pipeUpstreamStream env st body conversationID requestMessageID
              responseMessageID).2.2)).take (k + 1)).map Prod.fst).flatten) ∧
    (∀ (k : Nat) (h : k + 1 < (deltaTexts (eventsAfter st.events.length
          (pipeUpstreamStream env st body conversationID requestMessageID
            responseMessageID).2.2)).length),
        ((deltaTexts (eventsAfter st.events.length
          (pipeUpstreamStream env st body conversationID requestMessageID
            responseMessageID).2.2)).get ⟨k, Nat.lt_of_succ_lt h⟩).2.length ≤
        ((deltaTexts (eventsAfter st.events.length
          (pipeUpstreamStream env st body conversationID requestMessageID
            responseMessageID).2.2)).get ⟨k + 1, h⟩).2.length) ∧
    ((pipeUpstreamStream env st body conversationID requestMessageID
          responseMessageID).2.1 = none →
      (pipeUpstreamStream env st body conversationID requestMessageID responseMessageID).1 =
        (((deltaTexts (eventsAfter st.events.length
          (pipeUpstreamStream env st body conversationID requestMessageID
            responseMessageID).2.2)).getLast?).map Prod.snd).getD []) := by
  obtain ⟨cs, h1, h2⟩ := pipeUpstreamStream_events env st body conversationID
    requestMessageID responseMessageID
  rw [h1, deltaTexts_deltaEvents]
  refine ⟨?_, ?_, ?_⟩
  · intro k h
    rw [runningTexts_get, List.map_take, runningTexts_chunks]
    simp
  · intro k h
    rw [runningTexts_get, runningTexts_get]
    simpa using flatten_take_length_le cs (k + 1)
  · intro hnone
    rw [h2 hnone, runningTexts_getLast]
    split
    · next h => simp [h]
    · simp

theorem chunksOfTrimmed_nil : chunksOfTrimmed [] = [] := rfl

theorem chunksOfTrimmed_cons (raw : GoString) (rest : List GoString) :
    chunksOfTrimmed (raw :: rest) =
      if trimSpace raw = [] then chunksOfTrimmed rest
      else if !hasPrefix (trimSpace raw) dataPrefix then chunksOfTrimmed rest
      else if trimSpace (trimPrefix (trimSpace raw) dataPrefix) = [] then chunksOfTrimmed rest
      else if trimSpace (trimPrefix (trimSpace raw) dataPrefix) = doneSentinel then []
      else trimSpace (trimPrefix (trimSpace raw) dataPrefix) :: chunksOfTrimmed rest := by
  by_cases h0 : trimSpace raw = []
  · simp [chunksOfTrimmed, chunksAsWritten, payloadAsWritten, h0, hasPrefix, dataPrefix]
  · by_cases h1 : hasPrefix (trimSpace raw) dataPrefix = true
    · by_cases h2 : trimSpace (trimPrefix (trimSpace raw) dataPrefix) = []
      · have h2' : trimSpace (List.drop dataPrefix.length (trimSpace raw)) = [] := by
          simpa [trimPrefix, h1] using h2
        simp [chunksOfTrimmed, chunksAsWritten, payloadAsWritten, h0, h1, h2, h2', trimPrefix]
      · have h2' : ¬ trimSpace (List.drop dataPrefix.length (trimSpace raw)) = [] := by
          simpa [trimPrefix, h1] using h2
        by_cases h3 : trimSpace (trimPrefix (trimSpace raw) dataPrefix) = doneSentinel
        · have h3' : trimSpace (List.drop dataPrefix.length (trimSpace raw)) = doneSentinel := by
            simpa [trimPrefix, h1] using h3
          have hd : ¬ doneSentinel = [] := by decide
          simp [chunksOfTrimmed, chunksAsWritten, payloadAsWritten, h0, h1, h2', h3', hd,
            trimPrefix]
        · have h3' : ¬ trimSpace (List.drop dataPrefix.length (trimSpace raw)) = doneSentinel := by
            simpa [trimPrefix, h1] using h3
          simp [chunksOfTrimmed, chunksAsWritten, payloadAsWritten, h0, h1, h2, h2', h3, h3',
            trimPrefix]
    · simp [chunksOfTrimmed, chunksAsWritten, payloadAsWritten, h0, h1]

theorem writeSSEEvent_ok (env : Env) (hw : ∀ k, env.writeResult k = none) (st : State)
    (e : Event) : (writeSSEEvent env st e).1 = none := by
  simp [writeSSEEvent, write, hw]

theorem payload_of_line (raw : GoString) (h1 : hasPrefix (trimSpace raw) dataPrefix = true) :
    payloadAsWritten (trimSpace raw) =
      some (trimSpace (trimPrefix (trimSpace raw) dataPrefix)) := by
  simp [payloadAsWritten, trimPrefix, h1]

theorem payload_of_other (raw : GoString) (h1 : ¬ hasPrefix (trimSpace raw) dataPrefix = true) :
    payloadAsWritten (trimSpace raw) = none := by
  simp [payloadAsWritten, h1]

theorem timeNow_events (env : Env) (st : State) : (timeNow env st).2.events = st.events := rfl

theorem pipeLoop_ok (env : Env) (hw : ∀ k, env.writeResult k = none) (rerr : GoError)
    (cid rid respId : GoString) :
    ∀ (lines : List GoString) (b : GoString) (dl : Time) (st : State),
      (pipeLoop env rerr cid rid respId lines b dl st).state.events =
          st.events ++
            (deltaEvents cid rid respId b (chunksOfTrimmed lines)).map (fun e => (e, true)) ∧
        (pipeLoop env rerr cid rid respId lines b dl st).text =
          b ++ (chunksOfTrimmed lines).flatten ∧
        (reachesSentinel lines = false → rerr.isEOF = false →
          pipeLoop env rerr cid rid respId lines b dl st =
            .returned (b ++ (chunksOfTrimmed lines).flatten)
              (.wrapped "llm stream error: ".toList rerr)
              (pipeLoop env rerr cid rid respId lines b dl st).state) ∧
        ((reachesSentinel lines = true ∨ rerr.isEOF = true) →
          ∃ dl', pipeLoop env rerr cid rid respId lines b dl st =
            .broke (b ++ (chunksOfTrimmed lines).flatten) dl'
              (pipeLoop env rerr cid rid respId lines b dl st).state) := by
  intro lines
  induction lines with
  | nil =>
      intro b dl st
      unfold pipeLoop
      by_cases he : rerr.isEOF = true
      · simp [he, LoopExit.state, LoopExit.text, chunksOfTrimmed_nil, deltaEvents,
          reachesSentinel]
      · simp [he, LoopExit.state, LoopExit.text, chunksOfTrimmed_nil, deltaEvents,
          reachesSentinel]
  | cons raw rest ih =>
      intro b dl st
      rw [chunksOfTrimmed_cons]
      unfold pipeLoop reachesSentinel
      simp only
      by_cases h0 : trimSpace raw = []
      · have hp : payloadAsWritten ([] : GoString) = none := by decide
        simp only [h0, hp, if_true]
        simpa using ih b dl st
      · by_cases h1 : hasPrefix (trimSpace raw) dataPrefix = true
        · rw [payload_of_line raw h1]
          by_cases h2 : trimSpace (trimPrefix (trimSpace raw) dataPrefix) = []
          · have hd : ¬ ([] : GoString) = doneSentinel := by decide
            simp only [h0, h1, h2, if_true, if_false, Bool.not_true, Option.some.injEq, hd]
            simpa using ih b dl st
          · by_cases h3 : trimSpace (trimPrefix (trimSpace raw) dataPrefix) = doneSentinel
            · have hne : ¬ doneSentinel = [] := by decide
              simp [h0, h1, h3, hne, LoopExit.state, LoopExit.text, deltaEvents]
            · obtain ⟨ev, hev⟩ : ∃ ev, ev =
                  Event.delta respId cid rid (trimSpace (trimPrefix (trimSpace raw) dataPrefix))
                    { messageId := respId, conversationId := some cid,
                      parentMessageId := rid, sender := some "Assistant".toList,
                      text := some (b ++ trimSpace (trimPrefix (trimSpace raw) dataPrefix)),
                      isCreatedByUser := none, error := none } := ⟨_, rfl⟩
              have hok := writeSSEEvent_ok env hw st ev
              simp only [h0, h1, h2, h3, if_false, Bool.not_true, Option.some.injEq, ← hev, hok,
                Bool.false_eq_true]
              obtain ⟨i1, i2, i3, i4⟩ :=
                ih (b ++ trimSpace (trimPrefix (trimSpace raw) dataPrefix))
                  (timeNow env (writeSSEEvent env st ev).2).1
                  (timeNow env (writeSSEEvent env st ev).2).2
              refine ⟨?_, ?_, ?_, ?_⟩
              · rw [i1, timeNow_events, writeSSEEvent_events, hok]
                simp [deltaEvents, hev]
              · rw [i2]; simp
              · intro hs he
                have := i3 hs he
                simpa using this
              · intro hs
                obtain ⟨dl', hd⟩ := i4 hs
                exact ⟨dl', by simpa using hd⟩
        · rw [payload_of_other raw h1]
          simp only [h0, h1, if_false, Bool.not_false, if_true]
          simpa using ih b dl st

theorem dropWhile_isSpace_newline (l : GoString) :
    (l ++ ['\n']).dropWhile isSpace = l.dropWhile isSpace ++ ['\n'] ∨
      ((l ++ ['\n']).dropWhile isSpace = [] ∧ l.dropWhile isSpace = []) := by
  induction l with
  | nil => right; exact ⟨by decide, rfl⟩
  | cons c l ih =>
      by_cases h : isSpace c = true
      · simpa [List.dropWhile_cons, h] using ih
      · left; simp [List.dropWhile_cons, h]

theorem trimSpace_newline (l : GoString) : trimSpace (l ++ ['\n']) = trimSpace l := by
  unfold trimSpace
  rcases dropWhile_isSpace_newline l with h | ⟨h1, h2⟩
  · rw [h, List.rdropWhile_concat_pos]
    decide
  · rw [h1, h2]

theorem splitLines_line (l rest : GoString) (h : '\n' ∉ l) :
    splitLines (l ++ '\n' :: rest) =
      ((l ++ ['\n']) :: (splitLines rest).1, (splitLines rest).2) := by
  induction l with
  | nil => simp [splitLines]
  | cons c l ih =>
      have hc : c ≠ '\n' := fun e => h (by simp [e])
      have hl : '\n' ∉ l := fun e => h (by simp [e])
      simp [splitLines, ih hl, hc]

theorem splitLines_lines (lines : List GoString) (h : ∀ l ∈ lines, '\n' ∉ l) :
    splitLines (lines.map (fun l => l ++ ['\n'])).flatten =
      (lines.map (fun l => l ++ ['\n']), []) := by
  induction lines with
  | nil => rfl
  | cons l lines ih =>
      have h1 : '\n' ∉ l := h l (by simp)
      have h2 : ∀ l' ∈ lines, '\n' ∉ l' := fun l' hl' => h l' (by simp [hl'])
      have := splitLines_line l (lines.map (fun l => l ++ ['\n'])).flatten h1
      simp only [List.map_cons, List.flatten_cons, List.append_assoc, List.singleton_append]
      rw [this, ih h2]

theorem chunksOfTrimmed_newlines (lines : List GoString) :
    chunksOfTrimmed (lines.map (fun l => l ++ ['\n'])) = chunksOfTrimmed lines := by
  unfold chunksOfTrimmed
  congr 1
  simp [List.map_map, Function.comp_def, trimSpace_newline]

theorem pipeUpstreamStream_ok_events (env : Env) (hw : ∀ k, env.writeResult k = none)
    (st : State) (body : Body) (cid rid respId : GoString) :
    eventsAfter st.events.length (pipeUpstreamStream env st body cid rid respId).2.2 =
      deltaEvents cid rid respId [] (chunksOfTrimmed (splitLines body.content).1) := by
  have h := (pipeLoop_ok env hw body.err cid rid respId (splitLines body.content).1 []
    (timeNow env st).1 (timeNow env st).2).1
  rw [timeNow_events] at h
  have key : ∀ s : State, s.events = st.events ++
      (deltaEvents cid rid respId [] (chunksOfTrimmed (splitLines body.content).1)).map
        (fun e => (e, true)) →
      eventsAfter st.events.length s =
        deltaEvents cid rid respId [] (chunksOfTrimmed (splitLines body.content).1) := by
    intro s hs
    unfold eventsAfter
    rw [hs]
    simp [Function.comp_def]
  unfold pipeUpstreamStream
  simp only
  revert h
  cases pipeLoop env body.err cid rid respId (splitLines body.content).1 []
      (timeNow env st).1 (timeNow env st).2 with
  | returned text err s => intro h; exact key s h
  | broke builder deadline s =>
      intro h
      simp only [LoopExit.state] at h
      simp only
      split
      · split
        · exact key _ (by simpa [timeSince, timeNow] using h)
        · exact key _ (by simpa [timeSince, timeNow] using h)
      · exact key s h

/-- Claim C2, as amended. For every upstream body made of newline-terminated lines,
when every write to the client succeeds, the chunks of the Delta events emitted by
`pipeUpstreamStream` are, in order, the white-space-trimmed payloads of the lines
that begin with `data:` once the white space around the line is removed and whose
payload is non-empty, up to but excluding the first line whose payload is `[DONE]`. -/
theorem pipeUpstreamStream_chunks (env : Env) (st : State) (lines : List GoString)
    (err : GoError) (conversationID requestMessageID responseMessageID : GoString)
    (hw : ∀ k, env.writeResult k = none) (hl : ∀ l ∈ lines, '\n' ∉ l) :
    (deltaTexts (eventsAfter st.events.length
        (pipeUpstreamStream env st
          { content := (lines.map (fun l => l ++ ['\n'])).flatten, err := err }
          conversationID requestMessageID responseMessageID).2.2)).map Prod.fst =
      chunksOfTrimmed lines := by
  rw [pipeUpstreamStream_ok_events env hw, deltaTexts_deltaEvents, runningTexts_chunks]
  simp only
  rw [splitLines_lines lines hl, chunksOfTrimmed_newlines]

/-- Witness for claim C2: six lines, of which one is blank, one has no prefix, one
is the sentinel and one comes after it. -/
theorem pipeUpstreamStream_chunks_witness :
    (∀ k, quietEnv.writeResult k = none) ∧
    (∀ l ∈ ["data: Hello".toList, [], "event: x".toList, "  data:  world ".toList,
        "data: [DONE]".toList, "data: late".toList], '\n' ∉ l) ∧
    (deltaTexts (eventsAfter State.init.events.length
        (pipeUpstreamStream quietEnv State.init
          { content := (["data: Hello".toList, [], "event: x".toList, "  data:  world ".toList,
              "data: [DONE]".toList, "data: late".toList].map (fun l => l ++ ['\n'])).flatten,
            err := .eof }
          [] [] []).2.2)).map Prod.fst =
      ["Hello".toList, "world".toList] :=
  ⟨fun _ => rfl, by decide,
    (pipeUpstreamStream_chunks quietEnv State.init _ .eof [] [] [] (fun _ => rfl)
      (by decide)).trans (by decide)⟩

/-- Counterexample to claim C2 as written: the line ` data: x` does not begin with
`data:`, yet the code emits a Delta event with chunk `x` for it. -/
theorem pipeUpstreamStream_chunks_as_written_fails :
    (deltaTexts (eventsAfter State.init.events.length
        (pipeUpstreamStream quietEnv State.init
          { content := ([" data: x".toList].map (fun l => l ++ ['\n'])).flatten, err := .eof }
          [] [] []).2.2)).map Prod.fst ≠ chunksAsWritten [" data: x".toList] ∧
    (deltaTexts (eventsAfter State.init.events.length
        (pipeUpstreamStream quietEnv State.init
          { content := ([" data: x".toList].map (fun l => l ++ ['\n'])).flatten, err := .eof }
          [] [] []).2.2)).map Prod.fst = ["x".toList] := by
  decide

theorem generateID_events (env : Env) (st : State) :
    (generateID env st).2.events = st.events := by
  unfold generateID
  split <;> rfl

theorem generateID_statusCode (env : Env) (st : State) :
    (generateID env st).2.statusCode = st.statusCode := by
  unfold generateID
  split <;> rfl

theorem generateID_writes (env : Env) (st : State) :
    (generateID env st).2.writes = st.writes := by
  unfold generateID
  split <;> rfl

theorem normalizeConversationID_events (env : Env) (st : State) (s : GoString) :
    (normalizeConversationID env st s).2.events = st.events := by
  unfold normalizeConversationID
  simp only
  split
  · exact generateID_events env st
  · rfl

theorem normalizeConversationID_statusCode (env : Env) (st : State) (s : GoString) :
    (normalizeConversationID env st s).2.statusCode = st.statusCode := by
  unfold normalizeConversationID
  simp only
  split
  · exact generateID_statusCode env st
  · rfl

theorem normalizeConversationID_writes (env : Env) (st : State) (s : GoString) :
    (normalizeConversationID env st s).2.writes = st.writes := by
  unfold normalizeConversationID
  simp only
  split
  · exact generateID_writes env st
  · rfl

theorem ensureID_events (env : Env) (st : State) (s : GoString) :
    (ensureID env st s).2.events = st.events := by
  unfold ensureID
  simp only
  split
  · exact generateID_events env st
  · rfl

theorem ensureID_statusCode (env : Env) (st : State) (s : GoString) :
    (ensureID env st s).2.statusCode = st.statusCode := by
  unfold ensureID
  simp only
  split
  · exact generateID_statusCode env st
  · rfl

theorem ensureID_writes (env : Env) (st : State) (s : GoString) :
    (ensureID env st s).2.writes = st.writes := by
  unfold ensureID
  simp only
  split
  · exact generateID_writes env st
  · rfl

theorem httpError_events (env : Env) (st : State) (msg : GoString) (code : Nat) :
    (httpError env st msg code).events = st.events := by
  unfold httpError
  rw [write_events]
  unfold writeHeader setHeader
  simp only
  split <;> rfl

theorem sendErrorEvent_outlines (env : Env) (st : State) (cid rid pid userText : GoString)
    (err : GoError) :
    (sendErrorEvent env st cid rid pid userText err).outlines =
      st.outlines ++ [.error true err.text] := by
  unfold sendErrorEvent State.outlines
  simp only
  rw [writeSSEEvent_events, generateID_events]
  simp [Event.outline]

theorem pipeUpstreamStream_fst (env : Env) (st : State) (body : Body)
    (cid rid respId : GoString) :
    ∃ cs : List GoString,
      (pipeUpstreamStream env st body cid rid respId).2.2.events.map Prod.fst =
          st.events.map Prod.fst ++ deltaEvents cid rid respId [] cs ∧
        ((pipeUpstreamStream env st body cid rid respId).2.1 = none →
          (pipeUpstreamStream env st body cid rid respId).1 = cs.flatten) := by
  obtain ⟨cs, h1, h2⟩ := pipeLoop_events env body.err cid rid respId
    (splitLines body.content).1 [] (timeNow env st).1 (timeNow env st).2
  refine ⟨cs, ?_⟩
  unfold pipeUpstreamStream
  simp only
  revert h1 h2
  cases pipeLoop env body.err cid rid respId (splitLines body.content).1 []
      (timeNow env st).1 (timeNow env st).2 with
  | returned text err s =>
      intro h1 h2
      simp only [LoopExit.state, timeNow] at h1
      exact ⟨h1, by simp⟩
  | broke builder deadline s =>
      intro h1 h2
      simp only [LoopExit.state, LoopExit.text, timeNow, List.nil_append] at h1 h2
      simp only
      split
      · split
        · exact ⟨by simpa [timeSince, timeNow] using h1, by simp⟩
        · exact ⟨by simpa [timeSince, timeNow] using h1, fun _ => h2⟩
      · exact ⟨h1, fun _ => h2⟩

theorem outline_deltaEvents (cid rid respId : GoString) :
    ∀ (cs : List GoString) (b : GoString),
      (deltaEvents cid rid respId b cs).map Event.outline =
        (runningTexts b cs).map (fun p => Outline.delta p.1 p.2) := by
  intro cs
  induction cs with
  | nil => intro b; rfl
  | cons c cs ih => intro b; simp [deltaEvents, runningTexts, Event.outline, ih]

theorem outlines_eq (st : State) :
    st.outlines = (st.events.map Prod.fst).map Event.outline := by
  simp [State.outlines]

theorem pipeUpstreamStream_outlines (env : Env) (st : State) (body : Body)
    (cid rid respId : GoString) :
    ∃ cs : List GoString,
      (pipeUpstreamStream env st body cid rid respId).2.2.outlines =
          st.outlines ++ (runningTexts [] cs).map (fun p => Outline.delta p.1 p.2) ∧
        ((pipeUpstreamStream env st body cid rid respId).2.1 = none →
          (pipeUpstreamStream env st body cid rid respId).1 = cs.flatten) := by
  obtain ⟨cs, h1, h2⟩ := pipeUpstreamStream_fst env st body cid rid respId
  refine ⟨cs, ?_, h2⟩
  rw [outlines_eq, h1, List.map_append, outline_deltaEvents, ← outlines_eq]

theorem writeSSEEvent_outlines (env : Env) (st : State) (e : Event) :
    (writeSSEEvent env st e).2.outlines = st.outlines ++ [e.outline] := by
  simp [State.outlines, writeSSEEvent_events]

/-- The shapes a stream of events can take once the upstream answered 200: a
Created event, Delta events with running texts, and then nothing, one Error event
or one Final event carrying the whole text. -/
theorem streamAgentChat_outlines (env : Env) (st : State) (payload : agentChatPayload)
    (body : Body) (cid rid pid userText : GoString) :
    ∃ (cs : List GoString) (tail : List Outline),
      (streamAgentChat env st payload body cid rid pid userText).outlines =
          st.outlines ++ Outline.created ::
            ((runningTexts [] cs).map (fun p => Outline.delta p.1 p.2) ++ tail) ∧
        (tail = [] ∨ (∃ m, tail = [Outline.error true m]) ∨
          tail = [Outline.final cs.flatten]) := by
  unfold streamAgentChat
  simp only
  split
  · refine ⟨[], [], ?_, Or.inl rfl⟩
    rw [writeSSEEvent_outlines]
    simp [State.outlines, generateID_events, Event.outline, runningTexts]
  · obtain ⟨cs, h1, h2⟩ := pipeUpstreamStream_outlines env
      (writeSSEEvent env (generateID env st).2
        (Event.created true
          { messageId := (generateID env st).1, conversationId := some cid,
            parentMessageId := rid, sender := none, text := none,
            isCreatedByUser := none, error := none })).2 body cid rid (generateID env st).1
    have hc : (writeSSEEvent env (generateID env st).2
        (Event.created true
          { messageId := (generateID env st).1, conversationId := some cid,
            parentMessageId := rid, sender := none, text := none,
            isCreatedByUser := none, error := none })).2.outlines =
        st.outlines ++ [Outline.created] := by
      rw [writeSSEEvent_outlines]
      simp [State.outlines, generateID_events, Event.outline]
    rw [hc] at h1
    split
    · next err herr =>
      split
      · exact ⟨cs, [], by simpa using h1, Or.inl rfl⟩
      · refine ⟨cs, [Outline.error true err.text], ?_, Or.inr (Or.inl ⟨_, rfl⟩)⟩
        rw [sendErrorEvent_outlines, h1]
        simp
    · next hnone =>
      refine ⟨cs, [Outline.final cs.flatten], ?_, Or.inr (Or.inr rfl)⟩
      rw [writeSSEEvent_outlines, h1, h2 hnone]
      simp [buildFinalEvent, Event.outline]

theorem setHeader_events (st : State) (k v : GoString) : (setHeader st k v).events = st.events :=
  rfl

theorem setHeader_statusCode (st : State) (k v : GoString) :
    (setHeader st k v).statusCode = st.statusCode := rfl

theorem setHeader_writes (st : State) (k v : GoString) : (setHeader st k v).writes = st.writes :=
  rfl

theorem httpError_outlines (env : Env) (st : State) (msg : GoString) (code : Nat) :
    (httpError env st msg code).outlines = st.outlines := by
  simp [State.outlines, httpError_events]

/-- Every run of the handler emits nothing, or one Error event, or a Created event
followed by Delta events with running texts and then nothing, one Error event or
one Final event. -/
theorem handleAgentChat_outlines (cfg : Config) (env : Env) (req : Request) (st : State) :
    ∃ tail : List Outline,
      (handleAgentChat cfg env req st).outlines = st.outlines ++ tail ∧
      (tail = [] ∨ (∃ m, tail = [Outline.error true m]) ∨
        ∃ (cs : List GoString) (last : List Outline),
          tail = Outline.created ::
            ((runningTexts [] cs).map (fun p => Outline.delta p.1 p.2) ++ last) ∧
          (last = [] ∨ (∃ m, last = [Outline.error true m]) ∨
            last = [Outline.final cs.flatten])) := by
  have hframe : ∀ (s : State), s.events = st.events → s.outlines = st.outlines := by
    intro s hs; simp [State.outlines, hs]
  unfold handleAgentChat
  split
  · exact ⟨[], by simp [httpError_outlines], Or.inl rfl⟩
  · simp only
    split
    · exact ⟨[], by rw [httpError_outlines]; simp [State.outlines, setHeader_events], Or.inl rfl⟩
    · split
      · exact ⟨[], by rw [httpError_outlines]; simp [State.outlines, setHeader_events],
          Or.inl rfl⟩
      · next decoded hdec =>
        generalize (if decoded.endpoint = [] then
          { decoded with endpoint := req.urlEndpoint } else decoded) = payload
        generalize (if trimSpace payload.text = [] then extractLatestUserText payload.messages
          else trimSpace payload.text) = userText
        generalize (if payload.parentMessageId = [] then noParentMessageID
          else payload.parentMessageId) = pid
        have hst1 : (ensureID env (normalizeConversationID env
            (setHeader (setHeader (setHeader st "Content-Type".toList "text/event-stream".toList)
              "Cache-Control".toList "no-cache".toList) "Connection".toList "keep-alive".toList)
            payload.conversationId).2 payload.messageId).2.events = st.events := by
          simp [ensureID_events, normalizeConversationID_events, setHeader_events]
        generalize (ensureID env (normalizeConversationID env
            (setHeader (setHeader (setHeader st "Content-Type".toList "text/event-stream".toList)
              "Cache-Control".toList "no-cache".toList) "Connection".toList "keep-alive".toList)
            payload.conversationId).2 payload.messageId) = r at hst1 ⊢
        have h400 : ∀ msg code, (httpError env r.2 msg code).outlines = st.outlines ++ [] := by
          intro msg code
          rw [httpError_outlines, List.append_nil]
          exact hframe _ hst1
        split
        · exact ⟨[], h400 _ _, Or.inl rfl⟩
        · split
          · exact ⟨[], h400 _ _, Or.inl rfl⟩
          · split
            · exact ⟨[], h400 _ _, Or.inl rfl⟩
            · split
              · rw [sendErrorEvent_outlines]
                exact ⟨_, by congr 1; exact hframe _ hst1, Or.inr (Or.inl ⟨_, rfl⟩)⟩
              · split
                · rw [sendErrorEvent_outlines]
                  exact ⟨_, by congr 1; exact hframe _ hst1, Or.inr (Or.inl ⟨_, rfl⟩)⟩
                · next resp hresp hstatus =>
                  obtain ⟨cs, last, h1, h2⟩ := streamAgentChat_outlines env
                    { r.2 with outbound := r.2.outbound ++ [_] } payload resp.body
                    (normalizeConversationID env
                      (setHeader (setHeader (setHeader st "Content-Type".toList
                        "text/event-stream".toList) "Cache-Control".toList "no-cache".toList)
                        "Connection".toList "keep-alive".toList) payload.conversationId).1
                    r.1 pid userText
                  rw [h1]
                  exact ⟨_, by congr 1; exact hframe _ hst1, Or.inr (Or.inr ⟨cs, last, rfl, h2⟩)⟩

theorem post_nil_of_last {α : Type} (P : α → Bool) :
    ∀ (A pre post : List α) (x o : α), (∀ a ∈ A, P a = false) → P o = true →
      A ++ [x] = pre ++ o :: post → post = [] := by
  intro A
  induction A with
  | nil =>
      intro pre post x o _ _ h
      cases pre with
      | nil => simp at h; exact h.2.symm ▸ rfl
      | cons p pre => simp at h
  | cons a A ih =>
      intro pre post x o hA ho h
      cases pre with
      | nil =>
          simp only [List.cons_append, List.nil_append, List.cons.injEq] at h
          have := hA a (by simp)
          rw [h.1, ho] at this
          cases this
      | cons p pre =>
          simp only [List.cons_append, List.cons.injEq] at h
          exact ih pre post x o (fun b hb => hA b (by simp [hb])) ho h.2

theorem runningTexts_not_final (cs : List GoString) (b : GoString) :
    ∀ o ∈ (runningTexts b cs).map (fun p => Outline.delta p.1 p.2), o.isFinal = false := by
  intro o ho
  simp only [List.mem_map] at ho
  obtain ⟨p, _, rfl⟩ := ho
  rfl

theorem runningTexts_not_error (cs : List GoString) (b : GoString) :
    ∀ o ∈ (runningTexts b cs).map (fun p => Outline.delta p.1 p.2), o.isError = false := by
  intro o ho
  simp only [List.mem_map] at ho
  obtain ⟨p, _, rfl⟩ := ho
  rfl

/-- Claim C6. For every configuration, request and behaviour of the upstream, the
client connection, the random source and the clock, the events handed to
`writeSSEEvent` by the agent-chat handler contain at most one Final event, no Delta
event after a Final event, and never both a Final event and an Error event. -/
theorem handleAgentChat_final_once (cfg : Config) (env : Env) (req : Request) :
    ((handleAgentChat cfg env req State.init).outlines.filter Outline.isFinal).length ≤ 1 ∧
    (∀ (pre post : List Outline) (o : Outline),
      (handleAgentChat cfg env req State.init).outlines = pre ++ o :: post →
      o.isFinal = true → ∀ d ∈ post, d.isDelta = false) ∧
    ¬ ((∃ o ∈ (handleAgentChat cfg env req State.init).outlines, o.isFinal = true) ∧
        (∃ o ∈ (handleAgentChat cfg env req State.init).outlines, o.isError = true)) := by
  obtain ⟨tail, h, hshape⟩ := handleAgentChat_outlines cfg env req State.init
  have hinit : State.init.outlines = [] := rfl
  rw [hinit, List.nil_append] at h
  rw [h]
  have nofinal : ∀ (L : List Outline), (∀ o ∈ L, o.isFinal = false) →
      (L.filter Outline.isFinal).length ≤ 1 ∧
      (∀ (pre post : List Outline) (o : Outline), L = pre ++ o :: post →
        o.isFinal = true → ∀ d ∈ post, d.isDelta = false) ∧
      ¬ ((∃ o ∈ L, o.isFinal = true) ∧ (∃ o ∈ L, o.isError = true)) := by
    intro L hL
    refine ⟨?_, ?_, ?_⟩
    · have : L.filter Outline.isFinal = [] := by
        rw [List.filter_eq_nil_iff]
        intro o ho; simp [hL o ho]
      simp [this]
    · intro pre post o hsplit ho
      have := hL o (by rw [hsplit]; simp)
      rw [ho] at this; cases this
    · rintro ⟨⟨o, ho, hf⟩, _⟩
      have := hL o ho
      rw [hf] at this; cases this
  rcases hshape with rfl | ⟨m, rfl⟩ | ⟨cs, last, rfl, hlast⟩
  · exact nofinal [] (by simp)
  · exact nofinal _ (by simp [Outline.isFinal])
  · have hD := runningTexts_not_final cs []
    have hE := runningTexts_not_error cs []
    rcases hlast with rfl | ⟨m, rfl⟩ | rfl
    · apply nofinal
      intro o ho
      simp only [List.append_nil, List.mem_cons] at ho
      rcases ho with rfl | ho
      · rfl
      · exact hD o ho
    · apply nofinal
      intro o ho
      simp only [List.mem_cons, List.mem_append, List.mem_singleton, List.not_mem_nil, or_false] at ho
      rcases ho with rfl | ho | rfl
      · rfl
      · exact hD o ho
      · rfl
    · have hA : ∀ a ∈ Outline.created ::
          (runningTexts [] cs).map (fun p => Outline.delta p.1 p.2), a.isFinal = false := by
        intro a ha
        simp only [List.mem_cons] at ha
        rcases ha with rfl | ha
        · rfl
        · exact hD a ha
      have hAE : ∀ a ∈ Outline.created ::
          (runningTexts [] cs).map (fun p => Outline.delta p.1 p.2), a.isError = false := by
        intro a ha
        simp only [List.mem_cons] at ha
        rcases ha with rfl | ha
        · rfl
        · exact hE a ha
      refine ⟨?_, ?_, ?_⟩
      · have : ((runningTexts [] cs).map (fun p => Outline.delta p.1 p.2)).filter
            Outline.isFinal = [] := by
          rw [List.filter_eq_nil_iff]
          intro o ho; simp [hD o ho]
        simp [List.filter_cons, List.filter_append, this, Outline.isFinal]
      · intro pre post o hsplit ho
        have : post = [] := by
          apply post_nil_of_last Outline.isFinal _ pre post (Outline.final cs.flatten) o hA ho
          simpa using hsplit
        simp [this]
      · rintro ⟨_, ⟨o, ho, he⟩⟩
        simp only [List.mem_cons, List.mem_append, List.mem_singleton, List.not_mem_nil, or_false] at ho
        rcases ho with rfl | ho | rfl
        · cases he
        · have := hE o ho
          rw [he] at this; cases this
        · cases he

theorem handleAgentChat_valid (cfg : Config) (env : Env) (req : Request)
    (decoded : agentChatPayload) (resp : Response) (st : State)
    (hv : validRequest cfg env req decoded) (hdo : env.doResult = .ok resp) :
    ∃ (st1 : State) (payload : agentChatPayload) (cid rid pid userText : GoString),
      st1.events = st.events ∧ st1.writes = st.writes ∧ st1.statusCode = st.statusCode ∧
      handleAgentChat cfg env req st =
        if resp.statusCode ≠ 200 then
          sendErrorEvent env st1 cid rid pid userText
            (.other ("llm proxy error: ".toList ++ resp.status ++ " ".toList ++
              trimSpace resp.body.content))
        else streamAgentChat env st1 payload resp.body cid rid pid userText := by
  obtain ⟨hflush, hurl, hdec, htext, hnew⟩ := hv
  unfold handleAgentChat
  simp only [hflush, Bool.not_true, Bool.false_eq_true, if_false, hurl, hdec, hnew, hdo]
  have hpt : ∀ e, ({ decoded with endpoint := e } : agentChatPayload).text = decoded.text :=
    fun _ => rfl
  have hpm : ∀ e, ({ decoded with endpoint := e } : agentChatPayload).messages =
      decoded.messages := fun _ => rfl
  have hp : (if decoded.endpoint = [] then
      { decoded with endpoint := req.urlEndpoint } else decoded).text = decoded.text := by
    split <;> rfl
  have hm : (if decoded.endpoint = [] then
      { decoded with endpoint := req.urlEndpoint } else decoded).messages = decoded.messages := by
    split <;> rfl
  generalize (if decoded.endpoint = [] then
      { decoded with endpoint := req.urlEndpoint } else decoded) = payload at hp hm ⊢
  have hut : ¬ (if trimSpace payload.text = [] then extractLatestUserText payload.messages
      else trimSpace payload.text) = [] := by
    rw [hp, hm]
    split
    · next h0 => rcases htext with h | h
                 · exact absurd h0 h
                 · exact h
    · next h0 => exact h0
  generalize (if trimSpace payload.text = [] then extractLatestUserText payload.messages
      else trimSpace payload.text) = userText at hut ⊢
  have hlen : ¬ (buildUpstreamMessages payload.messages userText).length = 0 := by
    simp [buildUpstreamMessages]
  simp only [hut, hlen, if_false]
  refine ⟨_, payload, _, _, _, userText, ?_, ?_, ?_, rfl⟩
  · simp [ensureID_events, normalizeConversationID_events, setHeader_events]
  · simp [ensureID_writes, normalizeConversationID_writes, setHeader_writes]
  · simp [ensureID_statusCode, normalizeConversationID_statusCode, setHeader_statusCode]

theorem pipeUpstreamStream_ok_log (env : Env) (hw : ∀ k, env.writeResult k = none)
    (st : State) (body : Body) (cid rid respId : GoString) :
    (pipeUpstreamStream env st body cid rid respId).2.2.events =
      st.events ++ (deltaEvents cid rid respId []
        (chunksOfTrimmed (splitLines body.content).1)).map (fun e => (e, true)) := by
  have h := (pipeLoop_ok env hw body.err cid rid respId (splitLines body.content).1 []
    (timeNow env st).1 (timeNow env st).2).1
  rw [timeNow_events] at h
  unfold pipeUpstreamStream
  simp only
  revert h
  cases pipeLoop env body.err cid rid respId (splitLines body.content).1 []
      (timeNow env st).1 (timeNow env st).2 with
  | returned text err s => intro h; exact h
  | broke builder deadline s =>
      intro h
      simp only [LoopExit.state] at h
      simp only
      split
      · split
        · simpa [timeSince, timeNow] using h
        · simpa [timeSince, timeNow] using h
      · exact h

theorem pipeUpstreamStream_ok_done (env : Env) (hw : ∀ k, env.writeResult k = none)
    (st : State) (body : Body) (cid rid respId : GoString)
    (hs : reachesSentinel (splitLines body.content).1 = true ∨ body.err.isEOF = true)
    (hne : (chunksOfTrimmed (splitLines body.content).1).flatten ≠ []) :
    (pipeUpstreamStream env st body cid rid respId).1 =
        (chunksOfTrimmed (splitLines body.content).1).flatten ∧
      (pipeUpstreamStream env st body cid rid respId).2.1 = none := by
  obtain ⟨dl', h⟩ := (pipeLoop_ok env hw body.err cid rid respId (splitLines body.content).1 []
    (timeNow env st).1 (timeNow env st).2).2.2.2 hs
  unfold pipeUpstreamStream
  simp only
  rw [h]
  simp only [List.nil_append]
  have : ¬ (chunksOfTrimmed (splitLines body.content).1).flatten.length = 0 := by
    intro h0
    exact hne (List.length_eq_zero.mp h0)
  simp only [this, if_false, and_self]

theorem pipeUpstreamStream_ok_failed (env : Env) (hw : ∀ k, env.writeResult k = none)
    (st : State) (body : Body) (cid rid respId : GoString)
    (hs : reachesSentinel (splitLines body.content).1 = false) (he : body.err.isEOF = false) :
    (pipeUpstreamStream env st body cid rid respId).2.1 =
      some (.wrapped "llm stream error: ".toList body.err) := by
  have h := (pipeLoop_ok env hw body.err cid rid respId (splitLines body.content).1 []
    (timeNow env st).1 (timeNow env st).2).2.2.1 hs he
  unfold pipeUpstreamStream
  simp only
  rw [h]

theorem streamAgentChat_ok_final (env : Env) (hw : ∀ k, env.writeResult k = none)
    (st : State) (payload : agentChatPayload) (body : Body) (cid rid pid userText : GoString)
    (hs : reachesSentinel (splitLines body.content).1 = true ∨ body.err.isEOF = true)
    (hne : (chunksOfTrimmed (splitLines body.content).1).flatten ≠ []) :
    (streamAgentChat env st payload body cid rid pid userText).events =
      st.events ++ (createdEvent cid rid (generateID env st).1, true) ::
        ((deltaEvents cid rid (generateID env st).1 []
            (chunksOfTrimmed (splitLines body.content).1)).map (fun e => (e, true)) ++
          [(buildFinalEvent payload cid rid pid (generateID env st).1 userText
              (chunksOfTrimmed (splitLines body.content).1).flatten, true)]) := by
  unfold streamAgentChat
  simp only
  have hc := writeSSEEvent_ok env hw (generateID env st).2
    (createdEvent cid rid (generateID env st).1)
  unfold createdEvent at hc ⊢
  rw [hc]
  simp only
  obtain ⟨h1, h2⟩ := pipeUpstreamStream_ok_done env hw (writeSSEEvent env (generateID env st).2
    (Event.created true
      { messageId := (generateID env st).1, conversationId := some cid,
        parentMessageId := rid, sender := none, text := none,
        isCreatedByUser := none, error := none })).2 body cid rid (generateID env st).1 hs hne
  rw [h2]
  simp only
  rw [writeSSEEvent_events, writeSSEEvent_ok env hw, pipeUpstreamStream_ok_log env hw,
    writeSSEEvent_events, hc, generateID_events, h1]
  simp

theorem streamAgentChat_ok_canceled (env : Env) (hw : ∀ k, env.writeResult k = none)
    (st : State) (payload : agentChatPayload) (body : Body) (cid rid pid userText : GoString)
    (hs : reachesSentinel (splitLines body.content).1 = false) (he : body.err.isEOF = false)
    (hcan : body.err.isCanceled = true) :
    streamAgentChat env st payload body cid rid pid userText =
      (pipeUpstreamStream env
        (writeSSEEvent env (generateID env st).2
          (createdEvent cid rid (generateID env st).1)).2 body cid rid (generateID env st).1).2.2 := by
  unfold streamAgentChat
  simp only
  have hc := writeSSEEvent_ok env hw (generateID env st).2
    (createdEvent cid rid (generateID env st).1)
  unfold createdEvent at hc ⊢
  rw [hc]
  simp only
  rw [pipeUpstreamStream_ok_failed env hw _ body cid rid _ hs he]
  simp [GoError.isCanceled, hcan]

/-- Claim C3, as amended. Given the upstream lines `data: Hello`, `data:  world`,
`data: [DONE]` (each newline-terminated), a status 200, a valid request and a client
connection on which every write succeeds, the agent-chat handler emits exactly: one
Created event, a Delta with chunk "Hello" and cumulative text "Hello", a Delta with
chunk "world" and cumulative text "Helloworld", then one Final event whose
responseMessage.text is "Helloworld"; every one of them is written successfully. -/
theorem handleAgentChat_hello_world (cfg : Config) (env : Env) (req : Request)
    (decoded : agentChatPayload) (resp : Response)
    (hv : validRequest cfg env req decoded) (hw : ∀ k, env.writeResult k = none)
    (hdo : env.doResult = .ok resp) (h200 : resp.statusCode = 200)
    (hbody : resp.body.content = helloWorldBody) :
    (handleAgentChat cfg env req State.init).outlines =
        [Outline.created, Outline.delta "Hello".toList "Hello".toList,
          Outline.delta "world".toList "Helloworld".toList,
          Outline.final "Helloworld".toList] ∧
      ∀ e ∈ (handleAgentChat cfg env req State.init).events, e.2 = true := by
  obtain ⟨st1, payload, cid, rid, pid, userText, hev, _, _, h⟩ :=
    handleAgentChat_valid cfg env req decoded resp State.init hv hdo
  have hchunks : chunksOfTrimmed (splitLines resp.body.content).1 =
      ["Hello".toList, "world".toList] := by
    rw [hbody]; decide
  have hs : reachesSentinel (splitLines resp.body.content).1 = true ∨
      resp.body.err.isEOF = true := by
    left; rw [hbody]; decide
  have hne : (chunksOfTrimmed (splitLines resp.body.content).1).flatten ≠ [] := by
    rw [hchunks]; decide
  have hlog := streamAgentChat_ok_final env hw st1 payload resp.body cid rid pid userText hs hne
  rw [hchunks, hev] at hlog
  simp only [h200, ne_eq, not_true_eq_false, if_false] at h
  rw [h]
  constructor
  · simp [State.outlines, hlog, State.init, deltaEvents, Event.outline, createdEvent,
      buildFinalEvent]
  · intro e he
    rw [hlog] at he
    simp [State.init, deltaEvents] at he
    rcases he with rfl | rfl | rfl | rfl <;> rfl

/-- Witness for claim C3: the sample request, answered with status 200 and the
three lines. -/
theorem handleAgentChat_hello_world_witness :
    validRequest sampleConfig (quietEnvWith (upstreamAnswer 200 "200 OK"
        "data: Hello\ndata:  world\ndata: [DONE]\n" .eof)) sampleRequest samplePayload ∧
      (handleAgentChat sampleConfig (quietEnvWith (upstreamAnswer 200 "200 OK"
        "data: Hello\ndata:  world\ndata: [DONE]\n" .eof)) sampleRequest State.init).outlines =
        [Outline.created, Outline.delta "Hello".toList "Hello".toList,
          Outline.delta "world".toList "Helloworld".toList,
          Outline.final "Helloworld".toList] :=
  ⟨⟨rfl, by decide, rfl, Or.inl (by decide), rfl⟩,
    (handleAgentChat_hello_world sampleConfig _ sampleRequest samplePayload
      (upstreamAnswer 200 "200 OK" "data: Hello\ndata:  world\ndata: [DONE]\n" .eof)
      ⟨rfl, by decide, rfl, Or.inl (by decide), rfl⟩ (fun _ => rfl) rfl rfl rfl).1⟩

/-- Counterexample to claim C3 as written: on the three lines the handler does not
emit a second Delta with cumulative text "Hello world" nor a Final with text
"Hello world"; the chunks are trimmed, so both texts are "Helloworld". -/
theorem handleAgentChat_hello_world_as_written_fails :
    (handleAgentChat sampleConfig (quietEnvWith (upstreamAnswer 200 "200 OK"
        "data: Hello\ndata:  world\ndata: [DONE]\n" .eof)) sampleRequest State.init).outlines ≠
      [Outline.created, Outline.delta "Hello".toList "Hello".toList,
        Outline.delta "world".toList "Hello world".toList,
        Outline.final "Hello world".toList] := by
  decide

/-- Claim C4, the code at the failing input. The upstream sends only the sentinel
line. When the two clock readings are equal, `pipeUpstreamStream` returns the empty
text without error and the handler emits a Final event with empty text and no Error
event; when time elapses between them, it returns the no-content error and the
handler emits an Error event. -/
theorem handleAgentChat_empty_content_frozen_clock :
    (pipeUpstreamStream (frozenClockEnv (upstreamAnswer 200 "200 OK" "data: [DONE]\n" .eof))
        State.init { content := "data: [DONE]\n".toList, err := .eof } [] [] []).2.1 = none ∧
    (handleAgentChat sampleConfig
        (frozenClockEnv (upstreamAnswer 200 "200 OK" "data: [DONE]\n" .eof))
        sampleRequest State.init).outlines = [Outline.created, Outline.final []] ∧
    (handleAgentChat sampleConfig
        (quietEnvWith (upstreamAnswer 200 "200 OK" "data: [DONE]\n" .eof))
        sampleRequest State.init).outlines =
      [Outline.created, Outline.error true "upstream produced no content".toList] := by
  decide

/-- Claim C5, the code at the failing input. The upstream body is `data: Hello`,
a newline, then `data: world` ended by EOF without a newline: the handler emits a
Delta event for `Hello` only, and the Final event carries `Hello`; the last line is
dropped. With a newline after the last line both chunks are emitted. -/
theorem handleAgentChat_drops_unterminated_line :
    (handleAgentChat sampleConfig
        (quietEnvWith (upstreamAnswer 200 "200 OK" "data: Hello\ndata: world" .eof))
        sampleRequest State.init).outlines =
      [Outline.created, Outline.delta "Hello".toList "Hello".toList,
        Outline.final "Hello".toList] ∧
    (handleAgentChat sampleConfig
        (quietEnvWith (upstreamAnswer 200 "200 OK" "data: Hello\ndata: world\n" .eof))
        sampleRequest State.init).outlines =
      [Outline.created, Outline.delta "Hello".toList "Hello".toList,
        Outline.delta "world".toList "Helloworld".toList,
        Outline.final "Helloworld".toList] := by
  decide

/-- Claim C8, the code at the failing input. The three writes of the Created event
succeed and the first write of the Delta event (write number 3) fails with a
broken pipe: the handler then calls `writeSSEEvent` once more, for an Error event,
and its three writes are attempted on the same connection. -/
theorem handleAgentChat_writes_after_failed_write :
    (handleAgentChat sampleConfig
        (brokenPipeEnv 3 (upstreamAnswer 200 "200 OK" "data: Hello\n" .eof))
        sampleRequest State.init).events.map (fun e => (e.1.outline, e.2)) =
      [(Outline.created, true), (Outline.delta "Hello".toList "Hello".toList, false),
        (Outline.error true "failed to forward chunk: broken pipe".toList, true)] ∧
    (handleAgentChat sampleConfig
        (brokenPipeEnv 3 (upstreamAnswer 200 "200 OK" "data: Hello\n" .eof))
        sampleRequest State.init).writes.map Prod.snd =
      [true, true, true, false, true, true, true] := by
  decide

theorem write_statusCode (env : Env) (st : State) (d : WriteData) :
    (write env st d).2.statusCode = some (st.statusCode.getD 200) := by
  unfold write writeHeader
  cases h : st.statusCode <;> simp [h]

theorem writeSSEEvent_statusCode (env : Env) (st : State) (e : Event) :
    (writeSSEEvent env st e).2.statusCode = some (st.statusCode.getD 200) := by
  unfold writeSSEEvent
  simp only
  split
  · simp [write_statusCode]
  · split
    · simp [write_statusCode]
    · split <;> simp [write_statusCode]

theorem sendErrorEvent_statusCode (env : Env) (st : State) (cid rid pid userText : GoString)
    (err : GoError) :
    (sendErrorEvent env st cid rid pid userText err).statusCode =
      some (st.statusCode.getD 200) := by
  unfold sendErrorEvent
  simp only
  rw [writeSSEEvent_statusCode, generateID_statusCode]

/-- Claim C7. For every valid agent-chat request whose upstream call returns a
status other than 200, the handler calls `writeSSEEvent` exactly once, with an Error
event whose `final` is true and whose `error` string is the non-empty text
`llm proxy error: <status> <trimmed body>`; no Created, Delta or Final event is
emitted, and the status of the client response is 200, never the upstream's. -/
theorem handleAgentChat_upstream_rejected (cfg : Config) (env : Env) (req : Request)
    (decoded : agentChatPayload) (resp : Response)
    (hv : validRequest cfg env req decoded) (hdo : env.doResult = .ok resp)
    (hstatus : resp.statusCode ≠ 200) :
    (handleAgentChat cfg env req State.init).outlines =
        [Outline.error true ("llm proxy error: ".toList ++ resp.status ++ " ".toList ++
          trimSpace resp.body.content)] ∧
      "llm proxy error: ".toList ++ resp.status ++ " ".toList ++
          trimSpace resp.body.content ≠ [] ∧
      (handleAgentChat cfg env req State.init).events.length = 1 ∧
      (handleAgentChat cfg env req State.init).statusCode = some 200 := by
  obtain ⟨st1, payload, cid, rid, pid, userText, hev, _, hsc, h⟩ :=
    handleAgentChat_valid cfg env req decoded resp State.init hv hdo
  simp only [hstatus, ne_eq, not_false_eq_true, if_true] at h
  have hout := sendErrorEvent_outlines env st1 cid rid pid userText
    (.other ("llm proxy error: ".toList ++ resp.status ++ " ".toList ++
      trimSpace resp.body.content))
  have hst1 : st1.outlines = [] := by simp [State.outlines, hev, State.init]
  rw [hst1] at hout
  rw [h]
  refine ⟨by simpa [GoError.text] using hout, by simp, ?_, ?_⟩
  · have := congrArg List.length hout
    simpa [State.outlines] using this
  · rw [sendErrorEvent_statusCode, hsc]
    rfl

/-- Witness for claim C7: the sample request, answered by the upstream with
status 500. -/
theorem handleAgentChat_upstream_rejected_witness :
    validRequest sampleConfig (quietEnvWith (upstreamAnswer 500
        "500 Internal Server Error" "boom\n" .eof)) sampleRequest samplePayload ∧
      (upstreamAnswer 500 "500 Internal Server Error" "boom\n" .eof).statusCode ≠ 200 ∧
      (handleAgentChat sampleConfig (quietEnvWith (upstreamAnswer 500
        "500 Internal Server Error" "boom\n" .eof)) sampleRequest State.init).outlines =
        [Outline.error true "llm proxy error: 500 Internal Server Error boom".toList] :=
  ⟨⟨rfl, by decide, rfl, Or.inl (by decide), rfl⟩, by decide,
    (handleAgentChat_upstream_rejected sampleConfig _ sampleRequest samplePayload
      (upstreamAnswer 500 "500 Internal Server Error" "boom\n" .eof)
      ⟨rfl, by decide, rfl, Or.inl (by decide), rfl⟩ rfl (by decide)).1.trans (by decide)⟩

theorem isEOF_of_isCanceled : ∀ e : GoError, e.isCanceled = true → e.isEOF = false := by
  intro e
  induction e with
  | eof => intro h; cases h
  | canceled => intro _; rfl
  | other msg => intro h; cases h
  | wrapped msg inner ih => intro h; exact ih h

/-- Claim C9. Take a valid request answered with status 200 whose body ends with a
read error that is a context cancellation, after any content in which no line
carries the sentinel, and a client connection on which every write succeeds, so that
the read failure is reached. Then the handler's events are exactly the Created event
and one Delta event per chunk read before the failure: no Error event and no Final
event follows. -/
theorem handleAgentChat_canceled_read (cfg : Config) (env : Env) (req : Request)
    (decoded : agentChatPayload) (resp : Response)
    (hv : validRequest cfg env req decoded) (hw : ∀ k, env.writeResult k = none)
    (hdo : env.doResult = .ok resp) (h200 : resp.statusCode = 200)
    (hs : reachesSentinel (splitLines resp.body.content).1 = false)
    (hcan : resp.body.err.isCanceled = true) :
    (handleAgentChat cfg env req State.init).outlines =
        Outline.created ::
          (runningTexts [] (chunksOfTrimmed (splitLines resp.body.content).1)).map
            (fun p => Outline.delta p.1 p.2) ∧
      ∀ o ∈ (handleAgentChat cfg env req State.init).outlines,
        o.isError = false ∧ o.isFinal = false := by
  obtain ⟨st1, payload, cid, rid, pid, userText, hev, _, _, h⟩ :=
    handleAgentChat_valid cfg env req decoded resp State.init hv hdo
  simp only [h200, ne_eq, not_true_eq_false, if_false] at h
  have hout : (handleAgentChat cfg env req State.init).outlines =
      Outline.created ::
        (runningTexts [] (chunksOfTrimmed (splitLines resp.body.content).1)).map
          (fun p => Outline.delta p.1 p.2) := by
    rw [h, streamAgentChat_ok_canceled env hw st1 payload resp.body cid rid pid userText hs
      (isEOF_of_isCanceled _ hcan) hcan]
    rw [outlines_eq, pipeUpstreamStream_ok_log env hw, writeSSEEvent_events,
      generateID_events, hev]
    simp [State.init, Function.comp_def, outline_deltaEvents, createdEvent, Event.outline]
  refine ⟨hout, ?_⟩
  intro o ho
  rw [hout] at ho
  simp only [List.mem_cons] at ho
  rcases ho with rfl | ho
  · exact ⟨rfl, rfl⟩
  · exact ⟨runningTexts_not_error _ _ o ho, runningTexts_not_final _ _ o ho⟩

/-- Witness for claim C9: two chunks, then the read fails with a wrapped
`context.Canceled` in the middle of a line. -/
theorem handleAgentChat_canceled_read_witness :
    validRequest sampleConfig (quietEnvWith (upstreamAnswer 200 "200 OK"
        "data: Hello\ndata: wor\ndata: l" (.wrapped "read: ".toList .canceled)))
        sampleRequest samplePayload ∧
      (handleAgentChat sampleConfig (quietEnvWith (upstreamAnswer 200 "200 OK"
        "data: Hello\ndata: wor\ndata: l" (.wrapped "read: ".toList .canceled)))
        sampleRequest State.init).outlines =
        [Outline.created, Outline.delta "Hello".toList "Hello".toList,
          Outline.delta "wor".toList "Hellowor".toList] :=
  ⟨⟨rfl, by decide, rfl, Or.inl (by decide), rfl⟩,
    (handleAgentChat_canceled_read sampleConfig _ sampleRequest samplePayload
      (upstreamAnswer 200 "200 OK" "data: Hello\ndata: wor\ndata: l"
        (.wrapped "read: ".toList .canceled))
      ⟨rfl, by decide, rfl, Or.inl (by decide), rfl⟩ (fun _ => rfl) rfl rfl (by decide)
      rfl).1.trans (by decide)⟩

theorem toDigitsCore_append : ∀ (n fuel : Nat) (ds : List Char), n < fuel →
    Nat.toDigitsCore 16 fuel n ds = Nat.toDigitsCore 16 (n + 1) n [] ++ ds := by
  intro n
  induction n using Nat.strong_induction_on with
  | _ n ih =>
      intro fuel ds hfuel
      cases fuel with
      | zero => omega
      | succ f =>
          simp only [Nat.toDigitsCore]
          by_cases h0 : n / 16 = 0
          · simp [h0]
          · simp only [h0, if_false]
            have hlt : n / 16 < n := by omega
            rw [ih (n / 16) hlt f _ (by omega), ih (n / 16) hlt n _ hlt]
            simp

theorem toDigits_small (n : Nat) (h : n < 16) : Nat.toDigits 16 n = [Nat.digitChar n] := by
  have h0 : n / 16 = 0 := by omega
  have h1 : n % 16 = n := by omega
  simp [Nat.toDigits, Nat.toDigitsCore, h0, h1]

theorem toDigits_large (n : Nat) (h : 16 ≤ n) :
    Nat.toDigits 16 n = Nat.toDigits 16 (n / 16) ++ [Nat.digitChar (n % 16)] := by
  have h0 : ¬ n / 16 = 0 := by omega
  have hlt : n / 16 < n := by omega
  have e : Nat.toDigitsCore 16 (n + 1) n [] =
      Nat.toDigitsCore 16 n (n / 16) [Nat.digitChar (n % 16)] := by
    simp [Nat.toDigitsCore, h0]
  unfold Nat.toDigits
  rw [e, toDigitsCore_append (n / 16) n _ hlt]

theorem toDigits_length_le : ∀ (w n : Nat), 0 < w → n < 16 ^ w →
    (Nat.toDigits 16 n).length ≤ w := by
  intro w
  induction w with
  | zero => intro n h; omega
  | succ w ih =>
      intro n _ hn
      by_cases hsmall : n < 16
      · rw [toDigits_small n hsmall]; simp
      · have hw : 0 < w := by
          rcases Nat.eq_zero_or_pos w with h | h
          · subst h; simp at hn; omega
          · exact h
        rw [toDigits_large n (by omega)]
        have : n / 16 < 16 ^ w := by
          rw [Nat.div_lt_iff_lt_mul (by decide)]
          rw [Nat.pow_succ] at hn
          exact hn
        have := ih (n / 16) hw this
        simp
        omega

theorem fmtHex_byte_append (w x y : Nat) (hw : 0 < w) (hx : x < 16 ^ w) (hy : y < 256) :
    fmtHex (w + 2) (x * 256 + y) = fmtHex w x ++ hexByte y := by
  have hlen := toDigits_length_le w x hw hx
  unfold fmtHex hexByte
  simp only
  by_cases hx0 : x = 0
  · subst hx0
    have hz : Nat.toDigits 16 0 = ['0'] := by decide
    rw [hz] at hlen ⊢
    simp only [Nat.zero_mul, Nat.zero_add, List.length_singleton]
    by_cases hy16 : y < 16
    · rw [toDigits_small y hy16]
      have h1 : y / 16 = 0 := by omega
      have h2 : y % 16 = y := by omega
      have h3 : w + 2 - 1 = (w - 1) + 1 + 1 := by omega
      simp only [h1, h2, List.length_singleton, h3, List.replicate_succ']
      have : Nat.digitChar 0 = '0' := by decide
      simp [this]
    · rw [toDigits_large y (by omega), toDigits_small (y / 16) (by omega)]
      have h3 : w + 2 - ([Nat.digitChar (y / 16)] ++ [Nat.digitChar (y % 16)]).length =
          (w - 1) + 1 := by simp; omega
      rw [h3, List.replicate_succ']
      simp
  · have hbig : 16 ≤ x * 256 + y := by omega
    have hbig2 : 16 ≤ (x * 256 + y) / 16 := by omega
    have hd1 : (x * 256 + y) / 16 / 16 = x := by omega
    have hd2 : (x * 256 + y) / 16 % 16 = y / 16 := by omega
    have hd3 : (x * 256 + y) % 16 = y % 16 := by omega
    rw [toDigits_large _ hbig, toDigits_large _ hbig2, hd1, hd2, hd3]
    have h3 : w + 2 - (Nat.toDigits 16 x ++ [Nat.digitChar (y / 16)] ++
        [Nat.digitChar (y % 16)]).length = w - (Nat.toDigits 16 x).length := by
      simp
    rw [h3]
    simp

theorem fmtHex_byte (y : Nat) (hy : y < 256) : fmtHex 2 y = hexByte y := by
  unfold fmtHex hexByte
  simp only
  by_cases hy16 : y < 16
  · rw [toDigits_small y hy16]
    have h1 : y / 16 = 0 := by omega
    have h2 : y % 16 = y := by omega
    have : Nat.digitChar 0 = '0' := by decide
    simp [h1, h2, this]
  · rw [toDigits_large y (by omega), toDigits_small (y / 16) (by omega)]
    simp

theorem uint16BE_pair (a b : Nat) (ha : a < 256) (hb : b < 256) :
    uint16BE [a, b] = a * 256 + b := by
  unfold uint16BE
  simp only [List.getD_cons_zero, List.getD_cons_succ, Nat.shiftLeft_eq]
  have h1 : b ||| a * 2 ^ 8 = 2 ^ 8 * a + b := by
    rw [Nat.lor_comm, Nat.mul_comm a, Nat.mul_add_lt_is_or (by omega) a]
  rw [h1]
  omega

theorem uint32BE_quad (a b c d : Nat) (ha : a < 256) (hb : b < 256) (hc : c < 256)
    (hd : d < 256) : uint32BE [a, b, c, d] = ((a * 256 + b) * 256 + c) * 256 + d := by
  unfold uint32BE
  simp only [List.getD_cons_zero, List.getD_cons_succ, Nat.shiftLeft_eq]
  have h1 : d ||| c * 2 ^ 8 = 2 ^ 8 * c + d := by
    rw [Nat.lor_comm, Nat.mul_comm c, Nat.mul_add_lt_is_or (by omega) c]
  have h2 : 2 ^ 8 * c + d ||| b * 2 ^ 16 = 2 ^ 16 * b + (2 ^ 8 * c + d) := by
    rw [Nat.lor_comm, Nat.mul_comm b, Nat.mul_add_lt_is_or (by omega) b]
  have h3 : 2 ^ 16 * b + (2 ^ 8 * c + d) ||| a * 2 ^ 24 =
      2 ^ 24 * a + (2 ^ 16 * b + (2 ^ 8 * c + d)) := by
    rw [Nat.lor_comm, Nat.mul_comm a, Nat.mul_add_lt_is_or (by omega) a]
  rw [h1, h2, h3]
  omega

theorem fmtHex_uint16 (a b : Nat) (ha : a < 256) (hb : b < 256) :
    fmtHex 4 (uint16BE [a, b]) = hexByte a ++ hexByte b := by
  rw [uint16BE_pair a b ha hb, fmtHex_byte_append 2 a b (by decide) (by omega) hb,
    fmtHex_byte a ha]

theorem fmtHex_uint32 (a b c d : Nat) (ha : a < 256) (hb : b < 256) (hc : c < 256)
    (hd : d < 256) :
    fmtHex 8 (uint32BE [a, b, c, d]) = hexByte a ++ hexByte b ++ hexByte c ++ hexByte d := by
  rw [uint32BE_quad a b c d ha hb hc hd,
    fmtHex_byte_append 6 ((a * 256 + b) * 256 + c) d (by decide) (by omega) hd,
    fmtHex_byte_append 4 (a * 256 + b) c (by decide) (by omega) hc,
    fmtHex_byte_append 2 a b (by decide) (by omega) hb, fmtHex_byte a ha]

set_option maxRecDepth 100000 in
theorem version_byte : ∀ b < 256,
    ((b &&& 0x0f) ||| 0x40) / 16 = 4 ∧ ((b &&& 0x0f) ||| 0x40) < 256 := by
  decide

set_option maxRecDepth 100000 in
theorem variant_byte : ∀ b < 256,
    (((b &&& 0x3f) ||| 0x80) / 16 = 8 ∨ ((b &&& 0x3f) ||| 0x80) / 16 = 9 ∨
      ((b &&& 0x3f) ||| 0x80) / 16 = 10 ∨ ((b &&& 0x3f) ||| 0x80) / 16 = 11) ∧
      ((b &&& 0x3f) ||| 0x80) < 256 := by
  decide

theorem digitChar_isLowerHex : ∀ n < 16, isLowerHex (Nat.digitChar n) = true := by
  decide

theorem list_of_length_sixteen (buf : List Nat) (h : buf.length = 16) :
    ∃ b0 b1 b2 b3 b4 b5 b6 b7 b8 b9 b10 b11 b12 b13 b14 b15 : Nat,
      buf = [b0, b1, b2, b3, b4, b5, b6, b7, b8, b9, b10, b11, b12, b13, b14, b15] := by
  match buf, h with
  | [b0, b1, b2, b3, b4, b5, b6, b7, b8, b9, b10, b11, b12, b13, b14, b15], _ =>
      exact ⟨b0, b1, b2, b3, b4, b5, b6, b7, b8, b9, b10, b11, b12, b13, b14, b15, rfl⟩

theorem generateID_format (env : Env) (st : State)
    (b0 b1 b2 b3 b4 b5 b6 b7 b8 b9 b10 b11 b12 b13 b14 b15 : Nat)
    (hread : env.randRead st.randCalls =
      some [b0, b1, b2, b3, b4, b5, b6, b7, b8, b9, b10, b11, b12, b13, b14, b15])
    (hb : ∀ b ∈ [b0, b1, b2, b3, b4, b5, b6, b7, b8, b9, b10, b11, b12, b13, b14, b15],
      b < 256) :
    (generateID env st).1 =
      hexByte b0 ++ hexByte b1 ++ hexByte b2 ++ hexByte b3 ++ ['-'] ++
      (hexByte b4 ++ hexByte b5) ++ ['-'] ++
      (hexByte ((b6 &&& 0x0f) ||| 0x40) ++ hexByte b7) ++ ['-'] ++
      (hexByte ((b8 &&& 0x3f) ||| 0x80) ++ hexByte b9) ++ ['-'] ++
      (hexByte b10 ++ hexByte b11) ++
      (hexByte b12 ++ hexByte b13 ++ hexByte b14 ++ hexByte b15) := by
  simp only [List.mem_cons, List.mem_singleton, List.not_mem_nil, or_false, forall_eq_or_imp,
    forall_eq] at hb
  obtain ⟨h0, h1, h2, h3, h4, h5, h6, h7, h8, h9, h10, h11, h12, h13, h14, h15⟩ := hb
  unfold generateID
  rw [hread]
  simp only [slice, List.set_cons_succ, List.set_cons_zero, List.getD_cons_succ,
    List.getD_cons_zero, List.take_succ_cons, List.take_zero, List.drop_succ_cons,
    List.drop_zero]
  rw [fmtHex_uint32 b0 b1 b2 b3 h0 h1 h2 h3, fmtHex_uint16 b4 b5 h4 h5,
    fmtHex_uint16 _ b7 (version_byte b6 h6).2 h7,
    fmtHex_uint16 _ b9 (variant_byte b8 h8).2 h9,
    fmtHex_uint16 b10 b11 h10 h11, fmtHex_uint32 b12 b13 b14 b15 h12 h13 h14 h15]

/-- Claim C10. For every sixteen bytes delivered by the random source, `generateID`
returns a string of exactly 36 characters, with a hyphen at positions 8, 13, 18 and
23 and a lower-case hexadecimal digit at every other position; the character at
position 14 is `4` and the character at position 19 is one of `8`, `9`, `a`, `b`. -/
theorem generateID_layout (env : Env) (st : State) (buf : List Nat)
    (hread : env.randRead st.randCalls = some buf) (hlen : buf.length = 16)
    (hbytes : ∀ b ∈ buf, b < 256) :
    (generateID env st).1.length = 36 ∧
    (∀ (i : Nat) (c : Char), (generateID env st).1[i]? = some c →
      if i = 8 ∨ i = 13 ∨ i = 18 ∨ i = 23 then c = '-' else isLowerHex c = true) ∧
    (generateID env st).1[14]? = some '4' ∧
    (∃ c, (generateID env st).1[19]? = some c ∧ (c = '8' ∨ c = '9' ∨ c = 'a' ∨ c = 'b')) := by
  obtain ⟨b0, b1, b2, b3, b4, b5, b6, b7, b8, b9, b10, b11, b12, b13, b14, b15, rfl⟩ :=
    list_of_length_sixteen buf hlen
  rw [generateID_format env st b0 b1 b2 b3 b4 b5 b6 b7 b8 b9 b10 b11 b12 b13 b14 b15 hread
    hbytes]
  have hex : ∀ n : Nat, isLowerHex (Nat.digitChar (n % 16)) = true :=
    fun n => digitChar_isLowerHex (n % 16) (Nat.mod_lt _ (by decide))
  have hexd : ∀ n : Nat, n < 256 → isLowerHex (Nat.digitChar (n / 16)) = true :=
    fun n hn => digitChar_isLowerHex (n / 16) (by omega)
  simp only [List.mem_cons, List.mem_singleton, List.not_mem_nil, or_false, forall_eq_or_imp,
    forall_eq] at hbytes
  obtain ⟨h0, h1, h2, h3, h4, h5, h6, h7, h8, h9, h10, h11, h12, h13, h14, h15⟩ := hbytes
  have hv := version_byte b6 h6
  have hr := variant_byte b8 h8
  simp only [hexByte, List.cons_append, List.nil_append, List.singleton_append]
  refine ⟨by simp, ?_, ?_, ?_⟩
  · intro i c hic
    have hi : i < 36 := by
      by_contra hcon
      rw [List.getElem?_eq_none (by simpa using hcon)] at hic
      cases hic
    interval_cases i <;>
      simp only [List.getElem?_cons_succ, List.getElem?_cons_zero, Option.some.injEq] at hic <;>
      subst hic <;>
      simp [hex, hexd, h0, h1, h2, h3, h4, h5, h7, h9, h10, h11, h12, h13, h14, h15, hv.2, hr.2]
  · simp only [List.getElem?_cons_succ, List.getElem?_cons_zero, hv.1]
    decide
  · simp only [List.getElem?_cons_succ, List.getElem?_cons_zero, Option.some.injEq,
      exists_eq_left']
    rcases hr.1 with h | h | h | h <;> rw [h] <;> decide

/-- Witness for claim C10: the random source delivers sixteen bytes `0xff`. -/
theorem generateID_layout_witness :
    quietEnv.randRead State.init.randCalls = some (List.replicate 16 255) ∧
      (List.replicate 16 255).length = 16 ∧ (∀ b ∈ List.replicate 16 255, b < 256) ∧
      (generateID quietEnv State.init).1.length = 36 ∧
      (generateID quietEnv State.init).1[14]? = some '4' ∧
      (generateID quietEnv State.init).1 = "ffffffff-ffff-4fff-bfff-ffffffffffff".toList :=
  ⟨rfl, rfl, by decide,
    (generateID_layout quietEnv State.init (List.replicate 16 255) rfl rfl (by decide)).1,
    (generateID_layout quietEnv State.init (List.replicate 16 255) rfl rfl (by decide)).2.2.1,
    by decide⟩

theorem toLower_nil : toLower [] = [] := rfl

/-- Claim C11. For every message, `resolveRole` returns the first match of: the
lower-cased role field when it is, case-insensitively, one of assistant, tool,
system, user; `assistant` when the sender field is, case-insensitively, assistant,
bot or system, and `user` when it is user; `user` when isCreatedByUser is true;
`assistant` otherwise. A role field that matches none of the four names gives the
same result as an empty role field. In particular `role: system` gives system,
`sender: bot` gives assistant, `isCreatedByUser: true` gives user and the empty
message gives assistant. -/
theorem resolveRole_first_match :
    (∀ msg : agentMessage, resolveRole msg = resolveRoleAsWritten msg) ∧
    (∀ msg : agentMessage, roleRule msg = none →
      resolveRole msg = resolveRole { msg with role := [] }) ∧
    resolveRole { emptyMessage with role := "system".toList } = "system".toList ∧
    resolveRole { emptyMessage with sender := "bot".toList } = "assistant".toList ∧
    resolveRole { emptyMessage with isCreatedByUser := true } = "user".toList ∧
    resolveRole emptyMessage = "assistant".toList := by
  have hne : ∀ (s lit : GoString), lit ≠ [] → toLower s = lit → s ≠ [] := by
    intro s lit hl h hs
    rw [hs] at h
    exact hl h.symm
  have hmain : ∀ msg : agentMessage, resolveRole msg = resolveRoleAsWritten msg := by
    intro msg
    have r1 := hne msg.role "assistant".toList (by decide)
    have r2 := hne msg.role "tool".toList (by decide)
    have r3 := hne msg.role "system".toList (by decide)
    have r4 := hne msg.role "user".toList (by decide)
    have s1 := hne msg.sender "assistant".toList (by decide)
    have s2 := hne msg.sender "bot".toList (by decide)
    have s3 := hne msg.sender "system".toList (by decide)
    have s4 := hne msg.sender "user".toList (by decide)
    unfold resolveRole resolveRoleAsWritten roleRule senderRule createdByUserRule
      equalsIgnoringCase
    simp only [List.any_cons, List.any_nil, Bool.or_false, Bool.or_eq_true, beq_iff_eq]
    by_cases hr : toLower msg.role = "assistant".toList ∨ toLower msg.role = "tool".toList ∨
        toLower msg.role = "system".toList ∨ toLower msg.role = "user".toList
    · have hr' : msg.role ≠ [] := by
        rcases hr with h | h | h | h
        · exact r1 h
        · exact r2 h
        · exact r3 h
        · exact r4 h
      rw [if_pos ⟨hr', hr⟩, if_pos hr]
      rfl
    · rw [if_neg (fun h => hr h.2), if_neg hr]
      by_cases hs : toLower msg.sender = "assistant".toList ∨
          toLower msg.sender = "bot".toList ∨ toLower msg.sender = "system".toList
      · have hs' : msg.sender ≠ [] := by
          rcases hs with h | h | h
          · exact s1 h
          · exact s2 h
          · exact s3 h
        rw [if_pos ⟨hs', hs⟩, if_pos hs]
        rfl
      · rw [if_neg (fun h => hs h.2), if_neg hs]
        by_cases hu : toLower msg.sender = "user".toList
        · rw [if_pos ⟨s4 hu, hu⟩, if_pos hu]
          rfl
        · rw [if_neg (fun h => hu h.2), if_neg hu]
          cases hb : msg.isCreatedByUser <;> rfl
  refine ⟨hmain, ?_, by decide, by decide, by decide, by decide⟩
  intro msg hnone
  rw [hmain, hmain]
  unfold resolveRoleAsWritten
  have h2 : roleRule { msg with role := [] } = none := rfl
  rw [hnone, h2]
  rfl

theorem joinContent_eq_textParts : ∀ parts : List agentMessageContent,
    joinContent parts = textParts parts := by
  intro parts
  induction parts with
  | nil => rfl
  | cons p ps ih =>
      unfold joinContent
      have hcons : textParts (p :: ps) =
          (if p.type = "text".toList then (p.text.map (fun t => t.value)).getD [] else []) ++
            textParts ps := by
        unfold textParts
        generalize "text".toList = lit
        by_cases h : p.type = lit <;> simp [List.filter_cons, h]
      rw [hcons, ih]
      generalize "text".toList = lit
      cases hp : p.text with
      | none => by_cases h : p.type = lit <;> simp [h]
      | some t => by_cases h : p.type = lit <;> simp [h]

theorem resolveRole_mem (msg : agentMessage) :
    resolveRole msg ∈
      ["assistant".toList, "tool".toList, "system".toList, "user".toList] := by
  unfold resolveRole
  simp only
  split
  · next h =>
    rcases h.2 with e | e | e | e <;> rw [e] <;> decide
  · split
    · decide
    · split
      · decide
      · split <;> decide

theorem resolveRole_ne_nil (msg : agentMessage) : resolveRole msg ≠ [] := by
  intro h
  have := resolveRole_mem msg
  rw [h] at this
  revert this
  decide

theorem historyMessages_eq : ∀ history : List agentMessage,
    historyMessages history =
      (history.filter (fun m => effectiveText m ≠ [])).map
        (fun m => { role := resolveRole m, content := effectiveText m }) := by
  intro history
  induction history with
  | nil => rfl
  | cons m ms ih =>
      unfold historyMessages
      simp only [resolveRole_ne_nil m, if_false]
      have he : (if trimSpace m.text = [] then trimSpace (joinContent m.content)
          else trimSpace m.text) = effectiveText m := by
        unfold effectiveText
        rw [joinContent_eq_textParts]
        by_cases h : trimSpace m.text = [] <;> simp [h]
      rw [he, ih]
      by_cases h : effectiveText m = [] <;> simp [List.filter_cons, h]

/-- Claim C12. For every history and latest user text, `buildUpstreamMessages`
returns, in history order, one entry for each historical message whose effective
text (the trimmed text field if non-empty, else the trimmed concatenation of its
text-type content parts) is non-empty, with role `resolveRole` of the message and
that text as content, followed by one final entry with role `user` and the latest
user text as content; the result is never empty and has at most `len(history) + 1`
entries. -/
theorem buildUpstreamMessages_spec (history : List agentMessage) (latestUser : GoString) :
    buildUpstreamMessages history latestUser =
        upstreamMessagesAsWritten history latestUser ∧
      buildUpstreamMessages history latestUser ≠ [] ∧
      (buildUpstreamMessages history latestUser).length ≤ history.length + 1 := by
  have h : buildUpstreamMessages history latestUser =
      upstreamMessagesAsWritten history latestUser := by
    unfold buildUpstreamMessages upstreamMessagesAsWritten
    rw [historyMessages_eq]
  refine ⟨h, ?_, ?_⟩
  · rw [h]; simp [upstreamMessagesAsWritten]
  · rw [h]
    simp only [upstreamMessagesAsWritten, List.length_append, List.length_map,
      List.length_singleton, Nat.add_le_add_iff_right]
    exact List.length_filter_le _ _

/-- Claim C13. For every input string, `normalizeConversationID` returns the
whitespace-trimmed input unchanged, without drawing an id, when the trimmed value is
neither empty nor exactly `new` nor exactly `null`, and otherwise returns the result
of a `generateID` call; so the inputs "", "new", "null" and "  " yield a generated
id and "abc-123" yields "abc-123". -/
theorem normalizeConversationID_spec (env : Env) (st : State) :
    (∀ input : GoString,
      trimSpace input ≠ [] ∧ trimSpace input ≠ "new".toList ∧
          trimSpace input ≠ "null".toList →
        normalizeConversationID env st input = (trimSpace input, st)) ∧
    (∀ input : GoString,
      trimSpace input = [] ∨ trimSpace input = "new".toList ∨
          trimSpace input = "null".toList →
        normalizeConversationID env st input = generateID env st) ∧
    normalizeConversationID env st [] = generateID env st ∧
    normalizeConversationID env st "new".toList = generateID env st ∧
    normalizeConversationID env st "null".toList = generateID env st ∧
    normalizeConversationID env st "  ".toList = generateID env st ∧
    normalizeConversationID env st "abc-123".toList = ("abc-123".toList, st) := by
  have h1 : ∀ input : GoString,
      trimSpace input ≠ [] ∧ trimSpace input ≠ "new".toList ∧
          trimSpace input ≠ "null".toList →
        normalizeConversationID env st input = (trimSpace input, st) := by
    intro input h
    unfold normalizeConversationID
    simp only
    rw [if_neg]
    rintro (e | e | e)
    · exact h.1 e
    · exact h.2.1 e
    · exact h.2.2 e
  have h2 : ∀ input : GoString,
      trimSpace input = [] ∨ trimSpace input = "new".toList ∨
          trimSpace input = "null".toList →
        normalizeConversationID env st input = generateID env st := by
    intro input h
    unfold normalizeConversationID
    simp only
    rw [if_pos h]
  refine ⟨h1, h2, h2 _ (by decide), h2 _ (by decide), h2 _ (by decide), h2 _ (by decide), ?_⟩
  exact h1 "abc-123".toList (by decide)

theorem allow_stored (rl : rateLimiter) (key : GoString) (now : Int) :
    ((rl.allow key now).1 = false ↔
        rl.limit ≤ ((pruneAfter (rl.stored key) now rl.window).length : Int)) ∧
      ((rl.allow key now).1 = false →
        (rl.allow key now).2.stored key = pruneAfter (rl.stored key) now rl.window) ∧
      ((rl.allow key now).1 = true →
        (rl.allow key now).2.stored key =
          pruneAfter (rl.stored key) now rl.window ++ [now]) ∧
      (rl.allow key now).2.limit = rl.limit ∧ (rl.allow key now).2.window = rl.window := by
  unfold rateLimiter.allow
  simp only
  cases h : rl.requests key with
  | none =>
      simp only [rateLimiter.stored, h, Option.getD_none, pruneAfter, List.filter_nil,
        List.length_nil, List.nil_append]
      split <;> simp_all [setRequests, rateLimiter.stored]
  | some requests =>
      simp only [rateLimiter.stored, h, Option.getD_some, pruneAfter, setRequests, if_true]
      split <;> simp_all [setRequests, rateLimiter.stored]

theorem negDuration_eq (w : Int) (hlo : -2 ^ 63 < w) (hhi : w < 2 ^ 63) :
    negDuration w = -w := by
  unfold negDuration wrapInt64
  omega

theorem negDuration_minInt64 : negDuration (-2 ^ 63) = -2 ^ 63 := by
  decide

theorem pruneAfter_eq (ts : List Int) (now window : Int) :
    pruneAfter ts now window = ts.filter (fun t => now + negDuration window < t) := rfl

theorem pruneAfter_all (ts : List Int) (now window : Int) (hlo : -2 ^ 63 < window)
    (hhi : window < 2 ^ 63) (h : ∀ s ∈ ts, now - window < s) :
    pruneAfter ts now window = ts := by
  rw [pruneAfter_eq, negDuration_eq window hlo hhi, List.filter_eq_self]
  intro s hs
  have := h s hs
  simp only [decide_eq_true_eq]
  omega

theorem pruneAfter_none (ts : List Int) (now window : Int) (hlo : -2 ^ 63 < window)
    (hhi : window < 2 ^ 63) (h : ∀ s ∈ ts, s + window < now) :
    pruneAfter ts now window = [] := by
  rw [pruneAfter_eq, negDuration_eq window hlo hhi, List.filter_eq_nil_iff]
  intro s hs
  have := h s hs
  simp only [decide_eq_true_eq]
  omega

theorem allowSeq_within_window (n : Nat) (w : Int) (key : GoString)
    (hlo : -2 ^ 63 < w) (hhi : w < 2 ^ 63) :
    ∀ (ts : List Int) (rl : rateLimiter), rl.limit = n → rl.window = w →
      (∀ s ∈ rl.stored key, ∀ t ∈ ts, t - w < s) →
      ts.Pairwise (fun t t' => t' - w < t) →
      (allowSeq rl key ts).1 =
          List.replicate (min (n - (rl.stored key).length) ts.length) true ++
            List.replicate (ts.length - (n - (rl.stored key).length)) false ∧
        (allowSeq rl key ts).2.stored key =
          rl.stored key ++ ts.take (n - (rl.stored key).length) ∧
        (allowSeq rl key ts).2.limit = n ∧ (allowSeq rl key ts).2.window = w := by
  intro ts
  induction ts with
  | nil => intro rl hl hw _ _; simp [allowSeq, hl, hw]
  | cons t ts ih =>
      intro rl hl hw hS hP
      obtain ⟨hiff, hfalse, htrue, hlim, hwin⟩ := allow_stored rl key t
      have hprune : pruneAfter (rl.stored key) t rl.window = rl.stored key :=
        pruneAfter_all _ _ _ (by rw [hw]; exact hlo) (by rw [hw]; exact hhi)
          (fun s hs => by rw [hw]; exact hS s hs t (by simp))
      rw [hprune] at hiff hfalse htrue
      rw [List.pairwise_cons] at hP
      simp only [allowSeq]
      cases hr : (rl.allow key t).1 with
      | false =>
          have hfull : (n : Int) ≤ ((rl.stored key).length : Int) := by
            rw [← hl]; exact hiff.mp hr
          have hfull' : n ≤ (rl.stored key).length := by exact_mod_cast hfull
          have hst := hfalse hr
          obtain ⟨i1, i2, i3, i4⟩ := ih (rl.allow key t).2 (by rw [hlim, hl]) (by rw [hwin, hw])
            (by rw [hst]; intro s hs t' ht'; exact hS s hs t' (by simp [ht'])) hP.2
          rw [hst] at i1 i2
          have hz : n - (rl.stored key).length = 0 := by omega
          refine ⟨?_, ?_, i3, i4⟩
          · rw [i1, hz]; simp [List.replicate_succ]
          · rw [i2, hz]; simp
      | true =>
          have hroom : ¬ (n : Int) ≤ ((rl.stored key).length : Int) := by
            rw [← hl]
            intro hcon
            have := hiff.mpr hcon
            rw [hr] at this
            cases this
          have hroom' : (rl.stored key).length < n := by
            have : ((rl.stored key).length : Int) < n := by omega
            exact_mod_cast this
          have hst := htrue hr
          obtain ⟨i1, i2, i3, i4⟩ := ih (rl.allow key t).2 (by rw [hlim, hl]) (by rw [hwin, hw])
            (by
              rw [hst]
              intro s hs t' ht'
              rcases List.mem_append.mp hs with h | h
              · exact hS s h t' (by simp [ht'])
              · simp only [List.mem_singleton] at h
                rw [h]; exact hP.1 t' ht') hP.2
          rw [hst] at i1 i2
          have hlen : (rl.stored key ++ [t]).length = (rl.stored key).length + 1 := by simp
          rw [hlen] at i1 i2
          obtain ⟨m, hm⟩ : ∃ m, n - (rl.stored key).length = m + 1 :=
            ⟨n - (rl.stored key).length - 1, by omega⟩
          have hm' : n - ((rl.stored key).length + 1) = m := by omega
          refine ⟨?_, ?_, i3, i4⟩
          · rw [i1, hm, hm']
            simp only [List.length_cons, Nat.add_min_add_right, List.replicate_succ,
              List.cons_append, Nat.add_sub_add_right]
          · rw [i2, hm, hm']; simp

/-- Claim C16. For a fresh limiter with limit `n ≥ 1` and window `w`, a
`time.Duration` other than `math.MinInt64`, and any sequence of `allow` calls for one
key at non-decreasing times that all fall less than `w` after the first call, exactly
the first `n` calls return true and every later call returns false; and a later call
for that key made more than `w` after the last accepted call returns true again. -/
theorem allowSeq_fresh_limiter (n : Nat) (w : Int) (key : GoString) (t0 : Int)
    (rest : List Int) (hn : 1 ≤ n) (hlo : -2 ^ 63 < w) (hhi : w < 2 ^ 63)
    (hsorted : (t0 :: rest).Pairwise (fun a b => a ≤ b))
    (hwithin : ∀ t ∈ rest, t < t0 + w) :
    (allowSeq (newRateLimiter n w) key (t0 :: rest)).1 =
        List.replicate (min n (rest.length + 1)) true ++
          List.replicate (rest.length + 1 - n) false ∧
      ∀ T : Int, (∀ t ∈ (t0 :: rest).take n, t + w < T) →
        ((allowSeq (newRateLimiter n w) key (t0 :: rest)).2.allow key T).1 = true := by
  rw [List.pairwise_cons] at hsorted
  have hP : (t0 :: rest).Pairwise (fun t t' => t' - w < t) := by
    rw [List.pairwise_cons]
    refine ⟨fun t' ht' => by have := hwithin t' ht'; omega, ?_⟩
    refine List.Pairwise.imp_of_mem ?_ hsorted.2
    intro a b ha hb _
    have h1 := hsorted.1 a ha
    have h2 := hwithin b hb
    omega
  have hfresh : (newRateLimiter n w).stored key = [] := rfl
  obtain ⟨i1, i2, i3, i4⟩ := allowSeq_within_window n w key hlo hhi (t0 :: rest)
    (newRateLimiter n w) rfl rfl (by rw [hfresh]; intro s hs; cases hs) hP
  rw [hfresh] at i1 i2
  simp only [List.length_nil, Nat.sub_zero, List.length_cons, List.nil_append] at i1 i2
  refine ⟨i1, ?_⟩
  intro T hT
  obtain ⟨hiff, -, -, -, -⟩ :=
    allow_stored (allowSeq (newRateLimiter n w) key (t0 :: rest)).2 key T
  rw [i2, i3, i4, pruneAfter_none _ _ _ hlo hhi hT] at hiff
  cases hr : ((allowSeq (newRateLimiter n w) key (t0 :: rest)).2.allow key T).1 with
  | true => rfl
  | false =>
      have := hiff.mp hr
      simp only [List.length_nil, Nat.cast_zero] at this
      omega

/-- Witness for claim C16: limit 3, window one second, four calls within the window
and a fifth call after it. -/
theorem allowSeq_fresh_limiter_witness :
    (1 ≤ 3) ∧ (-2 ^ 63 < (1000000000 : Int)) ∧ ((1000000000 : Int) < 2 ^ 63) ∧
      ([0, 10, 20, 30] : List Int).Pairwise (fun a b => a ≤ b) ∧
      (∀ t ∈ ([10, 20, 30] : List Int), t < 0 + 1000000000) ∧
      (allowSeq (newRateLimiter 3 1000000000) "10.0.0.1".toList [0, 10, 20, 30]).1 =
        [true, true, true, false] ∧
      ((allowSeq (newRateLimiter 3 1000000000) "10.0.0.1".toList
        [0, 10, 20, 30]).2.allow "10.0.0.1".toList 1000000021).1 = true :=
  ⟨by decide, by decide, by decide, by decide, by decide,
    (allowSeq_fresh_limiter 3 1000000000 "10.0.0.1".toList 0 [10, 20, 30] (by decide)
      (by decide) (by decide) (by decide) (by decide)).1,
    (allowSeq_fresh_limiter 3 1000000000 "10.0.0.1".toList 0 [10, 20, 30] (by decide)
      (by decide) (by decide) (by decide) (by decide)).2 1000000021 (by decide)⟩

/-- Claim C15, as amended. For every limiter state, key and current time,
`rateLimiter.allow` first prunes from the key's timestamps exactly those that are
not after `now.Add(-window)` (keeping every other one, in order); it then returns
false iff the number of remaining timestamps is at least the limit, in which case the
key's stored timestamps are exactly the pruned list; otherwise it returns true and
the stored timestamps are the pruned list followed by `now`. For every window other
than `math.MinInt64` the instant `now.Add(-window)` is `now - window`; the negation of
`math.MinInt64` wraps to `math.MinInt64` itself. -/
theorem allow_prunes_then_checks (rl : rateLimiter) (key : GoString) (now : Int) :
    ((rl.allow key now).1 = false ↔
        rl.limit ≤
          (((rl.stored key).filter
            (fun t => now + negDuration rl.window < t)).length : Int)) ∧
      ((rl.allow key now).1 = false →
        (rl.allow key now).2.stored key =
          (rl.stored key).filter (fun t => now + negDuration rl.window < t)) ∧
      ((rl.allow key now).1 = true →
        (rl.allow key now).2.stored key =
          (rl.stored key).filter (fun t => now + negDuration rl.window < t) ++ [now]) ∧
      (-2 ^ 63 < rl.window → rl.window < 2 ^ 63 →
        now + negDuration rl.window = now - rl.window) ∧
      negDuration (-2 ^ 63) = -2 ^ 63 := by
  obtain ⟨h1, h2, h3, -, -⟩ := allow_stored rl key now
  refine ⟨h1, h2, h3, ?_, negDuration_minInt64⟩
  intro hlo hhi
  rw [negDuration_eq rl.window hlo hhi]
  omega

/-- Concrete run of `allow` with the window `math.MinInt64`, limit 1: the negated
window is `math.MinInt64` again, the window starts `2^63` nanoseconds before the call,
the timestamp 0 is kept at time 10 and the second call is rejected. -/
theorem allow_minInt64_window :
    (allowSeq (newRateLimiter 1 (-2 ^ 63)) "10.0.0.1".toList [0, 10]).1 = [true, false] ∧
      (allowSeq (newRateLimiter 1 (-2 ^ 63)) "10.0.0.1".toList [0, 10]).2.stored
        "10.0.0.1".toList = [0] := by
  decide

/-- Counterexample to claim C15 as written: limit 1, window 10, one call accepted at
time 0 and a second call at time 10. The stored timestamp 0 is not older than
`now - window = 0`, so as written it is kept and the call is rejected; the code
prunes it and accepts the call. -/
theorem allow_prunes_then_checks_as_written_fails :
    (((newRateLimiter 1 10).allow "10.0.0.1".toList 0).2.allow "10.0.0.1".toList 10).1 = true ∧
      ((newRateLimiter 1 10).allow "10.0.0.1".toList 0).2.limit ≤
        ((pruneAsWritten
          (((newRateLimiter 1 10).allow "10.0.0.1".toList 0).2.stored "10.0.0.1".toList)
          10 ((newRateLimiter 1 10).allow "10.0.0.1".toList 0).2.window).length : Int) ∧
      (((newRateLimiter 1 10).allow "10.0.0.1".toList 0).2.allow "10.0.0.1".toList
          10).2.stored "10.0.0.1".toList ≠
        pruneAsWritten
          (((newRateLimiter 1 10).allow "10.0.0.1".toList 0).2.stored "10.0.0.1".toList)
          10 ((newRateLimiter 1 10).allow "10.0.0.1".toList 0).2.window := by
  decide

theorem allow_other_key (rl : rateLimiter) (k1 k2 : GoString) (now : Int) (h : k1 ≠ k2) :
    (rl.allow k1 now).2.requests k2 = rl.requests k2 := by
  have h' : ¬ k2 = k1 := fun e => h e.symm
  unfold rateLimiter.allow
  simp only
  cases hr : rl.requests k1 with
  | none => split <;> simp [setRequests, h']
  | some requests => split <;> simp [setRequests, h']

theorem allow_agree (key : GoString) (a b : rateLimiter) (now : Int) (h : agreeOn key a b) :
    (a.allow key now).1 = (b.allow key now).1 ∧
      agreeOn key (a.allow key now).2 (b.allow key now).2 := by
  obtain ⟨hl, hw, hs⟩ := h
  obtain ⟨a1, a2, a3, a4, a5⟩ := allow_stored a key now
  obtain ⟨b1, b2, b3, b4, b5⟩ := allow_stored b key now
  simp only [hl, hw, hs] at a1 a2 a3
  have hres : (a.allow key now).1 = (b.allow key now).1 := by
    cases ha : (a.allow key now).1 with
    | false => exact (b1.mpr (a1.mp ha)).symm
    | true =>
        cases hb : (b.allow key now).1 with
        | true => rfl
        | false =>
            have := a1.mpr (b1.mp hb)
            rw [ha] at this
            cases this
  refine ⟨hres, by rw [a4, b4, hl], by rw [a5, b5, hw], ?_⟩
  cases hb : (b.allow key now).1 with
  | false => rw [a2 (hres.trans hb), b2 hb]
  | true => rw [a3 (hres.trans hb), b3 hb]

theorem allow_other_agree (key other : GoString) (rl : rateLimiter) (now : Int)
    (h : other ≠ key) : agreeOn key (rl.allow other now).2 rl := by
  obtain ⟨-, -, -, a4, a5⟩ := allow_stored rl other now
  refine ⟨a4, a5, ?_⟩
  unfold rateLimiter.stored
  rw [allow_other_key rl other key now h]

theorem allowCalls_agree (key : GoString) :
    ∀ (calls : List (GoString × Int)) (a b : rateLimiter), agreeOn key a b →
      (allowCalls a calls).1.filter (fun r => r.1 = key) =
        (allowCalls b (calls.filter (fun c => c.1 = key))).1 := by
  intro calls
  induction calls with
  | nil => intro a b _; rfl
  | cons c cs ih =>
      intro a b h
      by_cases hc : c.1 = key
      · obtain ⟨h1, h2⟩ := allow_agree key a b c.2 h
        have := ih (a.allow key c.2).2 (b.allow key c.2).2 h2
        simp [allowCalls, List.filter_cons, hc, h1, this]
      · have h2 : agreeOn key (a.allow c.1 c.2).2 b := by
          obtain ⟨x1, x2, x3⟩ := allow_other_agree key c.1 a c.2 hc
          exact ⟨x1.trans h.1, x2.trans h.2.1, x3.trans h.2.2⟩
        have := ih (a.allow c.1 c.2).2 b h2
        simp [allowCalls, List.filter_cons, hc, this]

/-- Claim C17. For every limiter state and every two distinct keys `k1` and `k2`, a
call `allow(k1)` leaves the stored timestamps of `k2` unchanged; the result of
`allow(k2)` and the timestamps it stores for `k2` are the same in any two limiter
states with the same limit, window and stored timestamps for `k2`; and in every
sequence of calls the outcomes of the calls for `k2` are those of the same calls for
`k2` made alone, whatever calls for other keys are interleaved. -/
theorem allow_keys_independent :
    (∀ (rl : rateLimiter) (k1 k2 : GoString) (now : Int), k1 ≠ k2 →
      (rl.allow k1 now).2.stored k2 = rl.stored k2) ∧
    (∀ (a b : rateLimiter) (k2 : GoString) (now : Int),
      a.limit = b.limit → a.window = b.window → a.stored k2 = b.stored k2 →
      (a.allow k2 now).1 = (b.allow k2 now).1 ∧
        (a.allow k2 now).2.stored k2 = (b.allow k2 now).2.stored k2) ∧
    (∀ (rl : rateLimiter) (k2 : GoString) (calls : List (GoString × Int)),
      (allowCalls rl calls).1.filter (fun r => r.1 = k2) =
        (allowCalls rl (calls.filter (fun c => c.1 = k2))).1) := by
  refine ⟨?_, ?_, ?_⟩
  · intro rl k1 k2 now h
    unfold rateLimiter.stored
    rw [allow_other_key rl k1 k2 now h]
  · intro a b k2 now hl hw hs
    obtain ⟨h1, h2⟩ := allow_agree k2 a b now ⟨hl, hw, hs⟩
    exact ⟨h1, h2.2.2⟩
  · intro rl k2 calls
    exact allowCalls_agree k2 calls rl rl ⟨rfl, rfl, rfl⟩

theorem Verify_claims_iff (v : Option Validator) (net : AuthEnv) (token : GoString) :
    ((Verify v net token).claims.isSome = true ↔ (Verify v net token).err = none) := by
  unfold Verify
  cases v with
  | none => simp
  | some vv =>
      simp only
      split
      · simp
      · split
        · simp
        · split
          · simp
          · split
            · simp
            · split
              · simp
              · split <;> simp

/-- Claim C18, as amended. `Validator.Verify` returns, in this order of precedence:
a not-configured error when the validator is nil; an empty-token error when the
trimmed token is empty, without any network call; a build error when the profile
request cannot be built, without any network call; a call error when the call to
the auth service fails; a rejected error when the profile response status is not
200; a decode error when decoding the body fails; an invalid-identity error when
`data.id` is empty; and otherwise claims whose subject, username and email are
`data.id`, `data.username` and `data.email` of the body, after exactly one call
carrying `Authorization: Bearer <trimmed token>`. It returns claims if and only if
it returns no error. -/
theorem Verify_precedence (net : AuthEnv) (token : GoString) :
    Verify none net token =
        ⟨none, some (.other "validator not configured".toList), []⟩ ∧
    (∀ v : Validator, trimSpace token = [] →
      Verify (some v) net token = ⟨none, some (.other "empty token".toList), []⟩) ∧
    (∀ (v : Validator) (e : GoError), trimSpace token ≠ [] →
      net.newRequest v.profileURL = some e →
      Verify (some v) net token =
        ⟨none, some (.wrapped "build profile request: ".toList e), []⟩) ∧
    (∀ (v : Validator) (e : GoError), trimSpace token ≠ [] →
      net.newRequest v.profileURL = none →
      net.doRequest ⟨v.profileURL, "Bearer ".toList ++ trimSpace token⟩ = .error e →
      Verify (some v) net token =
        ⟨none, some (.wrapped "call auth service: ".toList e),
          [⟨v.profileURL, "Bearer ".toList ++ trimSpace token⟩]⟩) ∧
    (∀ (v : Validator) (resp : ProfileResponse), trimSpace token ≠ [] →
      net.newRequest v.profileURL = none →
      net.doRequest ⟨v.profileURL, "Bearer ".toList ++ trimSpace token⟩ = .ok resp →
      (resp.statusCode ≠ 200 →
        Verify (some v) net token =
          ⟨none, some (.other ("auth service rejected token: ".toList ++ resp.status)),
            [⟨v.profileURL, "Bearer ".toList ++ trimSpace token⟩]⟩) ∧
      (∀ e, resp.statusCode = 200 → resp.decoded = .error e →
        Verify (some v) net token =
          ⟨none, some (.wrapped "decode auth response: ".toList e),
            [⟨v.profileURL, "Bearer ".toList ++ trimSpace token⟩]⟩) ∧
      (∀ d, resp.statusCode = 200 → resp.decoded = .ok d → d.id = [] →
        Verify (some v) net token =
          ⟨none, some (.other "auth service returned empty user id".toList),
            [⟨v.profileURL, "Bearer ".toList ++ trimSpace token⟩]⟩) ∧
      (∀ d, resp.statusCode = 200 → resp.decoded = .ok d → d.id ≠ [] →
        Verify (some v) net token =
          ⟨some ⟨d.id, d.username, d.email⟩, none,
            [⟨v.profileURL, "Bearer ".toList ++ trimSpace token⟩]⟩)) ∧
    (∀ v : Option Validator,
      ((Verify v net token).claims.isSome = true ↔ (Verify v net token).err = none)) := by
  refine ⟨rfl, ?_, ?_, ?_, ?_, fun v => Verify_claims_iff v net token⟩
  · intro v h
    simp only [Verify, h, ↓reduceIte, ne_eq, not_true_eq_false, not_false_eq_true]
  · intro v e h hn
    simp only [Verify, h, hn, ↓reduceIte, ne_eq, not_true_eq_false, not_false_eq_true]
  · intro v e h hn hd
    simp only [Verify, h, hn, hd, ↓reduceIte, ne_eq, not_true_eq_false, not_false_eq_true]
  · intro v resp h hn hd
    refine ⟨?_, ?_, ?_, ?_⟩
    · intro hs
      simp only [Verify, h, hn, hd, hs, ↓reduceIte, ne_eq, not_true_eq_false, not_false_eq_true]
    · intro e hs he
      simp only [Verify, h, hn, hd, hs, he, ↓reduceIte, ne_eq, not_true_eq_false, not_false_eq_true]
    · intro d hs he hid
      simp only [Verify, h, hn, hd, hs, he, hid, ↓reduceIte, ne_eq, not_true_eq_false, not_false_eq_true]
    · intro d hs he hid
      simp only [Verify, h, hn, hd, hs, he, hid, ↓reduceIte, ne_eq, not_true_eq_false, not_false_eq_true]

/-- Counterexample to claim C18 as written: with a validator, the token `tok` and a
network on which the call fails, none of the five listed failure conditions holds,
yet `Verify` returns no claims but a `call auth service` error. -/
theorem Verify_five_conditions_fail :
    ¬ verifyFailureAsWritten (some sampleValidator) unreachableNet "tok".toList ∧
      (Verify (some sampleValidator) unreachableNet "tok".toList).claims = none ∧
      (Verify (some sampleValidator) unreachableNet "tok".toList).err =
        some (.wrapped "call auth service: ".toList (.other "connection refused".toList)) := by
  refine ⟨?_, rfl, rfl⟩
  rintro (h | h | ⟨vv, resp, _, hdo, _⟩)
  · cases h
  · revert h; decide
  · cases hdo

theorem requireAuth_eq (v : Option Validator) (net : AuthEnv) (env : Env) (st : State)
    (authHeader : GoString) :
    requireAuth v net env st authHeader =
      if (fields authHeader).length = 2 ∧
          equalFold ((fields authHeader).getD 0 []) "Bearer".toList = true ∧
          (Verify v net ((fields authHeader).getD 1 [])).err = none then
        AuthOutcome.next (Verify v net ((fields authHeader).getD 1 [])).claims st
      else AuthOutcome.unauthorized (httpError env st "unauthorized".toList 401) := by
  unfold requireAuth
  simp only
  generalize fields authHeader = parts
  generalize hb : equalFold (parts.getD 0 []) "Bearer".toList = b
  generalize Verify v net (parts.getD 1 []) = r
  by_cases h1 : parts.length = 2
  · cases b with
    | false =>
        rw [if_pos (Or.inr (by decide)), if_neg]
        rintro ⟨_, h, _⟩
        cases h
    | true =>
        rw [if_neg (by
          rintro (h | h)
          · exact h h1
          · revert h; decide)]
        cases h3 : r.err with
        | none => rw [if_pos ⟨h1, rfl, rfl⟩]
        | some e =>
            rw [if_neg]
            rintro ⟨_, _, h⟩
            cases h
  · rw [if_pos (Or.inl h1), if_neg (fun h => h1 h.1)]

/-- Claim C19. For every request passing through `requireAuth`, the next handler is
invoked if and only if the Authorization header consists of exactly two
whitespace-separated fields, the first equal to `Bearer` case-insensitively, and
`Verify` returns no error on the second; then the response is left untouched. In
every other case the outcome is `http.Error(w, "unauthorized", 401)` and the next
handler is not invoked; on a response whose header is not yet written the status is
401. In particular a missing header, a wrong scheme and extra fields are rejected. -/
theorem requireAuth_gate (v : Option Validator) (net : AuthEnv) (env : Env) (st : State) :
    (∀ authHeader : GoString,
      ((requireAuth v net env st authHeader).nextInvoked = true ↔
        (fields authHeader).length = 2 ∧
          equalFold ((fields authHeader).getD 0 []) "Bearer".toList = true ∧
          (Verify v net ((fields authHeader).getD 1 [])).err = none)) ∧
    (∀ authHeader : GoString, (requireAuth v net env st authHeader).nextInvoked = true →
      (requireAuth v net env st authHeader).state = st) ∧
    (∀ authHeader : GoString, (requireAuth v net env st authHeader).nextInvoked = false →
      (requireAuth v net env st authHeader).state =
          httpError env st "unauthorized".toList 401 ∧
        (st.statusCode = none →
          (requireAuth v net env st authHeader).state.statusCode = some 401)) ∧
    (requireAuth v net env st []).nextInvoked = false ∧
    (requireAuth v net env st "Basic dXNlcjpwdw==".toList).nextInvoked = false ∧
    (requireAuth v net env st "Bearer abc def".toList).nextInvoked = false := by
  have hstatus : st.statusCode = none →
      (httpError env st "unauthorized".toList 401).statusCode = some 401 := by
    intro h
    unfold httpError
    simp only
    rw [write_statusCode]
    simp [writeHeader, setHeader, h]
  have hiff : ∀ authHeader : GoString,
      ((requireAuth v net env st authHeader).nextInvoked = true ↔
        (fields authHeader).length = 2 ∧
          equalFold ((fields authHeader).getD 0 []) "Bearer".toList = true ∧
          (Verify v net ((fields authHeader).getD 1 [])).err = none) := by
    intro authHeader
    rw [requireAuth_eq]
    split
    · next h => exact ⟨fun _ => h, fun _ => rfl⟩
    · next h => exact ⟨fun hc => (by cases hc), fun hc => absurd hc h⟩
  have hno : ∀ authHeader : GoString,
      ¬ ((fields authHeader).length = 2 ∧
          equalFold ((fields authHeader).getD 0 []) "Bearer".toList = true ∧
          (Verify v net ((fields authHeader).getD 1 [])).err = none) →
      (requireAuth v net env st authHeader).nextInvoked = false := by
    intro authHeader h
    cases hn : (requireAuth v net env st authHeader).nextInvoked with
    | false => rfl
    | true => exact absurd ((hiff authHeader).mp hn) h
  refine ⟨hiff, ?_, ?_, ?_, ?_, ?_⟩
  · intro authHeader
    rw [requireAuth_eq]
    split
    · intro _; rfl
    · intro h; cases h
  · intro authHeader
    rw [requireAuth_eq]
    split
    · intro h; cases h
    · intro _; exact ⟨rfl, hstatus⟩
  · exact hno _ (by rintro ⟨h, _⟩; revert h; decide)
  · exact hno _ (by rintro ⟨_, h, _⟩; revert h; decide)
  · exact hno _ (by rintro ⟨h, _⟩; revert h; decide)

/-- Concrete run for claim C19: `bearer tok` on a network that answers with the
identity of alice passes with her claims; the same header is rejected when the auth
service cannot be reached. -/
theorem requireAuth_runs :
    (requireAuth (some sampleValidator) aliceNet quietEnv State.init
        "bearer tok".toList).nextInvoked = true ∧
      (requireAuth (some sampleValidator) unreachableNet quietEnv State.init
        "bearer tok".toList).nextInvoked = false ∧
      (requireAuth (some sampleValidator) unreachableNet quietEnv State.init
        "bearer tok".toList).state.statusCode = some 401 := by
  decide

theorem linksWithin_deltaEvents (cid rid pid respId : GoString) :
    ∀ (cs : List GoString) (b : GoString), ∀ e ∈ deltaEvents cid rid respId b cs,
      linksWithin rid pid e := by
  intro cs
  induction cs with
  | nil => intro b e he; cases he
  | cons c cs ih =>
      intro b e he
      simp only [deltaEvents, List.mem_cons] at he
      rcases he with rfl | he
      · intro l hl
        simp only [Event.links, MessageMap.link, List.mem_cons, List.mem_singleton,
          List.not_mem_nil, or_false] at hl
        rcases hl with rfl | rfl <;> exact Or.inr rfl
      · exact ih _ e he

theorem sendErrorEvent_fst (env : Env) (st : State) (cid rid pid userText : GoString)
    (err : GoError) :
    ∃ e, (sendErrorEvent env st cid rid pid userText err).events.map Prod.fst =
        st.events.map Prod.fst ++ [e] ∧ linksWithin rid pid e := by
  unfold sendErrorEvent
  simp only
  rw [writeSSEEvent_events, generateID_events, List.map_append]
  refine ⟨_, rfl, ?_⟩
  intro l hl
  simp only [Event.links, MessageMap.link, List.mem_cons, List.mem_singleton,
    List.not_mem_nil, or_false] at hl
  rcases hl with rfl | rfl | rfl
  · exact Or.inr rfl
  · exact Or.inl rfl
  · exact Or.inr rfl

theorem streamAgentChat_fst (env : Env) (st : State) (payload : agentChatPayload)
    (body : Body) (cid rid pid userText : GoString) :
    ∃ es : List Event,
      (streamAgentChat env st payload body cid rid pid userText).events.map Prod.fst =
          st.events.map Prod.fst ++ es ∧
        ∀ e ∈ es, linksWithin rid pid e := by
  have hcreated : ∀ respId, linksWithin rid pid (Event.created true
      { messageId := respId, conversationId := some cid, parentMessageId := rid,
        sender := none, text := none, isCreatedByUser := none, error := none }) := by
    intro respId l hl
    simp only [Event.links, MessageMap.link, List.mem_singleton] at hl
    rw [hl]; exact Or.inr rfl
  unfold streamAgentChat
  simp only
  split
  · rw [writeSSEEvent_events, generateID_events, List.map_append]
    refine ⟨[_], rfl, ?_⟩
    intro e he
    simp only [List.mem_singleton] at he
    rw [he]; exact hcreated _
  · obtain ⟨cs, h1, -⟩ := pipeUpstreamStream_fst env
      (writeSSEEvent env (generateID env st).2
        (Event.created true
          { messageId := (generateID env st).1, conversationId := some cid,
            parentMessageId := rid, sender := none, text := none,
            isCreatedByUser := none, error := none })).2 body cid rid (generateID env st).1
    rw [writeSSEEvent_events, generateID_events, List.map_append] at h1
    simp only [List.map_cons, List.map_nil, List.append_assoc, List.cons_append,
      List.nil_append, List.singleton_append] at h1
    have hD := linksWithin_deltaEvents cid rid pid (generateID env st).1 cs []
    split
    · next err herr =>
      split
      · rw [h1]
        refine ⟨_ :: deltaEvents cid rid (generateID env st).1 [] cs, rfl, ?_⟩
        intro e he
        simp only [List.mem_cons] at he
        rcases he with rfl | he
        · exact hcreated _
        · exact hD e he
      · obtain ⟨ee, h2, h3⟩ := sendErrorEvent_fst env
          (pipeUpstreamStream env
            (writeSSEEvent env (generateID env st).2
              (Event.created true
                { messageId := (generateID env st).1, conversationId := some cid,
                  parentMessageId := rid, sender := none, text := none,
                  isCreatedByUser := none, error := none })).2 body cid rid
            (generateID env st).1).2.2 cid rid pid userText err
        rw [h2, h1]
        simp only [List.map_cons, List.map_nil, List.append_assoc, List.cons_append,
          List.nil_append, List.singleton_append]
        refine ⟨_ :: (deltaEvents cid rid (generateID env st).1 [] cs ++ [ee]), rfl, ?_⟩
        intro e he
        simp only [List.mem_cons, List.mem_append, List.mem_singleton, List.not_mem_nil,
          or_false] at he
        rcases he with rfl | he | rfl
        · exact hcreated _
        · exact hD e he
        · exact h3
    · rw [writeSSEEvent_events, List.map_append, h1]
      simp only [List.map_cons, List.map_nil, List.append_assoc, List.cons_append,
        List.nil_append, List.singleton_append]
      refine ⟨_ :: (deltaEvents cid rid (generateID env st).1 [] cs ++ [_]), rfl, ?_⟩
      intro e he
      simp only [List.mem_cons, List.mem_append, List.mem_singleton, List.not_mem_nil,
        or_false] at he
      rcases he with rfl | he | rfl
      · exact hcreated _
      · exact hD e he
      · intro l hl
        simp only [buildFinalEvent, Event.links, MessageMap.link, List.map_cons, List.map_nil,
          List.mem_cons, List.mem_singleton, List.not_mem_nil, or_false] at hl
        rcases hl with rfl | rfl | rfl | rfl
        · exact Or.inl rfl
        · exact Or.inr rfl
        · exact Or.inl rfl
        · exact Or.inr rfl

theorem acyclic_of_linksWithin (L : List (GoString × GoString)) (rid pid : GoString)
    (h1 : ∀ l ∈ L, l = (rid, pid) ∨ l.2 = rid) (hne : rid ≠ pid)
    (h2 : ∀ l ∈ L, l.2 = rid → l.1 ≠ rid ∧ l.1 ≠ pid) :
    ∀ x, ¬ isAncestor L x x := by
  let rank : GoString → Nat := fun x => if x = pid then 0 else if x = rid then 1 else 2
  have hstep : ∀ c p, (c, p) ∈ L → rank p < rank c := by
    intro c p hl
    rcases h1 _ hl with h | h
    · obtain ⟨rfl, rfl⟩ := Prod.mk.inj h
      simp [rank, hne]
    · simp only at h
      subst h
      obtain ⟨a, b⟩ := h2 _ hl rfl
      simp only at a b
      simp [rank, hne, a, b]
  have htrans : ∀ x y, isAncestor L x y → rank y < rank x := by
    intro x y h
    induction h with
    | single h => exact hstep _ _ h
    | tail _ h ih => exact lt_trans (hstep _ _ h) ih
  intro x hx
  exact lt_irrefl _ (htrans x x hx)

theorem handleAgentChat_linksWithin (cfg : Config) (env : Env) (req : Request) :
    ∃ rid pid : GoString,
      (∀ decoded, req.decoded = .ok decoded →
        pid = (if decoded.parentMessageId = [] then noParentMessageID
          else decoded.parentMessageId) ∧
        (trimSpace decoded.messageId ≠ [] → rid = trimSpace decoded.messageId)) ∧
      ∀ e ∈ (handleAgentChat cfg env req State.init).events.map Prod.fst,
        linksWithin rid pid e := by
  have hnone : ∀ (s : State) (msg : GoString) (code : Nat), s.events = State.init.events →
      ∀ (rid pid : GoString), ∀ e ∈ (httpError env s msg code).events.map Prod.fst,
        linksWithin rid pid e := by
    intro s msg code hs rid pid e he
    rw [httpError_events, hs] at he
    cases he
  unfold handleAgentChat
  cases hdec : req.decoded with
  | error err =>
      refine ⟨[], [], (fun d hd => by cases hd), ?_⟩
      split
      · exact hnone _ _ _ (by rfl) _ _
      · simp only
        split
        · exact hnone _ _ _ (by rfl) _ _
        · exact hnone _ _ _ (by rfl) _ _
  | ok decoded =>
      have hpm : (if decoded.endpoint = [] then
          { decoded with endpoint := req.urlEndpoint } else decoded).parentMessageId =
          decoded.parentMessageId := by split <;> rfl
      have hmid : (if decoded.endpoint = [] then
          { decoded with endpoint := req.urlEndpoint } else decoded).messageId =
          decoded.messageId := by split <;> rfl
      simp only
      generalize (if decoded.endpoint = [] then
        { decoded with endpoint := req.urlEndpoint } else decoded) = payload at hpm hmid ⊢
      generalize (if trimSpace payload.text = [] then extractLatestUserText payload.messages
        else trimSpace payload.text) = userText
      have hst1 : (ensureID env (normalizeConversationID env
          (setHeader (setHeader (setHeader State.init "Content-Type".toList
            "text/event-stream".toList) "Cache-Control".toList "no-cache".toList)
            "Connection".toList "keep-alive".toList)
          payload.conversationId).2 payload.messageId).2.events = State.init.events := by
        simp [ensureID_events, normalizeConversationID_events, setHeader_events]
      have hrid : trimSpace decoded.messageId ≠ [] →
          (ensureID env (normalizeConversationID env
            (setHeader (setHeader (setHeader State.init "Content-Type".toList
              "text/event-stream".toList) "Cache-Control".toList "no-cache".toList)
              "Connection".toList "keep-alive".toList)
            payload.conversationId).2 payload.messageId).1 = trimSpace decoded.messageId := by
        intro h
        rw [hmid]
        unfold ensureID
        simp only [h, if_false]
      generalize (ensureID env (normalizeConversationID env
          (setHeader (setHeader (setHeader State.init "Content-Type".toList
            "text/event-stream".toList) "Cache-Control".toList "no-cache".toList)
            "Connection".toList "keep-alive".toList)
          payload.conversationId).2 payload.messageId) = r at hst1 hrid ⊢
      refine ⟨r.1, (if payload.parentMessageId = [] then noParentMessageID
        else payload.parentMessageId), ?_, ?_⟩
      · intro d hd
        cases hd
        exact ⟨by rw [hpm], hrid⟩
      · generalize (if payload.parentMessageId = [] then noParentMessageID
          else payload.parentMessageId) = pid
        split
        · exact hnone _ _ _ (by rfl) _ _
        · split
          · exact hnone _ _ _ (by rfl) _ _
          · split
            · exact hnone _ _ _ hst1 _ _
            · split
              · exact hnone _ _ _ hst1 _ _
              · split
                · exact hnone _ _ _ hst1 _ _
                · split
                  · next err herr =>
                    obtain ⟨ee, h2, h3⟩ := sendErrorEvent_fst env
                      { r.2 with outbound := r.2.outbound ++ [_] }
                      (normalizeConversationID env
                        (setHeader (setHeader (setHeader State.init "Content-Type".toList
                          "text/event-stream".toList) "Cache-Control".toList
                          "no-cache".toList) "Connection".toList "keep-alive".toList)
                        payload.conversationId).1
                      r.1 pid userText (.wrapped "upstream unavailable: ".toList err)
                    intro e he
                    rw [h2] at he
                    simp only [hst1, State.init, List.map_nil, List.nil_append,
                      List.mem_singleton] at he
                    rw [he]; exact h3
                  · next resp hresp =>
                    split
                    · obtain ⟨ee, h2, h3⟩ := sendErrorEvent_fst env
                        { r.2 with outbound := r.2.outbound ++ [_] }
                        (normalizeConversationID env
                          (setHeader (setHeader (setHeader State.init "Content-Type".toList
                            "text/event-stream".toList) "Cache-Control".toList
                            "no-cache".toList) "Connection".toList "keep-alive".toList)
                          payload.conversationId).1
                        r.1 pid userText
                        (.other ("llm proxy error: ".toList ++ resp.status ++ " ".toList ++
                          trimSpace resp.body.content))
                      intro e he
                      rw [h2] at he
                      simp only [hst1, State.init, List.map_nil, List.nil_append,
                        List.mem_singleton] at he
                      rw [he]; exact h3
                    · obtain ⟨es, h2, h3⟩ := streamAgentChat_fst env
                        { r.2 with outbound := r.2.outbound ++ [_] } payload resp.body
                        (normalizeConversationID env
                          (setHeader (setHeader (setHeader State.init "Content-Type".toList
                            "text/event-stream".toList) "Cache-Control".toList
                            "no-cache".toList) "Connection".toList "keep-alive".toList)
                          payload.conversationId).1
                        r.1 pid userText
                      intro e he
                      rw [h2] at he
                      simp only [hst1, State.init, List.map_nil, List.nil_append] at he
                      exact h3 e he

/-- Claim C14, as amended. For every agent-chat request there are a request message
id and a parent id such that every parent link named in the request's events is
either the link from the request message to that parent or a link from a response
message to the request message; the parent id is the client-supplied
`parentMessageId`, or the all-zero id when none is supplied, and the request message
id is the trimmed client-supplied `messageId` when that is not empty. Hence no
message is its own ancestor whenever the request message id differs from its parent
id and no response message id equals either of them. -/
theorem handleAgentChat_parent_links (cfg : Config) (env : Env) (req : Request) :
    ∃ rid pid : GoString,
      (∀ decoded, req.decoded = .ok decoded →
        pid = (if decoded.parentMessageId = [] then noParentMessageID
          else decoded.parentMessageId) ∧
        (trimSpace decoded.messageId ≠ [] → rid = trimSpace decoded.messageId)) ∧
      (∀ l ∈ (handleAgentChat cfg env req State.init).links, l = (rid, pid) ∨ l.2 = rid) ∧
      (rid ≠ pid →
        (∀ l ∈ (handleAgentChat cfg env req State.init).links,
          l.2 = rid → l.1 ≠ rid ∧ l.1 ≠ pid) →
        ∀ x, ¬ isAncestor (handleAgentChat cfg env req State.init).links x x) := by
  obtain ⟨rid, pid, h1, h2⟩ := handleAgentChat_linksWithin cfg env req
  have h3 : ∀ l ∈ (handleAgentChat cfg env req State.init).links,
      l = (rid, pid) ∨ l.2 = rid := by
    intro l hl
    unfold State.links at hl
    rw [List.mem_flatMap] at hl
    obtain ⟨e, he, hle⟩ := hl
    exact h2 e he l hle
  exact ⟨rid, pid, h1, h3, fun hne hresp => acyclic_of_linksWithin _ rid pid h3 hne hresp⟩

/-- Counterexample to claim C14 as written: the client supplies `m1` both as
`messageId` and as `parentMessageId`; the Final event then names the request message
`m1` with parent `m1`, so this message is its own ancestor. -/
theorem handleAgentChat_parent_cycle :
    ("m1".toList, "m1".toList) ∈
        (handleAgentChat sampleConfig
          (quietEnvWith (upstreamAnswer 200 "200 OK" "data: Hello\ndata: [DONE]\n" .eof))
          selfParentRequest State.init).links ∧
      isAncestor
        (handleAgentChat sampleConfig
          (quietEnvWith (upstreamAnswer 200 "200 OK" "data: Hello\ndata: [DONE]\n" .eof))
          selfParentRequest State.init).links "m1".toList "m1".toList :=
  ⟨by decide, Relation.TransGen.single (by decide)⟩

/-- Claim C20, the code at the failing input. For the sample request the handler
sends one upstream request: a POST to `<base URL>/v1/chat/stream` whose messages are
those of `buildUpstreamMessages` and whose only header is
`Content-Type: application/json`; with the credential `secret` configured the header
`Authorization: Bearer secret` is added. No `Accept` header is set in either case. -/
theorem handleAgentChat_outbound_request :
    (handleAgentChat sampleConfig
        (quietEnvWith (upstreamAnswer 200 "200 OK" "data: Hello\ndata: [DONE]\n" .eof))
        sampleRequest State.init).outbound =
      [{ method := "POST".toList,
         url := "http://llm-proxy:8080/v1/chat/stream".toList,
         header := [("Content-Type".toList, "application/json".toList)],
         messages := buildUpstreamMessages samplePayload.messages "hi".toList }] ∧
    (handleAgentChat { sampleConfig with llmProxyToken := "secret".toList }
        (quietEnvWith (upstreamAnswer 200 "200 OK" "data: Hello\ndata: [DONE]\n" .eof))
        sampleRequest State.init).outbound.map (fun r => r.header) =
      [[("Content-Type".toList, "application/json".toList),
        ("Authorization".toList, "Bearer secret".toList)]] ∧
    (∀ r ∈ (handleAgentChat { sampleConfig with llmProxyToken := "secret".toList }
        (quietEnvWith (upstreamAnswer 200 "200 OK" "data: Hello\ndata: [DONE]\n" .eof))
        sampleRequest State.init).outbound,
      ∀ kv ∈ r.header, kv.1 ≠ "Accept".toList) := by
  decide

/-- Witness for claim C14: for the sample request (message id `m1`, no parent id)
answered with two lines, the request message id differs from the all-zero parent id
and the generated response id differs from both, so no message is its own
ancestor. -/
theorem handleAgentChat_parent_links_witness :
    ∀ x, ¬ isAncestor
      (handleAgentChat sampleConfig
        (quietEnvWith (upstreamAnswer 200 "200 OK" "data: Hello\ndata: [DONE]\n" .eof))
        sampleRequest State.init).links x x := by
  obtain ⟨rid, pid, h1, -, h3⟩ := handleAgentChat_parent_links sampleConfig
    (quietEnvWith (upstreamAnswer 200 "200 OK" "data: Hello\ndata: [DONE]\n" .eof))
    sampleRequest
  obtain ⟨hp, hr⟩ := h1 samplePayload rfl
  have hr' : rid = "m1".toList := (hr (by decide)).trans (by decide)
  have hp' : pid = noParentMessageID := hp.trans (by decide)
  subst hr' hp'
  exact h3 (by decide) (by decide)

/-- Concrete runs of `Verify`: on a network that answers 200 with the identity of
alice the claims are hers and one request carrying `Authorization: Bearer tok` is
sent; a blank token is refused without any request. -/
theorem Verify_runs :
    (Verify (some sampleValidator) aliceNet " tok ".toList).claims =
        some ⟨"u1".toList, "alice".toList, "alice@example.com".toList⟩ ∧
      (Verify (some sampleValidator) aliceNet " tok ".toList).err = none ∧
      (Verify (some sampleValidator) aliceNet " tok ".toList).calls =
        [⟨"http://auth:8080/profile".toList, "Bearer tok".toList⟩] ∧
      (Verify (some sampleValidator) aliceNet "  ".toList).calls = [] ∧
      (Verify (some sampleValidator) aliceNet "  ".toList).err =
        some (.other "empty token".toList) := by
  decide

theorem hexValue_digitChar : ∀ n < 16, hexValue (Nat.digitChar n) = n := by
  decide

theorem decode_hexByte (b : Nat) (hb : b < 256) (rest : GoString) :
    decodeHexPairs (hexByte b ++ rest) = b :: decodeHexPairs rest := by
  have h1 := hexValue_digitChar (b / 16) (by omega)
  have h2 := hexValue_digitChar (b % 16) (Nat.mod_lt _ (by decide))
  simp only [hexByte, List.cons_append, List.nil_append, decodeHexPairs, h1, h2]
  congr 1
  omega

set_option maxRecDepth 100000 in
theorem version_byte_value : ∀ b < 256, ((b &&& 0x0f) ||| 0x40) = 64 + b % 16 := by
  decide

set_option maxRecDepth 100000 in
theorem variant_byte_value : ∀ b < 256, ((b &&& 0x3f) ||| 0x80) = 128 + b % 64 := by
  decide

theorem generateID_decode (env : Env) (st : State) (buf : List Nat)
    (hread : env.randRead st.randCalls = some buf) (hlen : buf.length = 16)
    (hbytes : ∀ b ∈ buf, b < 256) :
    decodeID (generateID env st).1 = maskBuffer buf := by
  obtain ⟨b0, b1, b2, b3, b4, b5, b6, b7, b8, b9, b10, b11, b12, b13, b14, b15, rfl⟩ :=
    list_of_length_sixteen buf hlen
  rw [generateID_format env st b0 b1 b2 b3 b4 b5 b6 b7 b8 b9 b10 b11 b12 b13 b14 b15 hread
    hbytes]
  simp only [List.mem_cons, List.mem_singleton, List.not_mem_nil, or_false, forall_eq_or_imp,
    forall_eq] at hbytes
  obtain ⟨h0, h1, h2, h3, h4, h5, h6, h7, h8, h9, h10, h11, h12, h13, h14, h15⟩ := hbytes
  have hv := (version_byte b6 h6).2
  have hr := (variant_byte b8 h8).2
  have e : ∀ b, b < 256 →
      hexValue (Nat.digitChar (b / 16)) * 16 + hexValue (Nat.digitChar (b % 16)) = b := by
    intro b hb
    rw [hexValue_digitChar (b / 16) (by omega),
      hexValue_digitChar (b % 16) (Nat.mod_lt _ (by decide))]
    omega
  simp only [decodeID, hexByte, List.cons_append, List.nil_append, List.singleton_append,
    List.take_succ_cons, List.take_zero, List.drop_succ_cons, List.drop_zero, List.append_nil,
    decodeHexPairs, e _ h0, e _ h1, e _ h2, e _ h3, e _ h4, e _ h5, e _ hv, e _ h7, e _ hr,
    e _ h9, e _ h10, e _ h11, e _ h12, e _ h13, e _ h14, e _ h15,
    maskBuffer, List.set_cons_succ, List.set_cons_zero, List.getD_cons_succ,
    List.getD_cons_zero]

theorem generateID_of_mask (env1 env2 : Env) (st1 st2 : State) (buf1 buf2 : List Nat)
    (h1 : env1.randRead st1.randCalls = some buf1)
    (h2 : env2.randRead st2.randCalls = some buf2)
    (h : maskBuffer buf1 = maskBuffer buf2) :
    (generateID env1 st1).1 = (generateID env2 st2).1 := by
  unfold maskBuffer at h
  simp only [] at h
  unfold generateID
  rw [h1, h2]
  simp only []
  rw [h]

theorem mod_two_pow_eq_iff (x y k : Nat) :
    x % 2 ^ k = y % 2 ^ k ↔ ∀ j < k, x.testBit j = y.testBit j := by
  constructor
  · intro h j hj
    have e := congrArg (fun n => Nat.testBit n j) h
    simpa [Nat.testBit_mod_two_pow, hj] using e
  · intro h
    apply Nat.eq_of_testBit_eq
    intro j
    by_cases hj : j < k
    · simp [Nat.testBit_mod_two_pow, hj, h j hj]
    · simp [Nat.testBit_mod_two_pow, hj]

theorem byte_eq_iff (x y : Nat) (hx : x < 256) (hy : y < 256) :
    x = y ↔ ∀ j < 8, x.testBit j = y.testBit j := by
  rw [← mod_two_pow_eq_iff x y 8]
  have e1 : x % 2 ^ 8 = x := Nat.mod_eq_of_lt hx
  have e2 : y % 2 ^ 8 = y := Nat.mod_eq_of_lt hy
  rw [e1, e2]

theorem maskBuffer_eq_iff (a b : List Nat) (ha : a.length = 16) (hb : b.length = 16)
    (hab : ∀ x ∈ a, x < 256) (hbb : ∀ x ∈ b, x < 256) :
    maskBuffer a = maskBuffer b ↔ agreeOutsideFixedBits a b := by
  obtain ⟨a0, a1, a2, a3, a4, a5, a6, a7, a8, a9, a10, a11, a12, a13, a14, a15, rfl⟩ :=
    list_of_length_sixteen a ha
  obtain ⟨b0, b1, b2, b3, b4, b5, b6, b7, b8, b9, b10, b11, b12, b13, b14, b15, rfl⟩ :=
    list_of_length_sixteen b hb
  simp only [List.mem_cons, List.mem_singleton, List.not_mem_nil, or_false, forall_eq_or_imp,
    forall_eq] at hab hbb
  obtain ⟨p0, p1, p2, p3, p4, p5, p6, p7, p8, p9, p10, p11, p12, p13, p14, p15⟩ := hab
  obtain ⟨q0, q1, q2, q3, q4, q5, q6, q7, q8, q9, q10, q11, q12, q13, q14, q15⟩ := hbb
  simp only [maskBuffer, List.set_cons_succ, List.set_cons_zero, List.getD_cons_succ,
    List.getD_cons_zero, List.cons.injEq, and_true, version_byte_value a6 p6,
    version_byte_value b6 q6, variant_byte_value a8 p8, variant_byte_value b8 q8,
    Nat.add_left_cancel_iff]
  have e6 := mod_two_pow_eq_iff a6 b6 4
  have e8 := mod_two_pow_eq_iff a8 b8 6
  norm_num only at e6 e8
  rw [e6, e8, byte_eq_iff a0 b0 p0 q0, byte_eq_iff a1 b1 p1 q1, byte_eq_iff a2 b2 p2 q2,
    byte_eq_iff a3 b3 p3 q3, byte_eq_iff a4 b4 p4 q4, byte_eq_iff a5 b5 p5 q5,
    byte_eq_iff a7 b7 p7 q7, byte_eq_iff a9 b9 p9 q9, byte_eq_iff a10 b10 p10 q10,
    byte_eq_iff a11 b11 p11 q11, byte_eq_iff a12 b12 p12 q12, byte_eq_iff a13 b13 p13 q13,
    byte_eq_iff a14 b14 p14 q14, byte_eq_iff a15 b15 p15 q15]
  constructor
  · rintro ⟨g0, g1, g2, g3, g4, g5, g6, g7, g8, g9, g10, g11, g12, g13, g14, g15⟩ i hi j hj hk
    interval_cases i
    · exact g0 j hj
    · exact g1 j hj
    · exact g2 j hj
    · exact g3 j hj
    · exact g4 j hj
    · exact g5 j hj
    · refine g6 j ?_
      simp [keptBit] at hk
      omega
    · exact g7 j hj
    · refine g8 j ?_
      simp [keptBit] at hk
      omega
    · exact g9 j hj
    · exact g10 j hj
    · exact g11 j hj
    · exact g12 j hj
    · exact g13 j hj
    · exact g14 j hj
    · exact g15 j hj
  · intro g
    refine ⟨fun j hj => g 0 (by decide) j hj (by simp [keptBit]),
      fun j hj => g 1 (by decide) j hj (by simp [keptBit]),
      fun j hj => g 2 (by decide) j hj (by simp [keptBit]),
      fun j hj => g 3 (by decide) j hj (by simp [keptBit]),
      fun j hj => g 4 (by decide) j hj (by simp [keptBit]),
      fun j hj => g 5 (by decide) j hj (by simp [keptBit]),
      fun j hj => g 6 (by decide) j (by omega) (by simp [keptBit]; omega),
      fun j hj => g 7 (by decide) j hj (by simp [keptBit]),
      fun j hj => g 8 (by decide) j (by omega) (by simp [keptBit]; omega),
      fun j hj => g 9 (by decide) j hj (by simp [keptBit]),
      fun j hj => g 10 (by decide) j hj (by simp [keptBit]),
      fun j hj => g 11 (by decide) j hj (by simp [keptBit]),
      fun j hj => g 12 (by decide) j hj (by simp [keptBit]),
      fun j hj => g 13 (by decide) j hj (by simp [keptBit]),
      fun j hj => g 14 (by decide) j hj (by simp [keptBit]),
      fun j hj => g 15 (by decide) j hj (by simp [keptBit])⟩

theorem keptBits_length : keptBits.length = 122 := by
  rfl

/-- Claim C25. The formatting of `generateID` is injective on the 122 bits it keeps:
for any two buffers of sixteen bytes delivered by the random source, the identifiers
are equal if and only if the buffers agree on every bit other than the high nibble of
byte 6 and the top two bits of byte 8; and every byte of the masked buffer is read
back from the hexadecimal digits of the identifier by `decodeID`. -/
theorem generateID_injective (env1 env2 : Env) (st1 st2 : State) (buf1 buf2 : List Nat)
    (hread1 : env1.randRead st1.randCalls = some buf1)
    (hread2 : env2.randRead st2.randCalls = some buf2)
    (hlen1 : buf1.length = 16) (hlen2 : buf2.length = 16)
    (hbytes1 : ∀ b ∈ buf1, b < 256) (hbytes2 : ∀ b ∈ buf2, b < 256) :
    ((generateID env1 st1).1 = (generateID env2 st2).1 ↔ agreeOutsideFixedBits buf1 buf2) ∧
      decodeID (generateID env1 st1).1 = maskBuffer buf1 ∧
      decodeID (generateID env2 st2).1 = maskBuffer buf2 ∧
      keptBits.length = 122 := by
  have d1 := generateID_decode env1 st1 buf1 hread1 hlen1 hbytes1
  have d2 := generateID_decode env2 st2 buf2 hread2 hlen2 hbytes2
  refine ⟨⟨fun h => ?_, fun h => ?_⟩, d1, d2, keptBits_length⟩
  · rw [← maskBuffer_eq_iff buf1 buf2 hlen1 hlen2 hbytes1 hbytes2, ← d1, ← d2, h]
  · exact generateID_of_mask env1 env2 st1 st2 buf1 buf2 hread1 hread2
      ((maskBuffer_eq_iff buf1 buf2 hlen1 hlen2 hbytes1 hbytes2).2 h)

/-- Witness for claim C25: sixteen bytes `0xff` against the same buffer with the high
nibble of byte 6 and the top two bits of byte 8 cleared. The two identifiers are equal,
and the identifier decodes to the masked buffer. -/
theorem generateID_injective_witness :
    quietEnv.randRead State.init.randCalls = some (List.replicate 16 255) ∧
      lowBitsEnv.randRead State.init.randCalls =
        some [255, 255, 255, 255, 255, 255, 15, 255, 63, 255, 255, 255, 255, 255, 255, 255] ∧
      (generateID quietEnv State.init).1 = (generateID lowBitsEnv State.init).1 ∧
      agreeOutsideFixedBits (List.replicate 16 255)
        [255, 255, 255, 255, 255, 255, 15, 255, 63, 255, 255, 255, 255, 255, 255, 255] ∧
      decodeID (generateID quietEnv State.init).1 =
        [255, 255, 255, 255, 255, 255, 79, 255, 191, 255, 255, 255, 255, 255, 255, 255] :=
  ⟨rfl, rfl, by decide,
    (generateID_injective quietEnv lowBitsEnv State.init State.init (List.replicate 16 255)
      [255, 255, 255, 255, 255, 255, 15, 255, 63, 255, 255, 255, 255, 255, 255, 255]
      rfl rfl rfl rfl (by decide) (by decide)).1.1 (by decide),
    (generateID_injective quietEnv lowBitsEnv State.init State.init (List.replicate 16 255)
      [255, 255, 255, 255, 255, 255, 15, 255, 63, 255, 255, 255, 255, 255, 255, 255]
      rfl rfl rfl rfl (by decide) (by decide)).2.1⟩

theorem write_randCalls (env : Env) (st : State) (d : WriteData) :
    (write env st d).2.randCalls = st.randCalls := by
  unfold write writeHeader
  cases st.statusCode <;> rfl

theorem writeSSEEvent_randCalls (env : Env) (st : State) (e : Event) :
    (writeSSEEvent env st e).2.randCalls = st.randCalls := by
  unfold writeSSEEvent
  simp only
  split
  · simp [write_randCalls]
  · split
    · simp [write_randCalls]
    · split <;> simp [write_randCalls]

theorem generateID_randCalls (env : Env) (st : State) :
    (generateID env st).2.randCalls = st.randCalls + 1 := by
  unfold generateID
  split <;> rfl

theorem pipeLoop_randCalls (env : Env) (rerr : GoError) (cid rid respId : GoString) :
    ∀ (lines : List GoString) (b : GoString) (dl : Time) (st : State),
      (pipeLoop env rerr cid rid respId lines b dl st).state.randCalls = st.randCalls := by
  intro lines
  induction lines with
  | nil =>
      intro b dl st
      unfold pipeLoop
      split <;> rfl
  | cons raw rest ih =>
      intro b dl st
      unfold pipeLoop
      simp only
      split
      · exact ih b dl st
      · split
        · exact ih b dl st
        · split
          · exact ih b dl st
          · split
            · rfl
            · split
              · simp [LoopExit.state, writeSSEEvent_randCalls]
              · rw [ih]
                simp [timeNow, writeSSEEvent_randCalls]

theorem pipeUpstreamStream_randCalls (env : Env) (st : State) (body : Body)
    (cid rid respId : GoString) :
    (pipeUpstreamStream env st body cid rid respId).2.2.randCalls = st.randCalls := by
  have h := pipeLoop_randCalls env body.err cid rid respId
    (splitLines body.content).1 [] (timeNow env st).1 (timeNow env st).2
  unfold pipeUpstreamStream
  simp only
  revert h
  cases pipeLoop env body.err cid rid respId (splitLines body.content).1 []
      (timeNow env st).1 (timeNow env st).2 with
  | returned text err s =>
      intro h
      simpa [LoopExit.state, timeNow] using h
  | broke builder deadline s =>
      intro h
      simp only [LoopExit.state, timeNow] at h
      simp only
      split
      · split <;> simpa [timeSince, timeNow] using h
      · exact h

theorem responseID_deltaEvents (cid rid respId : GoString) :
    ∀ (cs : List GoString) (b : GoString), ∀ e ∈ deltaEvents cid rid respId b cs,
      e.messageID = some respId ∧ e.responseID = respId := by
  intro cs
  induction cs with
  | nil => intro b e he; cases he
  | cons c cs ih =>
      intro b e he
      simp only [deltaEvents, List.mem_cons] at he
      rcases he with rfl | he
      · exact ⟨rfl, rfl⟩
      · exact ih _ e he

theorem streamAgentChat_failed (env : Env) (st : State) (payload : agentChatPayload)
    (body : Body) (cid rid pid userText : GoString) (err : GoError)
    (hcreated : (writeSSEEvent env (generateID env st).2
      (createdEvent cid rid (generateID env st).1)).1 = none)
    (hfail : (pipeUpstreamStream env (writeSSEEvent env (generateID env st).2
      (createdEvent cid rid (generateID env st).1)).2 body cid rid
        (generateID env st).1).2.1 = some err)
    (hnc : err.isCanceled = false) :
    ∃ (stp : State) (cs : List GoString),
      stp.randCalls = st.randCalls + 1 ∧
      (streamAgentChat env st payload body cid rid pid userText).events.map Prod.fst =
        st.events.map Prod.fst ++
          (createdEvent cid rid (generateID env st).1 ::
            deltaEvents cid rid (generateID env st).1 [] cs ++
            [errorEvent cid rid pid userText err (generateID env stp).1]) := by
  unfold createdEvent at hcreated hfail
  obtain ⟨cs, h1, -⟩ := pipeUpstreamStream_fst env
    (writeSSEEvent env (generateID env st).2
      (Event.created true
        { messageId := (generateID env st).1, conversationId := some cid,
          parentMessageId := rid, sender := none, text := none,
          isCreatedByUser := none, error := none })).2 body cid rid (generateID env st).1
  rw [writeSSEEvent_events, generateID_events, List.map_append] at h1
  simp only [List.map_cons, List.map_nil, List.append_assoc, List.cons_append,
    List.nil_append, List.singleton_append] at h1
  refine ⟨(pipeUpstreamStream env (writeSSEEvent env (generateID env st).2
      (Event.created true
        { messageId := (generateID env st).1, conversationId := some cid,
          parentMessageId := rid, sender := none, text := none,
          isCreatedByUser := none, error := none })).2 body cid rid
        (generateID env st).1).2.2, cs, ?_, ?_⟩
  · rw [pipeUpstreamStream_randCalls, writeSSEEvent_randCalls, generateID_randCalls]
  · unfold streamAgentChat
    simp only
    rw [hcreated]
    simp only
    rw [hfail]
    simp only [hnc]
    unfold sendErrorEvent
    simp only
    rw [if_neg (by decide), writeSSEEvent_events, generateID_events, List.map_append, h1]
    simp only [List.map_cons, List.map_nil, List.append_assoc, List.cons_append,
      List.nil_append, List.singleton_append, createdEvent, errorEvent]

/-- Claim C24. When the Created event was sent and the stream then fails with an
error that is not a cancellation, the handler emits the Created event, the Delta
events and one Error event. The Created and Delta events carry the id of the first
`generateID` call of the handler; `messageId` and `responseMessage.messageId` of the
Error event are the result of a second `generateID` call, made by `sendErrorEvent` on
the next draw of the random source. When both draws deliver sixteen bytes, the two ids
are equal if and only if the two buffers agree on every bit that the masking keeps. -/
theorem streamAgentChat_error_id (env : Env) (st : State) (payload : agentChatPayload)
    (body : Body) (cid rid pid userText : GoString) (err : GoError)
    (hcreated : (writeSSEEvent env (generateID env st).2
      (createdEvent cid rid (generateID env st).1)).1 = none)
    (hfail : (pipeUpstreamStream env (writeSSEEvent env (generateID env st).2
      (createdEvent cid rid (generateID env st).1)).2 body cid rid
        (generateID env st).1).2.1 = some err)
    (hnc : err.isCanceled = false) :
    ∃ (stp : State) (cs : List GoString),
      stp.randCalls = st.randCalls + 1 ∧
      (streamAgentChat env st payload body cid rid pid userText).events.map Prod.fst =
        st.events.map Prod.fst ++
          (createdEvent cid rid (generateID env st).1 ::
            deltaEvents cid rid (generateID env st).1 [] cs ++
            [errorEvent cid rid pid userText err (generateID env stp).1]) ∧
      (createdEvent cid rid (generateID env st).1).responseID = (generateID env st).1 ∧
      (∀ e ∈ deltaEvents cid rid (generateID env st).1 [] cs,
        e.messageID = some (generateID env st).1 ∧ e.responseID = (generateID env st).1) ∧
      (errorEvent cid rid pid userText err (generateID env stp).1).messageID =
        some (generateID env stp).1 ∧
      (errorEvent cid rid pid userText err (generateID env stp).1).responseID =
        (generateID env stp).1 ∧
      ∀ buf1 buf2 : List Nat, env.randRead st.randCalls = some buf1 →
        env.randRead (st.randCalls + 1) = some buf2 →
        buf1.length = 16 → buf2.length = 16 →
        (∀ b ∈ buf1, b < 256) → (∀ b ∈ buf2, b < 256) →
        ((generateID env stp).1 = (generateID env st).1 ↔ agreeOutsideFixedBits buf2 buf1) := by
  obtain ⟨stp, cs, hr, hev⟩ :=
    streamAgentChat_failed env st payload body cid rid pid userText err hcreated hfail hnc
  refine ⟨stp, cs, hr, hev, rfl, responseID_deltaEvents cid rid _ cs [], rfl, rfl, ?_⟩
  intro buf1 buf2 h1 h2 l1 l2 b1 b2
  rw [← hr] at h2
  have d1 := generateID_decode env st buf1 h1 l1 b1
  have d2 := generateID_decode env stp buf2 h2 l2 b2
  constructor
  · intro h
    rw [← maskBuffer_eq_iff buf2 buf1 l2 l1 b2 b1, ← d1, ← d2, h]
  · intro h
    exact generateID_of_mask env env stp st buf2 buf1 h2 h1
      ((maskBuffer_eq_iff buf2 buf1 l2 l1 b2 b1).2 h)

/-- Witness for claim C24: the upstream body delivers `Hello` and then fails with a
read error; the random source delivers sixteen bytes `0xff` at the first call and
sixteen bytes `0x00` at the second. The Created and Delta events carry the first id,
the Error event the second one. -/
theorem streamAgentChat_error_id_witness :
    (writeSSEEvent twoDrawsEnv
        (generateID twoDrawsEnv State.init).2
        (createdEvent "c1".toList "m1".toList
          (generateID twoDrawsEnv
            State.init).1)).1 = none ∧
      (streamAgentChat twoDrawsEnv State.init
          samplePayload { content := "data: Hello\n".toList, err := .other "reset".toList }
          "c1".toList "m1".toList noParentMessageID "hi".toList).events.map
          (fun p => (p.1.messageID, p.1.responseID)) =
        [(none, "ffffffff-ffff-4fff-bfff-ffffffffffff".toList),
          (some "ffffffff-ffff-4fff-bfff-ffffffffffff".toList,
            "ffffffff-ffff-4fff-bfff-ffffffffffff".toList),
          (some "00000000-0000-4000-8000-000000000000".toList,
            "00000000-0000-4000-8000-000000000000".toList)] ∧
      ∃ (stp : State) (cs : List GoString), stp.randCalls = 1 ∧
        (streamAgentChat twoDrawsEnv State.init
          samplePayload { content := "data: Hello\n".toList, err := .other "reset".toList }
          "c1".toList "m1".toList noParentMessageID "hi".toList).events.map Prod.fst =
          createdEvent "c1".toList "m1".toList
              (generateID twoDrawsEnv
                State.init).1 ::
            deltaEvents "c1".toList "m1".toList
              (generateID twoDrawsEnv
                State.init).1 [] cs ++
            [errorEvent "c1".toList "m1".toList noParentMessageID "hi".toList
              (.wrapped "llm stream error: ".toList (.other "reset".toList))
              (generateID twoDrawsEnv stp).1] := by
  refine ⟨by decide, by decide, ?_⟩
  obtain ⟨stp, cs, h1, h2, -⟩ :=
    streamAgentChat_error_id twoDrawsEnv State.init
      samplePayload { content := "data: Hello\n".toList, err := .other "reset".toList }
      "c1".toList "m1".toList noParentMessageID "hi".toList
      (.wrapped "llm stream error: ".toList (.other "reset".toList))
      (by decide) (by decide) rfl
  exact ⟨stp, cs, h1, h2⟩

theorem effectiveText_eq (m : agentMessage) :
    effectiveText m =
      if trimSpace m.text ≠ [] then trimSpace m.text else trimSpace (joinContent m.content) := by
  unfold effectiveText
  rw [joinContent_eq_textParts]

theorem extractLatestUserTextRev_mem : ∀ ms : List agentMessage,
    extractLatestUserTextRev ms ≠ [] →
      ∃ m ∈ ms, resolveRole m = "user".toList ∧
        effectiveText m = extractLatestUserTextRev ms := by
  intro ms
  induction ms with
  | nil => intro h; exact absurd rfl h
  | cons m older ih =>
      intro h
      unfold extractLatestUserTextRev at h ⊢
      by_cases hr : resolveRole m = "user".toList
      · rw [if_pos hr] at h ⊢
        by_cases h1 : trimSpace m.text ≠ []
        · rw [if_pos h1]
          exact ⟨m, List.mem_cons_self _ _, hr, by rw [effectiveText_eq, if_pos h1]⟩
        · rw [if_neg h1] at h ⊢
          by_cases h2 : trimSpace (joinContent m.content) ≠ []
          · rw [if_pos h2]
            exact ⟨m, List.mem_cons_self _ _, hr, by rw [effectiveText_eq, if_neg h1]⟩
          · rw [if_neg h2] at h ⊢
            obtain ⟨m1, hm, hr1, he⟩ := ih h
            exact ⟨m1, List.mem_cons_of_mem _ hm, hr1, he⟩
      · rw [if_neg hr] at h ⊢
        obtain ⟨m1, hm, hr1, he⟩ := ih h
        exact ⟨m1, List.mem_cons_of_mem _ hm, hr1, he⟩

theorem extractLatestUserText_mem (messages : List agentMessage)
    (h : extractLatestUserText messages ≠ []) :
    ∃ m ∈ messages, resolveRole m = "user".toList ∧
      effectiveText m = extractLatestUserText messages := by
  obtain ⟨m, hm, hr, he⟩ := extractLatestUserTextRev_mem messages.reverse h
  exact ⟨m, List.mem_reverse.mp hm, hr, he⟩

/-- Claim C23. For every payload whose text field is blank and whose history yields
a latest user text `t = extractLatestUserText(messages)` that is not empty, the text
the handler passes on is `t`, some history message has role `user` and effective text
`t`, and `buildUpstreamMessages(messages, t)` holds the entry `{role: user,
content: t}` at least twice: among the entries of the history and as the last
entry. -/
theorem buildUpstreamMessages_repeats_latest (payload : agentChatPayload)
    (hblank : trimSpace payload.text = [])
    (ht : extractLatestUserText payload.messages ≠ []) :
    (if trimSpace payload.text = [] then extractLatestUserText payload.messages
      else trimSpace payload.text) = extractLatestUserText payload.messages ∧
    (∃ m ∈ payload.messages, resolveRole m = "user".toList ∧
      effectiveText m = extractLatestUserText payload.messages) ∧
    ({ role := "user".toList, content := extractLatestUserText payload.messages } :
      upstreamChatMessage) ∈ historyMessages payload.messages ∧
    (buildUpstreamMessages payload.messages
        (extractLatestUserText payload.messages)).getLast? =
      some { role := "user".toList, content := extractLatestUserText payload.messages } ∧
    2 ≤ (buildUpstreamMessages payload.messages
        (extractLatestUserText payload.messages)).count
      { role := "user".toList, content := extractLatestUserText payload.messages } := by
  obtain ⟨m, hm, hr, he⟩ := extractLatestUserText_mem payload.messages ht
  have hmem : ({ role := "user".toList, content := extractLatestUserText payload.messages } :
      upstreamChatMessage) ∈ historyMessages payload.messages := by
    rw [historyMessages_eq, List.mem_map]
    refine ⟨m, ?_, by rw [hr, he]⟩
    rw [List.mem_filter]
    exact ⟨hm, by rw [he]; simpa using ht⟩
  refine ⟨by rw [if_pos hblank], ⟨m, hm, hr, he⟩, hmem, ?_, ?_⟩
  · simp [buildUpstreamMessages]
  · unfold buildUpstreamMessages
    rw [List.count_append, List.count_singleton_self]
    have := List.count_pos_iff.mpr hmem
    omega

/-- Witness for claim C23: a payload with blank text whose history holds the user
message `hi`; the request the handler sends upstream carries `hi` twice. -/
theorem buildUpstreamMessages_repeats_latest_witness :
    trimSpace historyPayload.text = [] ∧
      extractLatestUserText historyPayload.messages = "hi".toList ∧
      2 ≤ (buildUpstreamMessages historyPayload.messages
          (extractLatestUserText historyPayload.messages)).count
        { role := "user".toList,
          content := extractLatestUserText historyPayload.messages } ∧
      (handleAgentChat sampleConfig
          (quietEnvWith (upstreamAnswer 200 "200 OK" "data: Hello\ndata: [DONE]\n" .eof))
          historyRequest State.init).outbound.map (fun r => r.messages) =
        [[{ role := "user".toList, content := "hi".toList },
          { role := "assistant".toList, content := "hello".toList },
          { role := "user".toList, content := "hi".toList }]] :=
  ⟨by decide, by decide,
    (buildUpstreamMessages_repeats_latest historyPayload (by decide) (by decide)).2.2.2.2,
    by decide⟩

theorem splitNewline_ne_nil : ∀ p : List Nat, splitNewline p ≠ [] := by
  intro p
  induction p with
  | nil => simp [splitNewline]
  | cons b rest ih =>
      unfold splitNewline
      split
      · simp
      · split <;> simp

theorem splitNewline_intercalate : ∀ p : List Nat,
    List.intercalate [10] (splitNewline p) = p := by
  intro p
  induction p with
  | nil => rfl
  | cons b rest ih =>
      unfold splitNewline
      have hne := splitNewline_ne_nil rest
      cases hs : splitNewline rest with
      | nil => exact absurd hs hne
      | cons seg segs =>
          rw [hs] at ih
          by_cases hb : b = 10
          · rw [if_pos hb, hb]
            simp only [List.intercalate, List.intersperse_cons_cons, List.flatten_cons,
              List.nil_append, List.singleton_append] at ih ⊢
            rw [ih]
          · rw [if_neg hb]
            simp only
            cases segs with
            | nil =>
                simp only [List.intercalate, List.intersperse_single, List.flatten_cons,
                  List.flatten_nil, List.append_nil] at ih ⊢
                rw [ih]
            | cons s2 ss =>
                simp only [List.intercalate, List.intersperse_cons_cons, List.flatten_cons,
                  List.cons_append] at ih ⊢
                rw [ih]

theorem splitNewline_no_newline : ∀ p : List Nat, ∀ seg ∈ splitNewline p, 10 ∉ seg := by
  intro p
  induction p with
  | nil =>
      intro seg hseg
      simp only [splitNewline, List.mem_singleton] at hseg
      rw [hseg]
      exact List.not_mem_nil _
  | cons b rest ih =>
      intro seg hseg
      unfold splitNewline at hseg
      by_cases hb : b = 10
      · rw [if_pos hb, List.mem_cons] at hseg
        rcases hseg with rfl | h
        · exact List.not_mem_nil _
        · exact ih seg h
      · rw [if_neg hb] at hseg
        cases hs : splitNewline rest with
        | nil =>
            rw [hs] at hseg
            simp only [List.mem_singleton] at hseg
            rw [hseg]
            simp [Ne.symm hb]
        | cons s ss =>
            rw [hs] at hseg ih
            simp only [List.mem_cons] at hseg
            rcases hseg with rfl | h
            · have := ih s (List.mem_cons_self _ _)
              simp [Ne.symm hb, this]
            · exact ih seg (List.mem_cons_of_mem _ h)

theorem splitNewline_single : ∀ p : List Nat, 10 ∉ p → splitNewline p = [p] := by
  intro p
  induction p with
  | nil => intro _; rfl
  | cons b rest ih =>
      intro h
      have hb : b ≠ 10 := fun e => h (by rw [e]; exact List.mem_cons_self _ _)
      have hr : 10 ∉ rest := fun e => h (List.mem_cons_of_mem _ e)
      unfold splitNewline
      rw [if_neg hb, ih hr]

theorem sendLoop_ok (writeResult : Nat → Option GoError)
    (hw : ∀ k, writeResult k = none) :
    ∀ (lines : List (List Nat)) (sw : sseWriter),
      sendLoop writeResult lines sw =
        (none, { sw with writes := sw.writes ++
          ((lines.filter (fun seg => seg ≠ [])).map (fun seg => (sseFrame seg, true))) }) := by
  intro lines
  induction lines with
  | nil => intro sw; simp [sendLoop]
  | cons line rest ih =>
      intro sw
      unfold sendLoop
      by_cases hl : line = []
      · simp only [hl, if_true]
        rw [ih]
        simp
      · simp only [hl, if_false, hw]
        rw [ih]
        simp [List.filter_cons, hl]

/-- Claim C21. When every write to the response writer succeeds, `sseWriter.Write(p)`
performs, for each non-empty segment of `p` between newline bytes and in order, one
write of `data: `, the segment unchanged, and two newlines, performs no other write,
and returns `len(p)` and no error. The segments joined by newlines are `p` again and
hold no newline; so a non-empty `p` without newlines is written as the single frame
`data: <p>` with its blank line, and the response body grows by exactly the frames. -/
theorem sseWriter_Write_frames (writeResult : Nat → Option GoError) (sw : sseWriter)
    (p : List Nat) (hw : ∀ k, writeResult k = none) :
    (sseWriter.Write writeResult sw p).1 = p.length ∧
    (sseWriter.Write writeResult sw p).2.1 = none ∧
    (sseWriter.Write writeResult sw p).2.2.writes = sw.writes ++ framesAsWritten p ∧
    (sseWriter.Write writeResult sw p).2.2.body =
      sw.body ++ (((splitNewline p).filter (fun seg => seg ≠ [])).map sseFrame).flatten ∧
    List.intercalate [10] (splitNewline p) = p ∧
    (∀ seg ∈ splitNewline p, 10 ∉ seg) ∧
    (p ≠ [] → 10 ∉ p →
      (sseWriter.Write writeResult sw p).2.2.writes = sw.writes ++ [(sseFrame p, true)]) := by
  have hwrites : (sseWriter.Write writeResult sw p).2.2.writes =
      sw.writes ++ framesAsWritten p := by
    unfold sseWriter.Write sseWriter.send framesAsWritten
    by_cases hp : p = []
    · simp [hp, splitNewline]
    · simp only [hp, if_false]
      rw [sendLoop_ok writeResult hw]
  refine ⟨?_, ?_, hwrites, ?_, splitNewline_intercalate p, splitNewline_no_newline p, ?_⟩
  · unfold sseWriter.Write sseWriter.send
    by_cases hp : p = []
    · simp [hp]
    · simp only [hp, if_false]
      rw [sendLoop_ok writeResult hw]
  · unfold sseWriter.Write sseWriter.send
    by_cases hp : p = []
    · simp [hp]
    · simp only [hp, if_false]
      rw [sendLoop_ok writeResult hw]
  · unfold sseWriter.body
    rw [hwrites]
    simp [framesAsWritten, List.filter_append, List.filter_map, Function.comp_def]
  · intro hp hn
    rw [hwrites]
    simp [framesAsWritten, splitNewline_single p hn, hp]

/-- Witness for claim C21: the chunks `Hello` and ` World` written one after the
other, then a chunk with newlines. -/
theorem sseWriter_Write_frames_witness :
    (sseWriter.Write (fun _ => none) { writes := [], flushes := 0 }
        (asciiBytes " World")).1 = 6 ∧
      (sseWriter.Write (fun _ => none)
        (sseWriter.Write (fun _ => none) { writes := [], flushes := 0 }
          (asciiBytes "Hello")).2.2 (asciiBytes " World")).2.2.body =
        asciiBytes "data: Hello\n\ndata:  World\n\n" ∧
      (sseWriter.Write (fun _ => none) { writes := [], flushes := 0 }
        (asciiBytes "\n a \n\nb\n")).2.2.writes =
        [(asciiBytes "data:  a \n\n", true), (asciiBytes "data: b\n\n", true)] :=
  ⟨(sseWriter_Write_frames (fun _ => none) { writes := [], flushes := 0 }
      (asciiBytes " World") (fun _ => rfl)).1, by decide, by decide⟩

/-- Concrete run of `sseWriter.Write` with a failing response writer: the second
write fails, the third segment is not written, no flush happens, and the call returns
0 and the error. -/
theorem sseWriter_Write_failed_write :
    sseWriter.Write (fun k => if k = 1 then some (.other "broken pipe".toList) else none)
        { writes := [], flushes := 0 } (asciiBytes "a\nb\nc") =
      (0, some (.other "broken pipe".toList),
        { writes := [(asciiBytes "data: a\n\n", true), (asciiBytes "data: b\n\n", false)],
          flushes := 0 }) := by
  decide

theorem byteLen_pos : ∀ s : GoString, s ≠ [] → 0 < byteLen s := by
  intro s hs
  cases s with
  | nil => exact absurd rfl hs
  | cons c rest =>
      have := Char.utf8Size_pos c
      simp only [byteLen, List.map_cons, List.sum_cons]
      omega

theorem normalizeUsernameLoop_allowed (T : UnicodeTables) :
    ∀ (s : GoString) (b : Bool), ∀ c ∈ normalizeUsernameLoop T s b,
      (T.isLetter c || T.isDigit c || c == '_' || c == '.' || c == '-') = true := by
  intro s
  induction s with
  | nil => intro b c hc; cases hc
  | cons r rest ih =>
      intro b c hc
      unfold normalizeUsernameLoop at hc
      split at hc
      · next h =>
          rcases List.mem_cons.mp hc with rfl | h2
          · simp only [Bool.or_eq_true] at h ⊢
            tauto
          · exact ih _ c h2
      · split at hc
        · split at hc
          · rcases List.mem_cons.mp hc with rfl | h2
            · simp
            · exact ih _ c h2
          · exact ih _ c hc
        · exact ih _ c hc

theorem normalizeUsernameLoop_dots (T : UnicodeTables)
    (hdot : T.isLetter '.' = false ∧ T.isDigit '.' = false) :
    ∀ (s : GoString) (b : Bool),
      List.Chain' (fun x y : Char => ¬ (x = '.' ∧ y = '.')) (normalizeUsernameLoop T s b) ∧
        (b = true → ∀ c ∈ (normalizeUsernameLoop T s b).head?, c ≠ '.') := by
  intro s
  induction s with
  | nil => intro b; simp [normalizeUsernameLoop]
  | cons r rest ih =>
      intro b
      unfold normalizeUsernameLoop
      split
      · next h =>
          have hr : r ≠ '.' := by
            rintro rfl
            simp [hdot.1, hdot.2] at h
          refine ⟨?_, ?_⟩
          · rw [List.chain'_cons']
            exact ⟨fun y _ hy => hr hy.1, (ih false).1⟩
          · intro _ c hc
            simp only [List.head?_cons, Option.mem_def, Option.some.injEq] at hc
            rw [← hc]; exact hr
      · split
        · split
          · next hb =>
              refine ⟨?_, ?_⟩
              · rw [List.chain'_cons']
                exact ⟨fun y hy hyy => (ih true).2 rfl y hy hyy.2, (ih true).1⟩
              · intro hbt
                rw [hbt] at hb
                exact absurd hb (by decide)
          · exact ih b
        · exact ih b

theorem isValidUsernameLoop_ok (T : UnicodeTables) (len : Nat) :
    ∀ (rest : GoString) (i : Nat) (prevDot : Bool), 0 < i →
      (∀ c ∈ rest, (T.isLetter c || T.isDigit c || c == '_' || c == '.' || c == '-') = true) →
      List.Chain' (fun x y : Char => ¬ (x = '.' ∧ y = '.')) rest →
      (prevDot = true → ∀ c ∈ rest.head?, c ≠ '.') →
      (∀ c ∈ rest.getLast?, c ≠ '.' ∧ c ≠ '-') →
      i + byteLen rest = len →
      isValidUsernameLoop T len rest i prevDot = true := by
  intro rest
  induction rest with
  | nil => intro i prevDot _ _ _ _ _ _; rfl
  | cons c rest ih =>
      intro i prevDot hi hall hch hprev hlast hlen
      have hc := hall c (List.mem_cons_self _ _)
      have hsize := Char.utf8Size_pos c
      have hmid : c = '.' ∨ c = '-' → ¬ (i = 0 ∨ i = len - 1) := by
        intro hcd
        have hne : rest ≠ [] := by
          rintro rfl
          have := hlast c (by simp)
          rcases hcd with h | h
          · exact this.1 h
          · exact this.2 h
        have := byteLen_pos rest hne
        simp only [byteLen, List.map_cons, List.sum_cons] at hlen this
        omega
      unfold isValidUsernameLoop
      simp only [hc, Bool.not_true, Bool.false_eq_true, if_false]
      rw [if_neg (fun h => hmid (Or.inl h.1) h.2),
        if_neg (fun h => hprev h.2 c (by simp) h.1),
        if_neg (fun h => hmid (Or.inr h.1) h.2)]
      rw [List.chain'_cons'] at hch
      refine ih _ _ (by omega) (fun x hx => hall x (List.mem_cons_of_mem _ hx)) hch.2 ?_ ?_ ?_
      · intro hd y hy hyy
        exact hch.1 y hy ⟨by simpa using hd, hyy⟩
      · intro y hy
        cases rest with
        | nil => cases hy
        | cons d ds => exact hlast y (by simpa [List.getLast?_cons_cons] using hy)
      · simp only [byteLen, List.map_cons, List.sum_cons] at hlen ⊢
        omega

theorem isValidUsername_of_policy (T : UnicodeTables) (u : GoString) (hne : u ≠ [])
    (hall : ∀ c ∈ u, (T.isLetter c || T.isDigit c || c == '_' || c == '.' || c == '-') = true)
    (hch : List.Chain' (fun x y : Char => ¬ (x = '.' ∧ y = '.')) u)
    (hhead : ∀ c ∈ u.head?, c ≠ '.' ∧ c ≠ '-')
    (hlast : ∀ c ∈ u.getLast?, c ≠ '.' ∧ c ≠ '-') :
    isValidUsername T u = true := by
  unfold isValidUsername
  rw [if_neg (by have := byteLen_pos u hne; omega)]
  cases u with
  | nil => exact absurd rfl hne
  | cons c rest =>
      have hc := hall c (List.mem_cons_self _ _)
      have hh := hhead c (by simp)
      have hsize := Char.utf8Size_pos c
      unfold isValidUsernameLoop
      simp only [hc, Bool.not_true, Bool.false_eq_true, if_false]
      rw [if_neg (fun h => hh.1 h.1), if_neg (fun h => by simp at h),
        if_neg (fun h => hh.2 h.1)]
      rw [List.chain'_cons'] at hch
      refine isValidUsernameLoop_ok T _ rest _ _ (by omega)
        (fun x hx => hall x (List.mem_cons_of_mem _ hx)) hch.2 ?_ ?_ ?_
      · intro hd y hy hyy
        exact hch.1 y hy ⟨by simpa using hd, hyy⟩
      · intro y hy
        cases rest with
        | nil => cases hy
        | cons d ds => exact hlast y (by simpa [List.getLast?_cons_cons] using hy)
      · simp only [byteLen, List.map_cons, List.sum_cons]
        omega

theorem trimCutset_within (s cutset : GoString) : trimCutset s cutset <:+: s :=
  (List.rdropWhile_prefix _ _).isInfix.trans (List.dropWhile_suffix _).isInfix

theorem trimCutset_head (s cutset : GoString) :
    ∀ c ∈ (trimCutset s cutset).head?, cutset.contains c = false := by
  intro c hc
  unfold trimCutset at hc
  have hpre := List.rdropWhile_prefix (fun c => cutset.contains c)
    (s.dropWhile (fun c => cutset.contains c))
  have hd := List.head?_dropWhile_not (fun c => cutset.contains c) s
  obtain ⟨t, ht⟩ := hpre
  cases hr : List.rdropWhile (fun c => cutset.contains c)
      (s.dropWhile (fun c => cutset.contains c)) with
  | nil => rw [hr] at hc; cases hc
  | cons x xs =>
      rw [hr] at hc ht
      simp only [List.head?_cons, Option.mem_def, Option.some.injEq] at hc
      rw [← ht] at hd
      simp only [List.cons_append, List.head?_cons] at hd
      rw [← hc]; exact hd

theorem trimCutset_last (s cutset : GoString) :
    ∀ c ∈ (trimCutset s cutset).getLast?, cutset.contains c = false := by
  intro c hc
  unfold trimCutset at hc
  by_cases hne : List.rdropWhile (fun c => cutset.contains c)
      (s.dropWhile (fun c => cutset.contains c)) = []
  · rw [hne] at hc; cases hc
  · have h := List.rdropWhile_last_not (fun c => cutset.contains c) _ hne
    rw [List.getLast?_eq_getLast _ hne] at hc
    simp only [Option.mem_def, Option.some.injEq] at hc
    rw [← hc]
    simpa using h

theorem normalizeUsername_policy (T : UnicodeTables)
    (hdot : T.isLetter '.' = false ∧ T.isDigit '.' = false) (input : GoString)
    (hne : NormalizeUsername T input ≠ []) :
    usernamePolicy T (NormalizeUsername T input) := by
  have hinf := trimCutset_within (normalizeUsernameLoop T (trimSpace input) false) "-. ".toList
  have hcut : ∀ c : Char, "-. ".toList.contains c = false → c ≠ '.' ∧ c ≠ '-' := by
    intro c h
    constructor <;> rintro rfl <;> revert h <;> decide
  refine ⟨hne, ?_, ?_, ?_, ?_⟩
  · intro c hc
    have := normalizeUsernameLoop_allowed T _ _ c (hinf.subset hc)
    simp only [Bool.or_eq_true, beq_iff_eq] at this
    tauto
  · intro c hc
    exact hcut c (trimCutset_head _ _ c hc)
  · intro c hc
    exact hcut c (trimCutset_last _ _ c hc)
  · obtain ⟨before, after, hout⟩ := hinf
    have hch := (normalizeUsernameLoop_dots T hdot (trimSpace input) false).1
    rw [← hout] at hch
    exact hch.left_of_append.right_of_append

theorem isValidUsername_of_usernamePolicy (T : UnicodeTables) (u : GoString)
    (h : usernamePolicy T u) : isValidUsername T u = true := by
  obtain ⟨hne, hall, hhead, hlast, hch⟩ := h
  refine isValidUsername_of_policy T u hne ?_ hch hhead hlast
  intro c hc
  have := hall c hc
  simp only [Bool.or_eq_true, beq_iff_eq]
  tauto

/-- Claim C22, the code at the failing input. For the empty input, and for the input
` .-. `, `NormalizeUsername` returns the empty string, which `isValidUsername` rejects
at its first test, whichever the tables of letters and digits are. For every input the
validation of the result succeeds exactly when the result is not empty, and a result
that is not empty meets the policy: only letters, digits, underscore, dot and hyphen,
no leading or trailing dot or hyphen, no two consecutive dots. -/
theorem NormalizeUsername_empty_result :
    (∀ T : UnicodeTables, NormalizeUsername T [] = [] ∧
      isValidUsername T (NormalizeUsername T []) = false) ∧
    (∀ T : UnicodeTables, NormalizeUsername T " .-. ".toList = [] ∧
      isValidUsername T (NormalizeUsername T " .-. ".toList) = false) ∧
    (∀ T : UnicodeTables, T.isLetter '.' = false ∧ T.isDigit '.' = false →
      ∀ input : GoString,
        (isValidUsername T (NormalizeUsername T input) = true ↔
          NormalizeUsername T input ≠ []) ∧
        (NormalizeUsername T input ≠ [] → usernamePolicy T (NormalizeUsername T input))) ∧
    NormalizeUsername asciiTables "  ..John..Doe!-- ".toList = "John.Doe".toList ∧
    isValidUsername asciiTables "John.Doe".toList = true := by
  have h5 : ∀ T, NormalizeUsername T " .-. ".toList = [] := by
    intro T
    simp [NormalizeUsername, trimSpace, isSpace, normalizeUsernameLoop, trimCutset]
  refine ⟨fun T => ⟨rfl, rfl⟩, fun T => ⟨h5 T, by rw [h5 T]; rfl⟩, ?_, by decide, by decide⟩
  intro T hdot input
  refine ⟨⟨fun h hnil => ?_, fun h => ?_⟩, normalizeUsername_policy T hdot input⟩
  · rw [hnil] at h
    exact absurd h (by simp [isValidUsername, byteLen])
  · exact isValidUsername_of_usernamePolicy T _ (normalizeUsername_policy T hdot input h)

end Orchestrator
